import Mathlib

/-!
Verification of the `vm` toolchain (KL compiler `src/tools/kl.py` and
assembler/linker `src/tools/assembler.py`) against its design document.

The Python sources are shallowly embedded: every stateful method becomes an
explicit state-passing function, Python dicts become insertion-ordered
association lists, `bytearray` becomes `List Nat` (one `Nat` per byte),
Python exceptions become `Except`, and `struct.pack` becomes an explicit
little-endian encoding modulo `2 ^ 32`.
-/

namespace VM

/-! ## Association-list model of Python dicts

Python dicts preserve insertion order; assigning to an existing key keeps its
position, assigning a fresh key appends.  `dictGet` is `d[k]` (first match),
`dictInsert` is `d[k] = v`, `dictMerge a b` is `{**a, **b}`. -/

def dictGet {β : Type} (l : List (String × β)) (k : String) : Option β :=
  match l with
  | [] => none
  | (k', v) :: t => if k' = k then some v else dictGet t k

def dictContains {β : Type} (l : List (String × β)) (k : String) : Bool :=
  (dictGet l k).isSome

def dictInsert {β : Type} (l : List (String × β)) (k : String) (v : β) :
    List (String × β) :=
  match l with
  | [] => [(k, v)]
  | (k', v') :: t => if k' = k then (k, v) :: t else (k', v') :: dictInsert t k v

def dictMerge {β : Type} (a b : List (String × β)) : List (String × β) :=
  b.foldl (fun acc kv => dictInsert acc kv.1 kv.2) a

def dictKeys {β : Type} (l : List (String × β)) : List String := l.map Prod.fst

/-- Keys of `{**a, **b}`: the keys of `a` in order, then the new keys of `b`. -/
def keysUnion (ka kb : List String) : List String :=
  ka ++ kb.filter (fun k => decide (k ∉ ka))

/-- Nat-keyed dict (used for the `symbols_use` tables keyed by code offsets). -/
def ndictInsert {β : Type} (l : List (Nat × β)) (k : Nat) (v : β) :
    List (Nat × β) :=
  match l with
  | [] => [(k, v)]
  | (k', v') :: t => if k' = k then (k, v) :: t else (k', v') :: ndictInsert t k v

/-! ## Byte-level helpers -/

/-- `struct.pack("<I", v)` / `struct.pack("<i", v)`: four little-endian bytes
of `v` modulo `2 ^ 32` (both formats produce the same bytes for in-range
values; out-of-range values raise in Python and are taken modulo here). -/
def pack_le32 (v : Int) : List Nat :=
  let m := (v.emod 4294967296).toNat
  [m % 256, m / 256 % 256, m / 65536 % 256, m / 16777216 % 256]

/-- `struct.pack` for element sizes 1, 2, 4 (`<B`, `<H`, `<I`). -/
def pack_le (size : Nat) (v : Int) : List Nat :=
  let m := (v.emod ((2 : Int) ^ (8 * size))).toNat
  (List.range size).map (fun i => m / 256 ^ i % 256)

/-- Python `bytearray` slice assignment `c[p:p+len(bs)] = bs` (for `p ≥ 0`;
writing past the end extends the buffer, matching Python slice semantics). -/
def writeBytes (c : List Nat) (p : Nat) (bs : List Nat) : List Nat :=
  c.take p ++ bs ++ c.drop (p + bs.length)

/-- Apply a sequence of byte patches left to right. -/
def applyPatches (c : List Nat) (ps : List (Nat × List Nat)) : List Nat :=
  ps.foldl (fun c pr => writeBytes c pr.1 pr.2) c

/-- The value the last patch covering position `q` writes there, if any. -/
def coverVal : List (Nat × List Nat) → Nat → Option Nat
  | [], _ => none
  | pr :: ps, q =>
    match coverVal ps q with
    | some b => some b
    | none =>
      if pr.1 ≤ q ∧ q < pr.1 + pr.2.length then pr.2.get? (q - pr.1) else none

/-! ## The assembler (`src/tools/assembler.py`) -/

/-- The fixed `INSTRUCTIONS` table: operand shape and opcode bytes. -/
def instructions (name : String) : Option (String × List Nat) :=
  match name with
  | "nop" => some ("", [0x00])
  | "add" => some ("rr", [0x01])
  | "sub" => some ("rr", [0x02])
  | "mul" => some ("rr", [0x03])
  | "div" => some ("rr", [0x04])
  | "and" => some ("rr", [0x05])
  | "or" => some ("rr", [0x06])
  | "xor" => some ("rr", [0x07])
  | "shl" => some ("rr", [0x08])
  | "shr" => some ("rr", [0x09])
  | "stb" => some ("rr", [0x0A])
  | "stw" => some ("rr", [0x0B])
  | "std" => some ("rr", [0x0C])
  | "ldb" => some ("rr", [0x0D])
  | "ldw" => some ("rr", [0x0E])
  | "ldd" => some ("rr", [0x0F])
  | "addi" => some ("ir", [0x10, 0x10])
  | "subi" => some ("ir", [0x10, 0x20])
  | "muli" => some ("ir", [0x10, 0x30])
  | "divi" => some ("ir", [0x10, 0x40])
  | "andi" => some ("ir", [0x10, 0x50])
  | "ori" => some ("ir", [0x10, 0x60])
  | "xori" => some ("ir", [0x10, 0x70])
  | "shli" => some ("ir", [0x10, 0x80])
  | "shri" => some ("ir", [0x10, 0x90])
  | "stbi" => some ("ri", [0x10, 0xA0])
  | "stwi" => some ("ri", [0x10, 0xB0])
  | "stdi" => some ("ri", [0x10, 0xC0])
  | "ldbi" => some ("ir", [0x10, 0xD0])
  | "ldwi" => some ("ir", [0x10, 0xE0])
  | "lddi" => some ("ir", [0x10, 0xF0])
  | "push" => some ("r", [0x20, 0x10])
  | "pop" => some ("r", [0x20, 0x20])
  | "j" => some ("r", [0x20, 0x30])
  | "jt" => some ("r", [0x20, 0x40])
  | "jf" => some ("r", [0x20, 0x50])
  | "call" => some ("r", [0x20, 0x90])
  | "pushi" => some ("i", [0x21])
  | "ji" => some ("i", [0x23])
  | "jti" => some ("i", [0x24])
  | "jfi" => some ("i", [0x25])
  | "calli" => some ("i", [0x29])
  | "cgtq" => some ("rr", [0x2A])
  | "cltq" => some ("rr", [0x2B])
  | "ceq" => some ("rr", [0x2C])
  | "cnq" => some ("rr", [0x2D])
  | "cgt" => some ("rr", [0x2E])
  | "clt" => some ("rr", [0x2F])
  | "movi" => some ("ir", [0x30, 0x10])
  | "bal" => some ("r", [0x30, 0x60])
  | "cgtqi" => some ("ri", [0x30, 0xA0])
  | "cltqi" => some ("ri", [0x30, 0xB0])
  | "ceqi" => some ("ri", [0x30, 0xC0])
  | "cnqi" => some ("ri", [0x30, 0xD0])
  | "cgti" => some ("ri", [0x30, 0xE0])
  | "clti" => some ("ri", [0x30, 0xF0])
  | "mov" => some ("rr", [0x31])
  | "stbii" => some ("ii", [0x32])
  | "stwii" => some ("ii", [0x33])
  | "stdii" => some ("ii", [0x34])
  | "ret" => some ("", [0x35])
  | "syscall" => some ("", [0x40])
  | "iret" => some ("", [0x41])
  | "cli" => some ("", [0x42])
  | "sti" => some ("", [0x43])
  | _ => none

/-- Parsed operand of an instruction or data directive (after the lark parse
and the `.define` word-substitution pass; the numeric token forms `number`,
`hex_number`, `bin_number` and `char` all denote their integer value here). -/
inductive Operand where
  | reg (n : Nat)
  | num (v : Int)
  | label (s : String)
  deriving Repr, DecidableEq

/-- One parsed assembly line (a child of the lark `program` tree). -/
inductive Directive where
  | instr (name : String) (ops : List Operand)
  | label_line (name : String)
  | d_byte (v : Operand) (amount : Option Int)
  | d_word (v : Operand) (amount : Option Int)
  | d_dword (v : Operand) (amount : Option Int)
  | d_export (name : String)
  | d_import (name : String)
  | d_define (name : String)
  deriving Repr, DecidableEq

/-- A pending symbol use: `{"pos": ..., "symbol": ...}` as recorded by
`Assembler.read_imm`. -/
structure UseEntry where
  pos : Int
  symbol : String
  deriving Repr, DecidableEq

/-- The `Assembler` object's state.  `errors` collects the messages the
Python code prints with `click.echo(..., err=True)`. -/
structure Asm where
  code : List Nat := []
  global_symbols_def : List (String × Int) := []
  global_symbols_use : List (Nat × UseEntry) := []
  symbols_def : List (String × Int) := []
  symbols_use : List (Nat × UseEntry) := []
  to_import : List String := []
  to_export : List String := []
  pos_offset : Int := 0
  errors : List String := []
  deriving Repr, DecidableEq

/-- `Assembler.preprocess`: reset the per-file tables and collect the
`.import`/`.export` pragmas in source order (the `.define` substitution is
already reflected in the `Directive` operands). -/
def Asm.preprocess (s : Asm) (ds : List Directive) : Asm :=
  { s with
    symbols_def := []
    symbols_use := []
    to_import := ds.filterMap (fun d => match d with
      | .d_import n => some n
      | _ => none)
    to_export := ds.filterMap (fun d => match d with
      | .d_export n => some n
      | _ => none) }

/-- `Assembler.read_imm`: a literal yields its value; a symbol reference
records a use at the current buffer length and yields the `0xFFFFFFFF`
placeholder.  The method reads `self.symbols_use`, `len(self.code)` and
`self.pos_offset`, which are passed explicitly here.  A register operand
cannot appear in an immediate slot (grammar-enforced), so it is modelled as a
failure. -/
def read_imm (uses : List (Nat × UseEntry)) (code_len : Nat)
    (pos_offset : Int) (op : Operand) :
    Option (List (Nat × UseEntry) × Int) :=
  match op with
  | .num v => some (uses, v)
  | .label l =>
    some (ndictInsert uses code_len ⟨(code_len : Int) + pos_offset, l⟩,
      4294967295)
  | .reg _ => none

/-- Read a register operand (`int(node[0])` on a `register` tree). -/
def getReg (op : Operand) : Option Nat :=
  match op with
  | .reg n => some n
  | _ => none

/-- Set the last byte of the buffer to `last ||| r` (the
`self.code[-1] = self.code[-1] | r1` register-nibble packing). -/
def orLastByte (c : List Nat) (r : Nat) : List Nat :=
  match c with
  | [] => []
  | _ :: _ => c.dropLast ++ [c.getLast! ||| r]

/-- `Assembler.assemble`, one directive.  `Except.error` models an uncaught
Python exception (`KeyError` for an unknown mnemonic, malformed operands). -/
def Asm.assemble_one (s : Asm) (d : Directive) : Except String Asm :=
  match d with
  | .instr name ops =>
    match instructions name with
    | none => .error "KeyError"
    | some (shape, opcode) =>
      let c1 := s.code ++ opcode
      match shape with
      | "rr" =>
        match ops with
        | [o1, o2] =>
          match getReg o1, getReg o2 with
          | some r1, some r2 => .ok { s with code := c1 ++ [(r1 <<< 4) ||| r2] }
          | _, _ => .error "TypeError"
        | _ => .error "IndexError"
      | "ri" =>
        match ops with
        | [o1, o2] =>
          match getReg o1 with
          | some r1 =>
            match read_imm s.symbols_use c1.length s.pos_offset o2 with
            | some (su, imm) =>
              .ok { s with code := orLastByte c1 r1 ++ pack_le32 imm
                           symbols_use := su }
            | none => .error "TypeError"
          | none => .error "TypeError"
        | _ => .error "IndexError"
      | "ir" =>
        match ops with
        | [o1, o2] =>
          match read_imm s.symbols_use c1.length s.pos_offset o1 with
          | some (su, imm) =>
            match getReg o2 with
            | some r1 =>
              .ok { s with code := orLastByte c1 r1 ++ pack_le32 imm
                           symbols_use := su }
            | none => .error "TypeError"
          | none => .error "TypeError"
        | _ => .error "IndexError"
      | "r" =>
        match ops with
        | [o1] =>
          match getReg o1 with
          | some r1 => .ok { s with code := orLastByte c1 r1 }
          | none => .error "TypeError"
        | _ => .error "IndexError"
      | "i" =>
        match ops with
        | [o1] =>
          match read_imm s.symbols_use c1.length s.pos_offset o1 with
          | some (su, imm) =>
            .ok { s with code := c1 ++ pack_le32 imm, symbols_use := su }
          | none => .error "TypeError"
        | _ => .error "IndexError"
      | "ii" =>
        match ops with
        | [o1, o2] =>
          match read_imm s.symbols_use c1.length s.pos_offset o1 with
          | some (su1, imm1) =>
            match read_imm su1 c1.length s.pos_offset o2 with
            | some (su2, imm2) =>
              .ok { s with code := c1 ++ pack_le32 imm1 ++ pack_le32 imm2
                           symbols_use := su2 }
            | none => .error "TypeError"
          | none => .error "TypeError"
        | _ => .error "IndexError"
      | _ => .error "shape"
  | .label_line name =>
    if dictContains s.symbols_def name then
      .ok { s with errors := s.errors ++ [s!"ERROR: duplicate symbol \x27{name}\x27"] }
    else
      let d := dictInsert s.symbols_def name ((s.code.length : Int) + s.pos_offset)
      .ok { s with symbols_def := d }
  | .d_byte v amount =>
    match read_imm s.symbols_use s.code.length s.pos_offset v with
    | some (su, imm) =>
      let n := (amount.getD 1).toNat
      .ok { s with code := s.code ++ (List.replicate n (pack_le 1 imm)).flatten
                   symbols_use := su }
    | none => .error "TypeError"
  | .d_word v amount =>
    match read_imm s.symbols_use s.code.length s.pos_offset v with
    | some (su, imm) =>
      let n := (amount.getD 1).toNat
      .ok { s with code := s.code ++ (List.replicate n (pack_le 2 imm)).flatten
                   symbols_use := su }
    | none => .error "TypeError"
  | .d_dword v amount =>
    match read_imm s.symbols_use s.code.length s.pos_offset v with
    | some (su, imm) =>
      let n := (amount.getD 1).toNat
      .ok { s with code := s.code ++ (List.replicate n (pack_le 4 imm)).flatten
                   symbols_use := su }
    | none => .error "TypeError"
  | .d_export _ => .ok s
  | .d_import _ => .ok s
  | .d_define _ => .ok s

/-- `Assembler.assemble` over a parsed file. -/
def Asm.assemble (s : Asm) (ds : List Directive) : Except String Asm :=
  ds.foldlM Asm.assemble_one s

/-- The patch loop of `Assembler.link`: for every recorded use, patch the
buffer, carry an imported symbol to the global use table (per-file link
only), or report it unresolved.  The accumulator is
`(code, global_symbols_use, errors)`. -/
def link_uses (defs : List (String × Int)) (to_import : List String)
    (final : Bool) (uses : List (Nat × UseEntry))
    (acc : List Nat × List (Nat × UseEntry) × List String) :
    List Nat × List (Nat × UseEntry) × List String :=
  uses.foldl (fun acc pu =>
    match dictGet defs pu.2.symbol with
    | some pos_def => (writeBytes acc.1 pu.1 (pack_le32 pos_def), acc.2.1, acc.2.2)
    | none =>
      if pu.2.symbol ∈ to_import ∧ final = false then
        (acc.1, ndictInsert acc.2.1 pu.1 pu.2, acc.2.2)
      else
        (acc.1, acc.2.1,
          acc.2.2 ++ [s!"ERROR: unresolved symbol \x27{pu.2.symbol}\x27"]))
    acc

/-- The export-publishing loop of `Assembler.link` (per-file link only).
The accumulator is `(global_symbols_def, errors)`. -/
def publish_exports (to_export : List String) (defs : List (String × Int))
    (acc : List (String × Int) × List String) :
    List (String × Int) × List String :=
  defs.foldl (fun acc kv =>
    if kv.1 ∈ to_export then
      if dictContains acc.1 kv.1 then
        (acc.1, acc.2 ++ [s!"ERROR: duplicate symbol \x27{kv.1}\x27"])
      else
        (acc.1 ++ [(kv.1, kv.2)], acc.2)
    else acc) acc

/-- `Assembler.link`.  When `final` is true the per-file tables are first
aliased to the global ones (so the patch loop runs over the global uses) and
the export-publishing step is skipped. -/
def Asm.link (s : Asm) (final : Bool) : Asm :=
  let defs := if final then s.global_symbols_def else s.symbols_def
  let uses := if final then s.global_symbols_use else s.symbols_use
  let r := link_uses defs s.to_import final uses
    (s.code, s.global_symbols_use, s.errors)
  let pk :=
    if final then (s.global_symbols_def, r.2.2)
    else publish_exports s.to_export s.symbols_def (s.global_symbols_def, r.2.2)
  { s with
    code := r.1
    global_symbols_use := r.2.1
    global_symbols_def := pk.1
    errors := pk.2
    symbols_def := if final then pk.1 else s.symbols_def
    symbols_use := if final then r.2.1 else s.symbols_use }

/-- The byte patches the `Assembler.link` patch loop performs: one 4-byte
write per use whose symbol resolves in `defs`. -/
def link_patches (defs : List (String × Int)) (uses : List (Nat × UseEntry)) :
    List (Nat × List Nat) :=
  uses.filterMap (fun pu =>
    (dictGet defs pu.2.symbol).map (fun d => (pu.1, pack_le32 d)))

/-- One command-line input of the assembler CLI: a `@RELOC:<origin>` token or
a parsed file. -/
inductive AsmInput where
  | reloc (origin : Int)
  | file (ds : List Directive)

/-- The per-input loop of the assembler CLI `run`: a `@RELOC` token sets
`pos_offset` so the next emitted byte lands at the given origin; a file is
preprocessed, assembled and locally linked. -/
def Asm.run_inputs (s : Asm) (ins : List AsmInput) : Except String Asm :=
  ins.foldlM (fun s i =>
    match i with
    | .reloc origin => .ok { s with pos_offset := origin - (s.code.length : Int) }
    | .file ds => do
      let s := s.preprocess ds
      let s ← s.assemble ds
      .ok (s.link false)) s

/-! ## The KL compiler (`src/tools/kl.py`) -/

def UNSIGNED_INT_TYPES : List String := ["uint8", "uint16", "uint32"]

def SIGNED_INT_TYPES : List String := ["int8", "int16", "int32"]

def INT_TYPES : List String := UNSIGNED_INT_TYPES ++ SIGNED_INT_TYPES

/-- `TYPE_SIZES` (a `KeyError` is `none`). -/
def TYPE_SIZES (t : String) : Option Nat :=
  match t with
  | "uint8" => some 1
  | "uint16" => some 2
  | "uint32" => some 4
  | "int8" => some 1
  | "int16" => some 2
  | "int32" => some 4
  | _ => none

/-- `SIZE_DIRECTIVES`. -/
def SIZE_DIRECTIVES (n : Nat) : Option String :=
  match n with
  | 1 => some "byte"
  | 2 => some "word"
  | 4 => some "dword"
  | _ => none

/-- `TYPE_DIRECTIVES = {t: SIZE_DIRECTIVES[TYPE_SIZES[t]] for t in TYPE_SIZES}`. -/
def TYPE_DIRECTIVES (t : String) : Option String :=
  (TYPE_SIZES t).bind SIZE_DIRECTIVES

/-- `TYPES = list(TYPE_SIZES.keys()) + ["void"]`. -/
def TYPES : List String :=
  ["uint8", "uint16", "uint32", "int8", "int16", "int32", "void"]

/-- `d[0]` of a directive string (`"byte"` → `"b"`, …). -/
def dirHead (d : String) : String := d.take 1

/-- A KL AST `Node`: the `value`/`type` pair becomes a three-way sum, with the
`(line, col)` origin on every constructor. -/
inductive Node where
  | int (value : Int) (line col : Nat)
  | word (value : String) (line col : Nat)
  | list (value : List Node) (line col : Nat)
  deriving Repr

mutual

def Node.decEq : (a b : Node) → Decidable (a = b)
  | .int v1 l1 c1, .int v2 l2 c2 =>
    if h : v1 = v2 ∧ l1 = l2 ∧ c1 = c2 then
      isTrue (by obtain ⟨rfl, rfl, rfl⟩ := h; rfl)
    else
      isFalse (fun he => by injection he with h1 h2 h3; exact h ⟨h1, h2, h3⟩)
  | .word v1 l1 c1, .word v2 l2 c2 =>
    if h : v1 = v2 ∧ l1 = l2 ∧ c1 = c2 then
      isTrue (by obtain ⟨rfl, rfl, rfl⟩ := h; rfl)
    else
      isFalse (fun he => by injection he with h1 h2 h3; exact h ⟨h1, h2, h3⟩)
  | .list v1 l1 c1, .list v2 l2 c2 =>
    match Node.decEqList v1 v2 with
    | isTrue hv =>
      if h : l1 = l2 ∧ c1 = c2 then
        isTrue (by obtain ⟨rfl, rfl⟩ := h; rw [hv])
      else
        isFalse (fun he => by injection he with h1 h2 h3; exact h ⟨h2, h3⟩)
    | isFalse hv => isFalse (fun he => by injection he with h1 h2 h3; exact hv h1)
  | .int _ _ _, .word _ _ _ => isFalse (fun he => Node.noConfusion he)
  | .int _ _ _, .list _ _ _ => isFalse (fun he => Node.noConfusion he)
  | .word _ _ _, .int _ _ _ => isFalse (fun he => Node.noConfusion he)
  | .word _ _ _, .list _ _ _ => isFalse (fun he => Node.noConfusion he)
  | .list _ _ _, .int _ _ _ => isFalse (fun he => Node.noConfusion he)
  | .list _ _ _, .word _ _ _ => isFalse (fun he => Node.noConfusion he)

def Node.decEqList : (a b : List Node) → Decidable (a = b)
  | [], [] => isTrue rfl
  | [], _ :: _ => isFalse (fun he => List.noConfusion he)
  | _ :: _, [] => isFalse (fun he => List.noConfusion he)
  | a :: as, b :: bs =>
    match Node.decEq a b, Node.decEqList as bs with
    | isTrue h1, isTrue h2 => isTrue (by rw [h1, h2])
    | isFalse h1, _ => isFalse (fun he => by injection he with x y; exact h1 x)
    | isTrue _, isFalse h2 =>
      isFalse (fun he => by injection he with x y; exact h2 y)

end

instance : DecidableEq Node := Node.decEq

def Node.line : Node → Nat
  | .int _ l _ => l
  | .word _ l _ => l
  | .list _ l _ => l

def Node.col : Node → Nat
  | .int _ _ co => co
  | .word _ _ co => co
  | .list _ _ co => co

/-- `node.type` (the tag string). -/
def Node.typeTag : Node → String
  | .int .. => "int"
  | .word .. => "word"
  | .list .. => "list"

/-- `node.id`, the `f"{line}_{col}"` suffix used to mint labels. -/
def Node.nid (n : Node) : String := s!"{n.line}_{n.col}"

mutual

/-- Python `repr` of `node.lit()` elements (only reachable through `str` on a
list node, which no covered code path does for well-formed inputs). -/
def Node.pyRepr : Node → String
  | .int v _ _ => toString v
  | .word s _ _ => "\x27" ++ s ++ "\x27"
  | .list xs _ _ => "[" ++ String.intercalate ", " (pyReprList xs) ++ "]"

def pyReprList : List Node → List String
  | [] => []
  | n :: t => Node.pyRepr n :: pyReprList t

end

/-- `str(node)` = `str(node.lit())` (used by f-strings such as
`f"#{node[2]}"`). -/
def Node.pyStr : Node → String
  | .int v _ _ => toString v
  | .word s _ _ => s
  | .list xs _ _ => "[" ++ String.intercalate ", " (pyReprList xs) ++ "]"

/-- A variable record.  Globals are stored without an `offset` key in the
source, hence the `Option`. -/
structure VarRec where
  global : Bool
  offset : Option Int
  node : Node
  type : String
  length : Nat
  deriving Repr, DecidableEq

structure FuncRec where
  node : Node
  type : String
  args : List String
  deriving Repr, DecidableEq

structure FieldRec where
  name : String
  type : String
  deriving Repr, DecidableEq

structure StructRec where
  node : Node
  fields : List FieldRec
  size : Nat
  deriving Repr, DecidableEq

/-- One scope (a Python dict from names to variable records). -/
abbrev Scope := List (String × VarRec)

/-- The `Compiler` object's state.  `vars` keeps the innermost scope at the
head and the module/global scope (Python index 0) last. -/
structure Compiler where
  code : String
  funcs : List (String × FuncRec)
  structs : List (String × StructRec)
  vars : List Scope
  sp_offset : Int
  /-- `self.directives["private"]`. -/
  private_directive : Bool
  path : String
  /-- `self.source_code`, already split into lines. -/
  source_code : Option (List String)
  line : Nat
  comment : Bool
  type_checking : String
  definitions_mode : Bool
  import_mode : Bool
  deriving Repr, DecidableEq

/-- `self.vars[-1]` (the innermost scope); `none` models the `IndexError` on
an empty scope stack. -/
def Compiler.varsInner (c : Compiler) : Option Scope := c.vars.head?

/-- `self.vars[0]` (the global scope). -/
def Compiler.varsGlobal (c : Compiler) : Scope := c.vars.getLastD []

/-- Replace the innermost scope. -/
def Compiler.setInner (c : Compiler) (sc : Scope) : Compiler :=
  { c with vars := sc :: c.vars.tail }

/-- Replace the global scope (`self.vars[0] = …`). -/
def Compiler.setGlobal (c : Compiler) (sc : Scope) : Compiler :=
  { c with vars := c.vars.dropLast ++ [sc] }

/-- `self.vars.append({})`. -/
def Compiler.pushScope (c : Compiler) : Compiler := { c with vars := [] :: c.vars }

/-- `self.vars.pop()`. -/
def Compiler.popScope (c : Compiler) : Compiler := { c with vars := c.vars.tail }

/-- `self.code += str`. -/
def Compiler.emit (c : Compiler) (str : String) : Compiler :=
  { c with code := c.code ++ str }

/-- A compiler failure: a `CompileError` with the offending node's
coordinates, an uncaught Python exception, or exhausted recursion fuel (an
artifact of the embedding; Python recursion is unbounded). -/
inductive CErr where
  | compileError (message : String) (line col : Nat)
  | pyExc (message : String)
  | outOfFuel
  deriving Repr, DecidableEq

/-- `raise CompileError(message, node)`. -/
def cerr (message : String) (n : Node) : CErr :=
  .compileError message n.line n.col

/-- How Python renders a type operand in error f-strings (`str(None)` is
`"None"`). -/
def pyTypeStr : Option String → String
  | some s => s
  | none => "None"

/-- `value in LIST` for a value that may be Python `None`. -/
def optMem (o : Option String) (ts : List String) : Bool :=
  match o with
  | some t => decide (t ∈ ts)
  | none => false

/-- `max(l, r, key=ts.index)` (both already members of `ts`). -/
def indexMax (ts : List String) (l r : Option String) : Option String :=
  match l, r with
  | some a, some b => if ts.indexOf a < ts.indexOf b then some b else some a
  | _, _ => none

/-- `Compiler.merge_types`.  `none` stands for Python `None`, both as the
silent result in `off` mode and as the type of a value-less expression. -/
def Compiler.merge_types (c : Compiler) (l r : Option String) (n : Node) :
    Except CErr (Option String) :=
  if c.type_checking = "off" then .ok none
  else if l = r then .ok l
  else if l = some "int" ∧ optMem r INT_TYPES then .ok r
  else if optMem l INT_TYPES ∧ r = some "int" then .ok l
  else if c.type_checking = "loose" ∧ optMem l UNSIGNED_INT_TYPES ∧
      optMem r UNSIGNED_INT_TYPES then
    .ok (indexMax UNSIGNED_INT_TYPES l r)
  else if c.type_checking = "loose" ∧ optMem l SIGNED_INT_TYPES ∧
      optMem r SIGNED_INT_TYPES then
    .ok (indexMax SIGNED_INT_TYPES l r)
  else
    .error (cerr s!"cannot merge types \x27{pyTypeStr l}\x27 and \x27{pyTypeStr r}\x27" n)

/-- The `top_level` form list. -/
def top_level : List String := ["fn", "static", "array", "import", "struct"]

/-- The root / non-root shape checks at the top of `generate_expression`
(everything before the comment step). -/
def checkTopLevel (node : Node) (root : Bool) : Except CErr Unit :=
  if root then
    match node with
    | .list xs _ _ =>
      match xs with
      | [] => .error (.pyExc "IndexError")
      | h :: _ =>
        match h with
        | .word s _ _ =>
          if s ∉ top_level ++ ["asm"] ∧ ¬s.startsWith "@" then
            .error (cerr "invalid top-level expression" node)
          else .ok ()
        | .int _ _ _ => .error (.pyExc "TypeError")
        | .list ys _ _ =>
          if ys = [] then .error (.pyExc "IndexError")
          else .error (cerr "invalid top-level expression" node)
    | _ => .error (cerr "top-level expression must be list" node)
  else
    match node with
    | .list xs _ _ =>
      match xs with
      | [] => .error (.pyExc "IndexError")
      | h :: _ =>
        match h with
        | .word s _ _ =>
          if s ∈ top_level then .error (cerr "expression must be top-level" node)
          else .ok ()
        | _ => .ok ()
    | _ => .ok ()

/-- The comment-annotation step (`if self.comment and not definitions_mode
and node.line > self.line`). -/
def commentStep (c : Compiler) (node : Node) : Except CErr Compiler :=
  if c.comment ∧ ¬c.definitions_mode ∧ node.line > c.line then
    let c := { c with line := node.line }
    match c.source_code with
    | some src =>
      match src.get? (node.line - 1) with
      | some ln => .ok (c.emit (s!"; >>> {c.path}:{node.line} | {ln}" ++ "\n"))
      | none => .error (.pyExc "IndexError")
    | none => .ok (c.emit (s!"; >>> {c.path}:{node.line}" ++ "\n"))
  else .ok c

/-- The body of the macro closure `f`: expand `(zero …)` and `(str …)`,
leave every other node unchanged.  The `(str …)` replacement reproduces the
node positions `parse("addr (data uint8 ())", line, col)` assigns. -/
def applyMacro (c : Compiler) (n : Node) : Except CErr Node :=
  match n with
  | .list ((.word "zero" _ _) :: rest) line col =>
    if (rest.length + 1) ≠ 2 then .error (cerr "wrong number of arguments" n)
    else
      match rest with
      | [arg] =>
        match arg with
        | .int v _ _ =>
          .ok (.list (List.replicate v.toNat (.int 0 line col)) line col)
        | .word w _ _ =>
          if dictContains c.structs w then
            match dictGet c.structs w with
            | some st =>
              .ok (.list (List.replicate st.size (.int 0 line col)) line col)
            | none => .error (.pyExc "KeyError")
          else if w ∈ TYPES then
            match TYPE_SIZES w with
            | some sz =>
              .ok (.list (List.replicate sz (.int 0 line col)) line col)
            | none => .error (.pyExc "KeyError")
          else .error (cerr "invalid argument" n)
        | .list _ _ _ => .error (.pyExc "TypeError")
      | _ => .error (.pyExc "IndexError")
  | .list ((.word "str" _ _) :: rest) line col =>
    if (rest.length + 1) ≠ 2 then .error (cerr "wrong number of arguments" n)
    else
      match rest with
      | [arg] =>
        match arg with
        | .list ys _ _ =>
          if ys ≠ [] ∧ ys.all (fun y => y.typeTag = "int") then
            .ok (.list [.word "addr" line (col + 1),
              .list [.word "data" line (col + 7), .word "uint8" line (col + 12),
                arg] line (col + 6)] line col)
          else .error (cerr "argument must be string or list of bytes" n)
        | _ => .error (cerr "argument must be string or list of bytes" n)
      | _ => .error (.pyExc "IndexError")
  | _ => .ok n

/-- `Node.transform(f)`: apply `f`, then recurse into the (possibly replaced)
children. -/
def transformNode (c : Compiler) : Nat → Node → Except CErr Node
  | 0, _ => .error .outOfFuel
  | fuel + 1, n => do
    let n2 ← applyMacro c n
    match n2 with
    | .list xs line col => do
      let xs2 ← xs.mapM (transformNode c fuel)
      .ok (.list xs2 line col)
    | other => .ok other

/-- `chunks(l, 2)`. -/
def chunks2 : List Node → List (List Node)
  | [] => []
  | [a] => [[a]]
  | a :: b :: t => [a, b] :: chunks2 t

/-- `"".join(chr(val.value) for val in nodes)` (each node must be an integer
byte; `chr` fails outside the Unicode range). -/
def strOfBytes : List Node → Except CErr String
  | [] => .ok ""
  | .int v _ _ :: t =>
    if 0 ≤ v ∧ v < 1114112 then do
      let srest ← strOfBytes t
      .ok (String.mk [Char.ofNat v.toNat] ++ srest)
    else .error (.pyExc "ValueError")
  | _ :: _ => .error (.pyExc "TypeError")

/-- `node.value in TYPES`-style membership test on a node. -/
def nodeValIn (n : Node) (ts : List String) : Bool :=
  match n with
  | .word s _ _ => decide (s ∈ ts)
  | _ => false

/-- The register-register lowering table of the binary-operator branch. -/
def binOpCode (op : String) (r : Nat) : String :=
  match op with
  | "+" => s!"add ${r+1} ${r}\n"
  | "-" => s!"sub ${r+1} ${r}\n"
  | "*" => s!"mul ${r+1} ${r}\n" ++ s!"mov $13 ${r}\n"
  | "/" => s!"div ${r+1} ${r}\n" ++ s!"mov $14 ${r}\n"
  | "%" => s!"div ${r+1} ${r}\n" ++ s!"mov $13 ${r}\n"
  | "<" => s!"clt ${r} ${r+1}\n"
  | ">" => s!"cgt ${r} ${r+1}\n"
  | "<=" => s!"cltq ${r} ${r+1}\n"
  | ">=" => s!"cgtq ${r} ${r+1}\n"
  | "==" => s!"ceq ${r} ${r+1}\n"
  | "!=" => s!"cnq ${r} ${r+1}\n"
  | "&" => s!"and ${r+1} ${r}\n"
  | "|" => s!"or ${r+1} ${r}\n"
  | "<<" => s!"shl ${r+1} ${r}\n"
  | ">>" => s!"shr ${r+1} ${r}\n"
  | _ => ""

/-- The fifteen binary-operator head words. -/
def binOps : List String :=
  ["+", "-", "*", "/", "%", "<", ">", ">=", "<=", "==", "!=", "&", "|",
   "<<", ">>"]

/-- Scope-stack lookup, innermost first (`for scope in reversed(self.vars)`). -/
def lookupVar : List Scope → String → Option VarRec
  | [], _ => none
  | sc :: rest, name =>
    match dictGet sc name with
    | some v => some v
    | none => lookupVar rest name

/-- `TYPE_DIRECTIVES[t]` where `t` may be Python `None`. -/
def typeDirOf (t : Option String) : Option String :=
  match t with
  | some ts => TYPE_DIRECTIVES ts
  | none => none

/-- `TYPE_SIZES[t]` where `t` may be Python `None`. -/
def typeSizeOf (t : Option String) : Option Nat :=
  match t with
  | some ts => TYPE_SIZES ts
  | none => none

/-- Walk a struct's fields accumulating the byte offset of `fname`
(`found`, `offset`, `type` in the source). -/
def findField : List FieldRec → String → Nat → Except CErr (Option (Nat × String))
  | [], _, _ => .ok none
  | f :: rest, fname, off =>
    if f.name = fname then .ok (some (off, f.type))
    else
      match TYPE_SIZES f.type with
      | some sz => findField rest fname (off + sz)
      | none => .error (.pyExc "KeyError")

/-- The filesystem seen by `(import "path")`: maps a path to the parsed AST
of the file (`open(path)` + `parse(code)` in the source). -/
def FileEnv : Type := String → Option Node

/-- `Compiler(definitions_mode=True, import_mode=True)` with all other
constructor defaults, as built by the import branch. -/
def importSubCompiler : Compiler :=
  { code := "", funcs := [], structs := [], vars := [[]], sp_offset := 0,
    private_directive := false, path := "<unknown>", source_code := none,
    line := 0, comment := false, type_checking := "loose",
    definitions_mode := true, import_mode := true }

/-- The reset at the start of a compilation pass (`self.code = ""` …). -/
def Compiler.resetTables (c : Compiler) : Compiler :=
  { c with code := "", funcs := [], structs := [], vars := [[]], line := 0 }


/-- `Compiler.generate_expression`.  The recursion is fuelled; every branch
mirrors the corresponding `elif` of the source.  `fs` models the filesystem
read by the `(import …)` form. -/
def generate_expression (fs : FileEnv) :
    Nat → Compiler → Node → Bool → Bool → Nat →
    Except CErr (Compiler × Option String)
  | 0, _, _, _, _, _ => .error .outOfFuel
  | fuel + 1, c0, node0, root, statement, r => do
    let node ← if root ∧ ¬c0.definitions_mode then
        transformNode c0 (fuel + 1) node0
      else pure node0
    let _ ← checkTopLevel node root
    let c ← commentStep c0 node
    match node with
    | .int v _ _ => .ok (c.emit s!"mov {v} ${r}\n", some "int")
    | .word w _ _ =>
      match w.data with
      | [] => .error (.pyExc "IndexError")
      | wc0 :: wrest =>
        let addr := wc0 = '&'
        let name := if addr then String.mk wrest else w
        match lookupVar c.vars name with
        | none => .error (cerr "undefined variable" node)
        | some var =>
          if var.global then
            if addr then .ok (c.emit s!"mov #{name} ${r}\n", some var.type)
            else
              match TYPE_DIRECTIVES var.type with
              | none => .error (.pyExc "KeyError")
              | some dir =>
                let dh := dirHead dir
                .ok (c.emit (s!"mov #{name} ${r+1}\n" ++
                  s!"ld{dh} ${r+1} ${r}\n"), some var.type)
          else
            match var.offset with
            | none => .error (.pyExc "KeyError")
            | some off =>
              if addr then
                let c := c.emit s!"mov $12 ${r}\n"
                let c := if off < 0 then c.emit s!"sub {-off} ${r}\n"
                  else c.emit s!"add {off} ${r}\n"
                .ok (c, some var.type)
              else
                let c := c.emit s!"mov $12 ${r+1}\n"
                let c := if off < 0 then c.emit s!"sub {-off} ${r+1}\n"
                  else c.emit s!"add {off} ${r+1}\n"
                match TYPE_DIRECTIVES var.type with
                | none => .error (.pyExc "KeyError")
                | some dir =>
                  let dh := dirHead dir
                  .ok (c.emit s!"ld{dh} ${r+1} ${r}\n", some var.type)
    | .list xs _ _ =>
      match xs with
      | [] => .error (.pyExc "IndexError")
      | h :: rest =>
        match h with
        | .int _ _ _ => .error (cerr "undefined function" node)
        | .list _ _ _ => .error (.pyExc "TypeError")
        | .word hws _ _ =>
          match hws with
          | "@private" =>
            if xs.length ≠ 1 then .error (cerr "wrong number of arguments" node)
            else if c.import_mode then
              .ok ({ c with private_directive := true }, none)
            else .ok (c, none)
          | "import" =>
            if xs.length ≠ 2 then .error (cerr "wrong number of arguments" node)
            else
              match rest with
              | [arg] =>
                match arg with
                | .list ys _ _ =>
                  if c.definitions_mode then .ok (c, none)
                  else do
                    let path ← strOfBytes ys.dropLast
                    match fs path with
                    | none => .error (.pyExc "IOError")
                    | some ast =>
                      match ast with
                      | .list forms _ _ => do
                        let sub ← forms.foldlM (fun cc nd => do
                            let p ← generate_expression fs fuel cc nd true false 1
                            pure p.1) importSubCompiler.resetTables
                        let c := { c with
                          funcs := dictMerge c.funcs sub.funcs
                          structs := dictMerge c.structs sub.structs }
                        let c := c.setGlobal
                          (dictMerge c.varsGlobal sub.varsGlobal)
                        let names := keysUnion (dictKeys sub.funcs)
                          (dictKeys sub.varsGlobal)
                        let c := c.emit (String.join (names.map
                          (fun sym => s!".import #{sym}\n")))
                        .ok (c, none)
                      | _ => .error (.pyExc "TypeError")
                | _ => .error (cerr "file name must be string or list of bytes" node)
              | _ => .error (.pyExc "IndexError")
          | "fn" =>
            if xs.length < 4 then .error (cerr "wrong number of arguments" node)
            else
              match rest with
              | tN :: nmN :: paramsN :: body =>
                match tN with
                | .word tStr _ _ =>
                  if tStr ∉ TYPES then
                    .error (cerr "first argument must be type" node)
                  else if nmN.typeTag ≠ "word" then
                    .error (cerr "invalid function name" node)
                  else
                    let nm := nmN.pyStr
                    match paramsN with
                    | .list params _ _ =>
                      if c.definitions_mode then
                        if dictContains c.funcs nm then
                          .error (cerr "cannot declare function twice" node)
                        else do
                          let _ ← params.foldlM (fun (_ : Unit) arg =>
                              match arg with
                              | .list ap _ _ =>
                                if ap.length ≠ 2 then
                                  .error (cerr "wrong number of arguments" node)
                                else
                                  match ap with
                                  | [a0, a1] =>
                                    if ¬nodeValIn a0 TYPES then
                                      .error (cerr "first argument must be type" node)
                                    else
                                      match a1 with
                                      | .word a1s _ _ =>
                                        match c.varsInner with
                                        | some inner =>
                                          if dictContains inner a1s then
                                            .error (cerr "cannot define parameter twice" node)
                                          else .ok ()
                                        | none => .error (.pyExc "IndexError")
                                      | _ => .error (cerr "invalid parameter name" node)
                                  | _ => .error (.pyExc "IndexError")
                              | _ => .error (cerr "invalid parameter definition" node)) ()
                          let argTys ← params.mapM (fun arg =>
                              match arg with
                              | .list (a0 :: _) _ _ =>
                                match a0 with
                                | .word a0s _ _ => pure a0s
                                | _ => .error (.pyExc "TypeError")
                              | _ => .error (.pyExc "TypeError"))
                          let c := if ¬c.private_directive then
                              { c with funcs :=
                                dictInsert c.funcs nm ⟨node, tStr, argTys⟩ }
                            else c
                          .ok ({ c with private_directive := false }, none)
                      else do
                        let c := { c with sp_offset := 0 }
                        let c := c.pushScope
                        let pr ← params.foldlM
                            (fun (p : Compiler × Int) arg =>
                              match arg with
                              | .list (a0 :: a1 :: _) _ _ =>
                                match a0, a1 with
                                | .word a0s _ _, .word a1s _ _ =>
                                  match p.1.varsInner with
                                  | some inner =>
                                    pure (p.1.setInner (dictInsert inner a1s
                                      ⟨false, some p.2, arg, a0s, 1⟩), p.2 + 4)
                                  | none => .error (.pyExc "IndexError")
                                | _, _ => .error (.pyExc "TypeError")
                              | _ => .error (.pyExc "TypeError")) (c, 8)
                        let c := pr.1.emit (s!".export #{nm}\n" ++ s!"#{nm}:\n"
                          ++ "push $12\nmov $15 $12\n")
                        let c ← body.foldlM (fun cc e => do
                            let p ← generate_expression fs fuel cc e false true r
                            pure p.1) c
                        let c := c.emit "mov $12 $15\npop $12\nret\n"
                        .ok (c.popScope, none)
                    | _ => .error (cerr "third argument must be parameter list" node)
                | _ => .error (cerr "first argument must be type" node)
              | _ => .error (.pyExc "IndexError")
          | "struct" =>
            if xs.length < 3 then .error (cerr "wrong number of arguments" node)
            else
              match rest with
              | nmN :: fieldNodes =>
                match nmN with
                | .word nm _ _ =>
                  if c.definitions_mode then do
                    let facc ← fieldNodes.foldlM
                        (fun (acc : List FieldRec × Nat) field =>
                          match field with
                          | .list [a0, a1] _ _ =>
                            if ¬nodeValIn a0 TYPES then
                              .error (cerr "first argument must be type" node)
                            else
                              match a1 with
                              | .word a1s _ _ =>
                                match c.varsInner with
                                | some inner =>
                                  if dictContains inner a1s then
                                    .error (cerr "cannot define struct field twice" node)
                                  else
                                    match a0 with
                                    | .word a0s _ _ =>
                                      match TYPE_SIZES a0s with
                                      | some sz =>
                                        pure (acc.1 ++ [⟨a1s, a0s⟩], acc.2 + sz)
                                      | none => .error (.pyExc "KeyError")
                                    | _ => .error (.pyExc "TypeError")
                                | none => .error (.pyExc "IndexError")
                              | _ => .error (cerr "invalid struct field name" node)
                          | .list _ _ _ =>
                            .error (cerr "invalid struct field definition" node)
                          | .word ws _ _ =>
                            if ws.length = 2 then .error (.pyExc "AttributeError")
                            else .error (cerr "invalid struct field definition" node)
                          | .int _ _ _ => .error (.pyExc "TypeError")) ([], 0)
                    let c := if ¬c.private_directive then
                        { c with structs :=
                          dictInsert c.structs nm ⟨node, facc.1, facc.2⟩ }
                      else c
                    .ok ({ c with private_directive := false }, none)
                  else .ok (c, none)
                | _ => .error (cerr "first argument must be struct name" node)
              | _ => .error (.pyExc "IndexError")
          | "while" =>
            if xs.length = 1 then .error (cerr "wrong number of arguments" node)
            else if ¬statement then
              .error (cerr "while loop cannot be used in expression" node)
            else
              match rest with
              | cnd :: body => do
                let nid := node.nid
                let c := c.pushScope
                let c := c.emit s!"#__while_{nid}:\n"
                let p ← generate_expression fs fuel c cnd false false r
                let c := p.1.emit s!"bf #__while_{nid}_end\n"
                let c ← body.foldlM (fun cc e => do
                    let p2 ← generate_expression fs fuel cc e false true r
                    pure p2.1) c
                let k := (c.varsInner.getD []).length
                let c := c.emit (String.join (List.replicate k "pop $0\n"))
                let c := { c with sp_offset := c.sp_offset + 4 * (k : Int) }
                let c := c.emit (s!"b #__while_{nid}\n" ++ s!"#__while_{nid}_end:\n")
                .ok (c.popScope, none)
              | _ => .error (.pyExc "IndexError")
          | "cond" =>
            if xs.length = 1 ∨ xs.length % 2 ≠ 1 then
              .error (cerr "wrong number of arguments" node)
            else if ¬statement then
              .error (cerr "cond statement cannot be used in expression" node)
            else do
              let nid := node.nid
              let pr ← (chunks2 rest).foldlM (fun (p : Compiler × Nat) blk => do
                  let i := p.2
                  match blk with
                  | [] => .error (cerr "cond branch cannot be empty" node)
                  | cnd :: blkRest => do
                    let p1 ← generate_expression fs fuel p.1 cnd false false r
                    let c := p1.1.emit s!"bf #__cond_{nid}_{i}\n"
                    match blkRest with
                    | [] => .error (.pyExc "IndexError")
                    | bodyN :: _ =>
                      match bodyN with
                      | .list bodyStmts _ _ => do
                        let c ← bodyStmts.foldlM (fun cc e => do
                            let p2 ← generate_expression fs fuel cc e false true r
                            pure p2.1) c
                        let c := c.emit (s!"b #__cond_{nid}_end\n" ++
                          s!"#__cond_{nid}_{i}:\n")
                        pure (c, i + 1)
                      | _ => .error (.pyExc "TypeError")) (c, 0)
              let c := pr.1.emit s!"#__cond_{nid}_end:\n"
              .ok (c, none)
          | "switch" =>
            if xs.length ≤ 2 ∨ xs.length % 2 ≠ 0 then
              .error (cerr "wrong number of arguments" node)
            else if ¬statement then
              .error (cerr "switch statement cannot be used in expression" node)
            else
              match rest with
              | scrut :: cases => do
                let nid := node.nid
                let p0 ← generate_expression fs fuel c scrut false false r
                let c := p0.1.emit s!"mov ${r} ${r+1}\n"
                let pr ← (chunks2 cases).foldlM (fun (p : Compiler × Nat) blk => do
                    let i := p.2
                    match blk with
                    | [] => .error (cerr "switch branch cannot be empty" node)
                    | cnd :: blkRest => do
                      let c := p.1.emit s!"push ${r+1}\n"
                      let p1 ← generate_expression fs fuel c cnd false false r
                      let c := p1.1.emit (s!"pop ${r+1}\n" ++ s!"ceq ${r} ${r+1}\n"
                        ++ s!"bf #__switch_{nid}_{i}\n")
                      match blkRest with
                      | [] => .error (.pyExc "IndexError")
                      | bodyN :: _ =>
                        match bodyN with
                        | .list bodyStmts _ _ => do
                          let c ← bodyStmts.foldlM (fun cc e => do
                              let p2 ← generate_expression fs fuel cc e false true r
                              pure p2.1) c
                          let c := c.emit (s!"b #__switch_{nid}_end\n" ++
                            s!"#__switch_{nid}_{i}:\n")
                          pure (c, i + 1)
                        | _ => .error (.pyExc "TypeError")) (c, 0)
                let c := pr.1.emit s!"#__switch_{nid}_end:\n"
                .ok (c, none)
              | _ => .error (.pyExc "IndexError")
          | "static" =>
            if xs.length ≠ 4 ∧ xs.length ≠ 3 then
              .error (cerr "wrong number of arguments" node)
            else
              match rest with
              | tN :: nmN :: initOpt =>
                match tN with
                | .word tStr _ _ =>
                  if tStr ∉ TYPES then
                    .error (cerr "first argument must be type" node)
                  else if nmN.typeTag ≠ "word" then
                    .error (cerr "invalid variable name" node)
                  else do
                    let nm := nmN.pyStr
                    let _ ← (if xs.length = 4 then
                        match initOpt with
                        | iN :: _ =>
                          if iN.typeTag ≠ "int" ∧ iN.typeTag ≠ "list" then
                            .error (cerr "static variable must be integer or array of integers" node)
                          else .ok ()
                        | [] => .error (.pyExc "IndexError")
                      else .ok () : Except CErr Unit)
                    if c.definitions_mode then
                      if dictContains c.varsGlobal nm then
                        .error (cerr "cannot declare variable twice" node)
                      else
                        let len : Nat := match nmN with
                          | .list ys2 _ _ => ys2.length
                          | _ => 1
                        let c := if ¬c.private_directive then
                            c.setGlobal (dictInsert c.varsGlobal nm
                              ⟨true, none, node, tStr, len⟩)
                          else c
                        .ok ({ c with private_directive := false }, none)
                    else
                      if xs.length = 3 then
                        match TYPE_DIRECTIVES tStr with
                        | some dir =>
                          .ok (c.emit (s!".export #{nm}\n" ++ s!"#{nm}:\n" ++
                            s!".{dir} 0\n"), none)
                        | none => .error (.pyExc "KeyError")
                      else
                        match initOpt with
                        | iN :: _ =>
                          match iN with
                          | .int v _ _ =>
                            match TYPE_DIRECTIVES tStr with
                            | some dir =>
                              .ok (c.emit (s!".export #{nm}\n" ++ s!"#{nm}:\n" ++
                                s!".{dir} " ++ s!"{v}\n"), none)
                            | none => .error (.pyExc "KeyError")
                          | .list elems _ _ => do
                            let c := c.emit (s!".export #{nm}\n" ++ s!"#{nm}:\n")
                            let c ← elems.foldlM (fun cc e =>
                                match e with
                                | .int v _ _ =>
                                  match TYPE_DIRECTIVES tStr with
                                  | some dir => pure (cc.emit s!".{dir} {v}\n")
                                  | none => .error (.pyExc "KeyError")
                                | _ => .error (cerr "array element must be integer literal" node)) c
                            .ok (c, none)
                          | _ => .error (.pyExc "TypeError")
                        | [] => .error (.pyExc "IndexError")
                | _ => .error (cerr "first argument must be type" node)
              | _ => .error (.pyExc "IndexError")
          | "local" =>
            if xs.length ≠ 4 ∧ xs.length ≠ 3 then
              .error (cerr "wrong number of arguments" node)
            else
              match rest with
              | tN :: nmN :: initOpt =>
                match tN with
                | .word tStr _ _ =>
                  if tStr ∉ TYPES then
                    .error (cerr "first argument must be type" node)
                  else if nmN.typeTag ≠ "word" then
                    .error (cerr "invalid variable name" node)
                  else if ¬statement then
                    .error (cerr "local variable cannot be declared in expression" node)
                  else
                    let nm := nmN.pyStr
                    match c.varsInner with
                    | none => .error (.pyExc "IndexError")
                    | some inner =>
                      if dictContains inner nm then
                        .error (cerr "cannot declare variable twice" node)
                      else do
                        let c ← if xs.length = 3 then
                            pure (c.emit s!"mov $0 ${r}\n")
                          else
                            match initOpt with
                            | iN :: _ => do
                              let p ← generate_expression fs fuel c iN false false r
                              let _ ← p.1.merge_types (some tStr) p.2 node
                              pure p.1
                            | [] => .error (.pyExc "IndexError")
                        let c := c.emit s!"push ${r}\n"
                        let sp := c.sp_offset - 4
                        let c := { c with sp_offset := sp }
                        match c.varsInner with
                        | some inner2 =>
                          .ok (c.setInner (dictInsert inner2 nm
                            ⟨false, some sp, node, tStr, 1⟩), none)
                        | none => .error (.pyExc "IndexError")
                | _ => .error (cerr "first argument must be type" node)
              | _ => .error (.pyExc "IndexError")
          | "return" =>
            if xs.length > 2 then .error (cerr "wrong number of arguments" node)
            else if ¬statement then
              .error (cerr "return cannot be used in expression" node)
            else do
              let c ← if xs.length = 2 then
                  match rest with
                  | e0 :: _ => do
                    let p ← generate_expression fs fuel c e0 false false r
                    pure (if r ≠ 1 then p.1.emit s!"mov ${r} $1\n" else p.1)
                  | [] => .error (.pyExc "IndexError")
                else pure c
              .ok (c.emit "mov $12 $15\npop $12\nret\n", none)
          | "set-var" =>
            if xs.length ≠ 3 then .error (cerr "wrong number of arguments" node)
            else
              match rest with
              | [e1, e2] =>
                if e1.typeTag ≠ "word" then
                  .error (cerr "first argument must be variable name" node)
                else do
                  let pL ← generate_expression fs fuel c e1 false false r
                  let c := pL.1.emit s!"push ${r+1}\n"
                  let pR ← generate_expression fs fuel c e2 false false r
                  match typeDirOf pL.2 with
                  | some dir =>
                    let dh := dirHead dir
                    let c := pR.1.emit (s!"pop ${r+1}\n" ++
                      s!"st{dh} ${r} ${r+1}\n")
                    let _ ← c.merge_types pL.2 pR.2 node
                    .ok (c, pL.2)
                  | none => .error (.pyExc "KeyError")
              | _ => .error (.pyExc "IndexError")
          | "set-8" | "set-16" | "set-32" =>
            if xs.length ≠ 3 then .error (cerr "wrong number of arguments" node)
            else
              let sz := match hws with
                | "set-8" => "b"
                | "set-16" => "w"
                | _ => "d"
              match rest with
              | [e1, e2] => do
                let p1 ← generate_expression fs fuel c e1 false false r
                let c := p1.1.emit s!"push ${r}\n"
                let p2 ← generate_expression fs fuel c e2 false false r
                let c := p2.1.emit (s!"pop ${r+1}\n" ++ s!"st{sz} ${r} ${r+1}\n")
                .ok (c, p2.2)
              | _ => .error (.pyExc "IndexError")
          | "get-8" | "get-16" | "get-32" =>
            if xs.length ≠ 2 then .error (cerr "wrong number of arguments" node)
            else
              let sz := match hws with
                | "get-8" => "b"
                | "get-16" => "w"
                | _ => "d"
              let rty := match sz with
                | "b" => "uint8"
                | "w" => "uint16"
                | _ => "uint32"
              match rest with
              | [e1] => do
                let p1 ← generate_expression fs fuel c e1 false false r
                .ok (p1.1.emit s!"ld{sz} ${r} ${r}\n", some rty)
              | _ => .error (.pyExc "IndexError")
          | "get" | "set" =>
            if (hws = "get" ∧ xs.length ≠ 3) ∨ (hws = "set" ∧ xs.length ≠ 4) then
              .error (cerr "wrong number of arguments" node)
            else
              match rest with
              | fieldRef :: rest2 =>
                match fieldRef with
                | .word w _ _ =>
                  if (w.toList.filter (fun ch => ch = '.')).length ≠ 1 then
                    .error (cerr "first argument must be struct field" node)
                  else
                    match w.splitOn "." with
                    | [sname, fname] =>
                      match dictGet c.structs sname with
                      | none => .error (cerr "undefined struct" node)
                      | some st => do
                        let fOpt ← findField st.fields fname 0
                        match fOpt with
                        | none => .error (cerr "undefined struct field" node)
                        | some (offset, fty) =>
                          if hws = "get" then
                            match rest2 with
                            | [e2] => do
                              let p ← generate_expression fs fuel c e2 false false r
                              let c := p.1.emit s!"mov ${r} ${r+1}\n"
                              let c := if offset ≠ 0 then
                                  c.emit s!"add {offset} ${r+1}\n"
                                else c
                              match TYPE_DIRECTIVES fty with
                              | some dir =>
                                let dh := dirHead dir
                                .ok (c.emit s!"ld{dh} ${r+1} ${r}\n", some fty)
                              | none => .error (.pyExc "KeyError")
                            | _ => .error (.pyExc "IndexError")
                          else
                            match rest2 with
                            | [e2, e3] => do
                              let p ← generate_expression fs fuel c e2 false false r
                              let c := p.1.emit s!"push ${r}\n"
                              let p3 ← generate_expression fs fuel c e3 false false r
                              let _ ← p3.1.merge_types (some fty) p3.2 node
                              let c := p3.1.emit s!"pop ${r+1}\n"
                              let c := if offset ≠ 0 then
                                  c.emit s!"add {offset} ${r+1}\n"
                                else c
                              match TYPE_DIRECTIVES fty with
                              | some dir =>
                                let dh := dirHead dir
                                .ok (c.emit s!"st{dh} ${r} ${r+1}\n", none)
                              | none => .error (.pyExc "KeyError")
                            | _ => .error (.pyExc "IndexError")
                    | _ => .error (.pyExc "ValueError")
                | _ => .error (cerr "first argument must be struct field" node)
              | [] => .error (.pyExc "IndexError")
          | "size" =>
            if xs.length ≠ 2 then .error (cerr "wrong number of arguments" node)
            else
              match rest with
              | [arg] =>
                match arg with
                | .word w _ _ =>
                  if dictContains c.structs w then
                    match dictGet c.structs w with
                    | some st => .ok (c.emit s!"mov {st.size} ${r}\n", some "uint32")
                    | none => .error (.pyExc "KeyError")
                  else if w ∈ TYPES then
                    match TYPE_SIZES w with
                    | some sz => .ok (c.emit s!"mov {sz} ${r}\n", some "uint32")
                    | none => .error (.pyExc "KeyError")
                  else .error (cerr "invalid argument" node)
                | .int _ _ _ => .error (cerr "invalid argument" node)
                | .list _ _ _ => .error (.pyExc "TypeError")
              | _ => .error (.pyExc "IndexError")
          | "cast" =>
            if xs.length ≠ 3 then .error (cerr "wrong number of arguments" node)
            else
              match rest with
              | tN :: e2 :: _ =>
                match tN with
                | .word tStr _ _ =>
                  if tStr ∉ TYPES then
                    .error (cerr "first argument must be type" node)
                  else do
                    let p ← generate_expression fs fuel c e2 false false r
                    .ok (p.1, some tStr)
                | _ => .error (cerr "first argument must be type" node)
              | _ => .error (.pyExc "IndexError")
          | "addr" =>
            if xs.length ≠ 2 then .error (cerr "wrong number of arguments" node)
            else
              match rest with
              | [e1] => do
                let p ← generate_expression fs fuel c e1 false false r
                .ok (p.1.emit s!"mov ${r+1} ${r}\n", some "uint32")
              | _ => .error (.pyExc "IndexError")
          | "bool" =>
            if xs.length > 2 then .error (cerr "wrong number of arguments" node)
            else do
              let c ← if xs.length = 2 then
                  match rest with
                  | e1 :: _ => do
                    let p ← generate_expression fs fuel c e1 false false r
                    pure p.1
                  | [] => .error (.pyExc "IndexError")
                else pure c
              let nid := node.nid
              .ok (c.emit (s!"mov $0 ${r}\n" ++ s!"bf #__bool_{nid}_1\n" ++
                s!"mov 1 ${r}\n" ++ s!"#__bool_{nid}_1:\n"), some "uint8")
          | "true" | "false" =>
            if xs.length ≠ 1 then .error (cerr "wrong number of arguments" node)
            else
              .ok (c.emit ((if hws = "true" then "ceq" else "cnq") ++ " $0 $0\n"),
                none)
          | "elem-var" =>
            if xs.length ≠ 3 then .error (cerr "wrong number of arguments" node)
            else
              match rest with
              | [e1, e2] =>
                if e1.typeTag ≠ "word" then
                  .error (cerr "first argument must be variable name" node)
                else do
                  let pL ← generate_expression fs fuel c e1 false false r
                  let c := pL.1.emit s!"push ${r+1}\n"
                  let pR ← generate_expression fs fuel c e2 false false r
                  let c := pR.1.emit s!"pop ${r+1}\n"
                  match typeSizeOf pL.2 with
                  | some sz =>
                    let c := if sz ≠ 1 then
                        c.emit (s!"mul {sz} ${r}\n" ++ s!"add $13 ${r+1}\n")
                      else c.emit s!"add ${r} ${r+1}\n"
                    match typeDirOf pL.2 with
                    | some dir =>
                      let dh := dirHead dir
                      .ok (c.emit s!"ld{dh} ${r+1} ${r}\n", pL.2)
                    | none => .error (.pyExc "KeyError")
                  | none => .error (.pyExc "KeyError")
              | _ => .error (.pyExc "IndexError")
          | "elem-8" | "elem-16" | "elem-32" =>
            if xs.length ≠ 3 then .error (cerr "wrong number of arguments" node)
            else
              let sz : Nat := match hws with
                | "elem-8" => 1
                | "elem-16" => 2
                | _ => 4
              match rest with
              | [e1, e2] => do
                let p1 ← generate_expression fs fuel c e1 false false r
                let c := p1.1.emit s!"push ${r}\n"
                let p2 ← generate_expression fs fuel c e2 false false r
                let c := p2.1.emit s!"pop ${r+1}\n"
                let c := if sz ≠ 1 then
                    c.emit (s!"mul {sz} ${r}\n" ++ s!"add $13 ${r+1}\n")
                  else c.emit s!"add ${r} ${r+1}\n"
                match SIZE_DIRECTIVES sz with
                | some dir =>
                  let dh := dirHead dir
                  let rty := match sz with
                    | 1 => "uint8"
                    | 2 => "uint16"
                    | _ => "uint32"
                  .ok (c.emit s!"ld{dh} ${r+1} ${r}\n", some rty)
                | none => .error (.pyExc "KeyError")
              | _ => .error (.pyExc "IndexError")
          | "len-var" =>
            if xs.length ≠ 2 then .error (cerr "wrong number of arguments" node)
            else
              match rest with
              | [e1] =>
                match e1 with
                | .word w _ _ =>
                  match dictGet c.varsGlobal w with
                  | none => .error (cerr "undefined static variable" node)
                  | some var =>
                    .ok (c.emit s!"mov {var.length} ${r}\n", some "uint32")
                | _ => .error (cerr "first argument must be variable name" node)
              | _ => .error (.pyExc "IndexError")
          | "asm" =>
            if xs.length = 1 then .error (cerr "wrong number of arguments" node)
            else if ¬c.definitions_mode then do
              let c ← rest.foldlM (fun cc arg =>
                  match arg with
                  | .list ys _ _ =>
                    if ys ≠ [] ∧ ys.all (fun y => y.typeTag = "int") then do
                      let str ← strOfBytes ys.dropLast
                      pure (cc.emit (str ++ "\n"))
                    else
                      .error (cerr "inline assembly must be string or list of bytes" arg)
                  | _ =>
                    .error (cerr "inline assembly must be string or list of bytes" arg)) c
              .ok (c, none)
            else .ok (c, none)
          | "data" =>
            if xs.length ≠ 3 then .error (cerr "wrong number of arguments" node)
            else
              match rest with
              | [tN, dN] =>
                match tN with
                | .word tStr _ _ =>
                  if tStr ∉ TYPES then
                    .error (cerr "first argument must be type" node)
                  else
                    let nid := node.nid
                    match dN with
                    | .int v _ _ =>
                      match TYPE_DIRECTIVES tStr with
                      | some dir =>
                        let c := { c with code := s!"#__data_{nid}:\n" ++
                          s!".{dir} {v}\n" ++ c.code }
                        let dh := dirHead dir
                        .ok (c.emit (s!"mov #__data_{nid} ${r+1}\n" ++
                          s!"ld{dh} ${r+1} ${r}\n"), some tStr)
                      | none => .error (.pyExc "KeyError")
                    | .list ys _ _ =>
                      if ys ≠ [] ∧ ys.all (fun y => y.typeTag = "int") then
                        match TYPE_DIRECTIVES tStr with
                        | some dir =>
                          let body := String.intercalate "\n"
                            (ys.map (fun y => s!".{dir} " ++ y.pyStr))
                          let c := { c with code := s!"#__data_{nid}:\n" ++
                            body ++ "\n" ++ c.code }
                          let dh := dirHead dir
                          .ok (c.emit (s!"mov #__data_{nid} ${r+1}\n" ++
                            s!"ld{dh} ${r+1} ${r}\n"), some tStr)
                        | none => .error (.pyExc "KeyError")
                      else .error (cerr "invalid data type" node)
                    | _ => .error (cerr "invalid data type" node)
                | _ => .error (cerr "first argument must be type" node)
              | _ => .error (.pyExc "IndexError")
          | "+" | "-" | "*" | "/" | "%" | "<" | ">" | ">=" | "<=" | "=="
          | "!=" | "&" | "|" | "<<" | ">>" =>
            if xs.length ≠ 3 then .error (cerr "wrong number of arguments" node)
            else
              match rest with
              | [e1, e2] => do
                let pR ← generate_expression fs fuel c e2 false false r
                let c := pR.1.emit s!"push ${r}\n"
                let pL ← generate_expression fs fuel c e1 false false r
                let c := pL.1.emit s!"pop ${r+1}\n"
                let c := c.emit (binOpCode hws r)
                let t ← c.merge_types pL.2 pR.2 node
                .ok (c, t)
              | _ => .error (.pyExc "IndexError")
          | _ =>
            match dictGet c.funcs hws with
            | some func =>
              if xs.length - 1 ≠ func.args.length then
                .error (cerr "wrong number of arguments" node)
              else do
                let c ← (rest.reverse.zip func.args.reverse).foldlM
                    (fun cc pa => do
                      let p ← generate_expression fs fuel cc pa.1 false false r
                      let _ ← p.1.merge_types p.2 (some pa.2) pa.1
                      pure (p.1.emit s!"push ${r}\n")) c
                let c := c.emit s!"jal #{hws}\n"
                let c := if r ≠ 1 then c.emit s!"mov $1 ${r}\n" else c
                let c := c.emit
                  (String.join (List.replicate rest.length "pop $0\n"))
                .ok (c, some func.type)
            | none => .error (cerr "undefined function" node)

/-- The `for node in ast: generate_expression(node, root=True)` loop of
`Compiler.compile` (iterating a non-list node raises). -/
def rootLoop (fs : FileEnv) (fuel : Nat) (c : Compiler) (ast : Node) :
    Except CErr Compiler :=
  match ast with
  | .list forms _ _ =>
    forms.foldlM (fun cc nd => do
      let p ← generate_expression fs fuel cc nd true false 1
      pure p.1) c
  | _ => .error (.pyExc "TypeError")

/-- `Compiler.compile`: when called with `definitions_mode` unset it first
reruns itself in definitions mode (which resets the tables and walks the
tree), then walks the tree again with emission enabled. -/
def compileRun (fs : FileEnv) (fuel : Nat) (c : Compiler) (ast : Node) :
    Except CErr Compiler :=
  if c.definitions_mode then rootLoop fs fuel c.resetTables ast
  else do
    let c1 ← rootLoop fs fuel ({ c with definitions_mode := true }).resetTables ast
    rootLoop fs fuel { c1 with definitions_mode := false } ast


/-! ## Concrete fixtures -/

/-- `Compiler()` with the constructor's defaults. -/
def Compiler.init : Compiler :=
  { code := "", funcs := [], structs := [], vars := [[]], sp_offset := 0,
    private_directive := false, path := "<unknown>", source_code := none,
    line := 0, comment := false, type_checking := "loose",
    definitions_mode := false, import_mode := false }

/-- A filesystem with no readable files. -/
def fsNone : FileEnv := fun _ => none


/-- A compiler state with a two-argument function `g` declared and type
checking off. -/
def c1W : Compiler :=
  { Compiler.init with
      type_checking := "off"
      funcs := [("g", ⟨.int 0 0 0, "void", ["uint32", "uint32"]⟩)] }

/-- `parse("(array uint32 xs 4)")`. -/
def c2Ast : Node :=
  .list [.list [.word "array" 1 3, .word "uint32" 1 9, .word "xs" 1 16,
    .int 4 1 19] 1 2] 1 1

/-- `parse` of `(static uint32 arr (1 2 3))` followed by
`(fn uint32 f () (return (len-var arr)))`. -/
def c4Ast : Node :=
  .list [.list [.word "static" 1 3, .word "uint32" 1 10, .word "arr" 1 17,
      .list [.int 1 1 22, .int 2 1 24, .int 3 1 26] 1 21] 1 2,
    .list [.word "fn" 2 3, .word "uint32" 2 6, .word "f" 2 13,
      .list [] 2 15,
      .list [.word "return" 2 19,
        .list [.word "len-var" 2 27, .word "arr" 2 35] 2 26] 2 18] 2 2] 1 1


/-- The word heads that own a dedicated branch of `generate_expression`; a
form whose head is none of these falls through to the function-call lookup. -/
def specialHeads : List String :=
  ["@private", "import", "fn", "struct", "while", "cond", "switch", "static",
   "local", "return", "set-var", "set-8", "set-16", "set-32", "get-8",
   "get-16", "get-32", "get", "set", "size", "cast", "addr", "bool", "true",
   "false", "elem-var", "elem-8", "elem-16", "elem-32", "len-var", "asm",
   "data"] ++ binOps


/-- The parsed library `(fn void vf ((uint32 a)) (return))`. -/
def libFnW : Node :=
  .list [.word "fn" 1 3, .word "void" 1 6, .word "vf" 1 11,
    .list [.list [.word "uint32" 1 16, .word "a" 1 23] 1 15] 1 14,
    .list [.word "return" 1 28] 1 27] 1 2

/-- The parsed library `(static uint32 gv 5)`. -/
def libStaticW : Node :=
  .list [.word "static" 2 3, .word "uint32" 2 10, .word "gv" 2 17,
    .int 5 2 20] 2 2

/-- A filesystem holding one library file named `l`. -/
def fsLib : FileEnv := fun p =>
  if p = "l" then some (.list [libFnW, libStaticW] 1 1) else none

/-- The byte nodes of the parsed string `"l"` (code 108 plus the
terminator). -/
def c3ysW : List Node := [.int 108 1 11, .int 0 1 12]

/-- The sub-compiler state after the definitions-only pass over the library
`l`. -/
def subW : Compiler :=
  { code := "", funcs := [("vf", ⟨libFnW, "void", ["uint32"]⟩)], structs := [],
    vars := [[("gv", ⟨true, none, libStaticW, "uint32", 1⟩)]], sp_offset := 0,
    private_directive := false, path := "<unknown>", source_code := none,
    line := 0, comment := false, type_checking := "loose",
    definitions_mode := true, import_mode := true }


/-- One lowering step's effect on the scope stack: either the stack and
`sp_offset` are untouched, or the stack keeps its depth and outer scopes,
the innermost scope only grows, and `sp_offset` drops by 4 per new innermost
binding. -/
def StackOk (c c2 : Compiler) : Prop :=
  (c2.vars = c.vars ∧ c2.sp_offset = c.sp_offset) ∨
  (∃ h0 t new, c.vars = h0 :: t ∧ c2.vars = (h0 ++ new) :: t ∧
    c2.sp_offset = c.sp_offset - 4 * new.length)

/-- `parse` of the statement `(cond 1 ((local uint32 z 5)))`. -/
def c6CondNode : Node :=
  .list [.word "cond" 1 3, .int 1 1 8,
    .list [.list [.word "local" 1 12, .word "uint32" 1 18, .word "z" 1 25,
      .int 5 1 27] 1 11] 1 10] 1 2

/-- `parse` of the statement `(while 1 (local uint32 z 5))`. -/
def c6WhileNode : Node :=
  .list [.word "while" 1 3, .int 1 1 9,
    .list [.word "local" 1 12, .word "uint32" 1 18, .word "z" 1 25,
      .int 5 1 27] 1 11] 1 2

/-- The compiler state after lowering `c6WhileNode` from the initial state:
only code was emitted. -/
def c6WhileResult : Compiler :=
  { Compiler.init with code := "#__while_1_2:\nmov 1 $1\nbf #__while_1_2_end\nmov 5 $1\npush $1\npop $0\nb #__while_1_2\n#__while_1_2_end:\n" }

/-- The call-argument lowering discipline of the function-call branch:
the (already reversed) argument/parameter pairs are processed left to
right, each argument is evaluated into register `r` by
`generate_expression`, its type is merged against the declared parameter
type, and `push $r` is emitted immediately after, threading the compiler
state from `cc` to `cf`. -/
def ArgsLowered (fs : FileEnv) (fuel r : Nat) :
    Compiler → List (Node × String) → Compiler → Prop
  | cc, [], cf => cf = cc
  | cc, pa :: l, cf => ∃ (p : Compiler × Option String) (mt : Option String),
      generate_expression fs fuel cc pa.1 false false r = .ok p ∧
      p.1.merge_types p.2 (some pa.2) pa.1 = .ok mt ∧
      ArgsLowered fs fuel r (p.1.emit s!"push ${r}\n") l cf

/-! ## Byte-patch lemmas -/

theorem length_pack_le32 (v : Int) : (pack_le32 v).length = 4 := rfl

theorem length_writeBytes {c bs : List Nat} {p : Nat}
    (h : p + bs.length ≤ c.length) : (writeBytes c p bs).length = c.length := by
  simp only [writeBytes, List.length_append, List.length_take, List.length_drop]
  omega

theorem getElem?_writeBytes {buf bs : List Nat} {p : Nat}
    (h : p + bs.length ≤ buf.length) (q : Nat) :
    (writeBytes buf p bs)[q]? =
      if p ≤ q ∧ q < p + bs.length then bs[q - p]? else buf[q]? := by
  have ht : (buf.take p).length = p := by
    simp only [List.length_take]
    omega
  unfold writeBytes
  rw [List.append_assoc]
  by_cases h1 : q < p
  · rw [List.getElem?_append_left (by omega), List.getElem?_take]
    simp only [h1, if_true]
    rw [if_neg (by omega)]
  · rw [List.getElem?_append_right (by omega), ht]
    by_cases h2 : q < p + bs.length
    · rw [List.getElem?_append_left (by omega)]
      rw [if_pos ⟨by omega, h2⟩]
    · rw [List.getElem?_append_right (by omega)]
      rw [List.getElem?_drop]
      rw [if_neg (by omega)]
      congr 1
      omega

theorem length_applyPatches {ps : List (Nat × List Nat)} {buf : List Nat}
    (h : ∀ pr ∈ ps, pr.1 + pr.2.length ≤ buf.length) :
    (applyPatches buf ps).length = buf.length := by
  induction ps generalizing buf with
  | nil => rfl
  | cons pr ps ih =>
    have h1 : pr.1 + pr.2.length ≤ buf.length := h pr (by simp)
    have hw := @length_writeBytes buf pr.2 pr.1 h1
    have step : applyPatches buf (pr :: ps) =
        applyPatches (writeBytes buf pr.1 pr.2) ps := by
      simp [applyPatches]
    rw [step]
    rw [@ih (writeBytes buf pr.1 pr.2)
      (fun u hu => by rw [hw]; exact h u (by simp [hu]))]
    exact hw

theorem getElem?_applyPatches {ps : List (Nat × List Nat)} {buf : List Nat}
    (h : ∀ pr ∈ ps, pr.1 + pr.2.length ≤ buf.length) (q : Nat) :
    (applyPatches buf ps)[q]? = Option.or (coverVal ps q) buf[q]? := by
  induction ps generalizing buf with
  | nil => simp [applyPatches, coverVal]
  | cons pr ps ih =>
    have h1 : pr.1 + pr.2.length ≤ buf.length := h pr (by simp)
    have hw := @length_writeBytes buf pr.2 pr.1 h1
    have step : applyPatches buf (pr :: ps) =
        applyPatches (writeBytes buf pr.1 pr.2) ps := by
      simp [applyPatches]
    rw [step, ih (fun u hu => by rw [hw]; exact h u (by simp [hu]))]
    rw [coverVal]
    cases hcv : coverVal ps q with
    | some b => rfl
    | none =>
      rw [getElem?_writeBytes h1 q]
      simp only [Option.none_or]
      by_cases hc : pr.1 ≤ q ∧ q < pr.1 + pr.2.length
      · rw [if_pos hc, if_pos hc]
        have hlt : q - pr.1 < pr.2.length := by omega
        obtain ⟨b, hb⟩ : ∃ b, pr.2[q - pr.1]? = some b :=
          ⟨pr.2[q - pr.1], List.getElem?_eq_some.mpr ⟨hlt, rfl⟩⟩
        rw [hb]
        rw [show pr.2.get? (q - pr.1) = pr.2[q - pr.1]? from
          List.get?_eq_getElem? _ _, hb]
        rfl
      · rw [if_neg hc, if_neg hc]
        rfl

theorem applyPatches_idem {ps : List (Nat × List Nat)} {buf : List Nat}
    (h : ∀ pr ∈ ps, pr.1 + pr.2.length ≤ buf.length) :
    applyPatches (applyPatches buf ps) ps = applyPatches buf ps := by
  have hl := length_applyPatches h
  have h2 : ∀ pr ∈ ps, pr.1 + pr.2.length ≤ (applyPatches buf ps).length := by
    rw [hl]; exact h
  apply List.ext_getElem?
  intro q
  rw [getElem?_applyPatches h2 q, getElem?_applyPatches h q]
  cases hcv : coverVal ps q with
  | some b => rfl
  | none =>
    simp only [Option.none_or]

theorem coverVal_of_not_covered {ps : List (Nat × List Nat)} {q : Nat}
    (h : ∀ pr ∈ ps, ¬(pr.1 ≤ q ∧ q < pr.1 + pr.2.length)) :
    coverVal ps q = none := by
  induction ps with
  | nil => rfl
  | cons pr ps ih =>
    rw [coverVal, ih (fun u hu => h u (by simp [hu]))]
    rw [if_neg (h pr (by simp))]

/-- If every patch covering `q` writes `b0` there and at least one does,
the last cover is `b0`. -/
theorem coverVal_const {ps : List (Nat × List Nat)} {q : Nat} {b0 : Nat}
    (hall : ∀ pr ∈ ps, pr.1 ≤ q ∧ q < pr.1 + pr.2.length →
      pr.2.get? (q - pr.1) = some b0)
    (hone : ∃ pr ∈ ps, pr.1 ≤ q ∧ q < pr.1 + pr.2.length) :
    coverVal ps q = some b0 := by
  induction ps with
  | nil => simp at hone
  | cons pr ps ih =>
    rw [coverVal]
    by_cases hex : ∃ u ∈ ps, u.1 ≤ q ∧ q < u.1 + u.2.length
    · rw [ih (fun u hu => hall u (by simp [hu])) hex]
    · push_neg at hex
      rw [coverVal_of_not_covered (fun u hu hc => absurd hc.2 (by have := hex u hu hc.1; omega))]
      have hpr : pr.1 ≤ q ∧ q < pr.1 + pr.2.length := by
        rcases hone with ⟨u, hu, hc⟩
        rcases List.mem_cons.mp hu with rfl | hmem
        · exact hc
        · exact absurd hc.2 (by have := hex u hmem hc.1; omega)
      rw [if_pos hpr, hall pr (by simp) hpr]

/-! ## Dict lemmas -/

theorem dictGet_dictInsert {β : Type} (l : List (String × β)) (k k' : String)
    (v : β) :
    dictGet (dictInsert l k v) k' = if k = k' then some v else dictGet l k' := by
  induction l with
  | nil => simp [dictGet, dictInsert]
  | cons kv t ih =>
    obtain ⟨a, b⟩ := kv
    rw [dictInsert]
    by_cases hak : a = k
    · rw [if_pos hak, dictGet]
      by_cases hkk : k = k'
      · rw [if_pos hkk, if_pos hkk]
      · rw [if_neg hkk, if_neg hkk, dictGet, if_neg (by rw [hak]; exact hkk)]
    · rw [if_neg hak, dictGet, dictGet]
      by_cases hak' : a = k'
      · rw [if_pos hak', if_pos hak']
        rw [if_neg (by intro hh; exact hak (hh ▸ hak'.symm ▸ rfl))]
      · rw [if_neg hak', if_neg hak', ih]

theorem dictGet_append_left {β : Type} {l m : List (String × β)} {k : String}
    (h : (dictGet l k).isSome) : dictGet (l ++ m) k = dictGet l k := by
  induction l with
  | nil => simp [dictGet] at h
  | cons kv t ih =>
    obtain ⟨a, b⟩ := kv
    rw [List.cons_append, dictGet, dictGet]
    by_cases hak : a = k
    · rw [if_pos hak, if_pos hak]
    · rw [if_neg hak, if_neg hak]
      exact ih (by rwa [dictGet, if_neg hak] at h)

theorem dictGet_append_right {β : Type} {l m : List (String × β)} {k : String}
    (h : dictGet l k = none) : dictGet (l ++ m) k = dictGet m k := by
  induction l with
  | nil => rfl
  | cons kv t ih =>
    obtain ⟨a, b⟩ := kv
    rw [dictGet] at h
    rw [List.cons_append, dictGet]
    by_cases hak : a = k
    · rw [if_pos hak] at h; exact absurd h (by simp)
    · rw [if_neg hak]
      exact ih (by rwa [if_neg hak] at h)

/-! ## Linker lemmas -/

theorem link_uses_cons (defs : List (String × Int)) (ti : List String)
    (fin : Bool) (pu : Nat × UseEntry) (uses : List (Nat × UseEntry))
    (acc : List Nat × List (Nat × UseEntry) × List String) :
    link_uses defs ti fin (pu :: uses) acc =
      link_uses defs ti fin uses
        (match dictGet defs pu.2.symbol with
          | some pos_def =>
            (writeBytes acc.1 pu.1 (pack_le32 pos_def), acc.2.1, acc.2.2)
          | none =>
            if pu.2.symbol ∈ ti ∧ fin = false then
              (acc.1, ndictInsert acc.2.1 pu.1 pu.2, acc.2.2)
            else
              (acc.1, acc.2.1,
                acc.2.2 ++ [s!"ERROR: unresolved symbol \x27{pu.2.symbol}\x27"])) :=
  rfl

theorem link_patches_cons (defs : List (String × Int)) (pu : Nat × UseEntry)
    (uses : List (Nat × UseEntry)) :
    link_patches defs (pu :: uses) =
      match dictGet defs pu.2.symbol with
      | some d => (pu.1, pack_le32 d) :: link_patches defs uses
      | none => link_patches defs uses := by
  rw [link_patches, List.filterMap_cons]
  cases dictGet defs pu.2.symbol <;> rfl

theorem link_uses_final_spec (defs : List (String × Int)) (ti : List String)
    (uses : List (Nat × UseEntry)) :
    ∀ (buf : List Nat) (gU : List (Nat × UseEntry)) (errs : List String),
      (link_uses defs ti true uses (buf, gU, errs)).1 =
        applyPatches buf (link_patches defs uses) ∧
      (link_uses defs ti true uses (buf, gU, errs)).2.1 = gU := by
  induction uses with
  | nil => intro buf gU errs; exact ⟨rfl, rfl⟩
  | cons pu uses ih =>
    intro buf gU errs
    rw [link_uses_cons, link_patches_cons]
    cases hd : dictGet defs pu.2.symbol with
    | some d => exact ⟨(ih _ _ _).1, (ih _ _ _).2⟩
    | none =>
      rw [if_neg (by simp)]
      exact ⟨(ih _ _ _).1, (ih _ _ _).2⟩

theorem link_final_spec (s : Asm) :
    (s.link true).code =
      applyPatches s.code (link_patches s.global_symbols_def s.global_symbols_use)
    ∧ (s.link true).global_symbols_def = s.global_symbols_def
    ∧ (s.link true).global_symbols_use = s.global_symbols_use := by
  have h := link_uses_final_spec s.global_symbols_def s.to_import
    s.global_symbols_use s.code s.global_symbols_use s.errors
  refine ⟨?_, by simp [Asm.link], ?_⟩
  · show (link_uses (if true then s.global_symbols_def else s.symbols_def)
      s.to_import true (if true then s.global_symbols_use else s.symbols_use)
      (s.code, s.global_symbols_use, s.errors)).1 = _
    simpa using h.1
  · show (link_uses (if true then s.global_symbols_def else s.symbols_def)
      s.to_import true (if true then s.global_symbols_use else s.symbols_use)
      (s.code, s.global_symbols_use, s.errors)).2.1 = _
    simpa using h.2

/-- **C9.** Running the final link a second time on the same assembler state
leaves the code byte buffer byte-identical to its value after the first final
link — for every state whose recorded uses have 4 writable bytes available
(the invariant every assembled input satisfies), including states with
unresolved symbols. -/
theorem c9_final_link_idempotent (s : Asm)
    (hb : ∀ pu ∈ s.global_symbols_use, pu.1 + 4 ≤ s.code.length) :
    ((s.link true).link true).code = (s.link true).code := by
  obtain ⟨hc1, hd1, hu1⟩ := link_final_spec s
  obtain ⟨hc2, hd2, hu2⟩ := link_final_spec (s.link true)
  rw [hc2, hd1, hu1, hc1]
  apply applyPatches_idem
  intro pr hpr
  obtain ⟨pu, hpu, hmap⟩ := List.mem_filterMap.mp hpr
  cases hd : dictGet s.global_symbols_def pu.2.symbol with
  | none => rw [hd] at hmap; simp at hmap
  | some d =>
    rw [hd] at hmap
    have hpr2 : pr = (pu.1, pack_le32 d) := by simpa using hmap.symm
    rw [hpr2]
    simpa [length_pack_le32] using hb pu hpu

/-- Witness for C9: a concrete state with one resolvable and one unresolved
use. -/
theorem c9_final_link_idempotent_witness :
    (((Asm.mk [0, 0, 0, 0, 0] [("x", 2)] [(1, ⟨1, "x"⟩), (0, ⟨0, "y"⟩)]
        [] [] [] [] 0 []).link true).link true).code =
      ((Asm.mk [0, 0, 0, 0, 0] [("x", 2)] [(1, ⟨1, "x"⟩), (0, ⟨0, "y"⟩)]
        [] [] [] [] 0 []).link true).code :=
  c9_final_link_idempotent _ (by decide)

/-! ## Export-publishing lemmas (per-file link) -/

theorem exceptBind_ok {ε α β : Type} {e : Except ε α} {f : α → Except ε β}
    {b : β} (h : (e >>= f) = .ok b) : ∃ a, e = .ok a ∧ f a = .ok b := by
  cases e with
  | error err => simp [Bind.bind, Except.bind] at h
  | ok a => exact ⟨a, rfl, by simpa [Bind.bind, Except.bind] using h⟩

theorem publish_exports_cons (te : List String) (kv : String × Int)
    (defs : List (String × Int)) (acc : List (String × Int) × List String) :
    publish_exports te (kv :: defs) acc =
      publish_exports te defs
        (if kv.1 ∈ te then
          if dictContains acc.1 kv.1 then
            (acc.1, acc.2 ++ [s!"ERROR: duplicate symbol \x27{kv.1}\x27"])
          else (acc.1 ++ [(kv.1, kv.2)], acc.2)
        else acc) :=
  rfl

theorem publish_get_contained (te : List String) (defs : List (String × Int)) :
    ∀ (gD : List (String × Int)) (errs : List String) (k : String),
      dictContains gD k = true →
      dictGet (publish_exports te defs (gD, errs)).1 k = dictGet gD k := by
  induction defs with
  | nil => intro gD errs k _; rfl
  | cons kv rest ih =>
    intro gD errs k hk
    rw [publish_exports_cons]
    by_cases hte : kv.1 ∈ te
    · rw [if_pos hte]
      by_cases hc : dictContains gD kv.1
      · rw [if_pos hc]
        exact ih gD _ k hk
      · rw [if_neg hc]
        have hk' : dictContains (gD ++ [(kv.1, kv.2)]) k = true := by
          simp only [dictContains] at hk ⊢
          rw [dictGet_append_left hk]
          exact hk
        rw [ih _ errs k hk']
        exact dictGet_append_left (by simpa [dictContains] using hk)
    · rw [if_neg hte]
      exact ih gD errs k hk

theorem publish_errors_mono (te : List String) (defs : List (String × Int)) :
    ∀ (gD : List (String × Int)) (errs : List String),
      ∃ more, (publish_exports te defs (gD, errs)).2 = errs ++ more := by
  induction defs with
  | nil => intro gD errs; exact ⟨[], by simp [publish_exports]⟩
  | cons kv rest ih =>
    intro gD errs
    rw [publish_exports_cons]
    by_cases hte : kv.1 ∈ te
    · rw [if_pos hte]
      by_cases hc : dictContains gD kv.1
      · rw [if_pos hc]
        obtain ⟨more, hm⟩ := ih gD (errs ++ [s!"ERROR: duplicate symbol \x27{kv.1}\x27"])
        exact ⟨s!"ERROR: duplicate symbol \x27{kv.1}\x27" :: more, by
          rw [hm]; simp⟩
      · rw [if_neg hc]
        exact ih _ errs
    · rw [if_neg hte]
      exact ih gD errs

theorem publish_dup_error (te : List String) (defs : List (String × Int)) :
    ∀ (gD : List (String × Int)) (errs : List String) (sym : String),
      (∃ v, dictGet defs sym = some v) → sym ∈ te →
      dictContains gD sym = true →
      s!"ERROR: duplicate symbol \x27{sym}\x27" ∈
        (publish_exports te defs (gD, errs)).2 := by
  induction defs with
  | nil => intro gD errs sym hv _ _; simp [dictGet] at hv
  | cons kv rest ih =>
    intro gD errs sym hv hte hc
    rw [publish_exports_cons]
    obtain ⟨a, b⟩ := kv
    by_cases hak : a = sym
    · subst hak
      rw [if_pos hte, if_pos hc]
      obtain ⟨more, hm⟩ := publish_errors_mono te rest gD
        (errs ++ [s!"ERROR: duplicate symbol \x27{a}\x27"])
      rw [hm]
      simp
    · have hv' : ∃ v, dictGet rest sym = some v := by
        obtain ⟨v, hv⟩ := hv
        rw [dictGet, if_neg hak] at hv
        exact ⟨v, hv⟩
      by_cases hte2 : a ∈ te
      · rw [if_pos hte2]
        by_cases hc2 : dictContains gD a
        · rw [if_pos hc2]
          exact ih gD _ sym hv' hte hc
        · rw [if_neg hc2]
          have hc' : dictContains (gD ++ [(a, b)]) sym = true := by
            simp only [dictContains] at hc ⊢
            rw [dictGet_append_left hc]
            exact hc
          exact ih _ errs sym hv' hte hc'
      · rw [if_neg hte2]
        exact ih gD errs sym hv' hte hc

theorem publish_publishes_fresh (te : List String) (defs : List (String × Int)) :
    ∀ (gD : List (String × Int)) (errs : List String) (t : String) (u : Int),
      dictGet defs t = some u → t ∈ te → dictContains gD t = false →
      dictGet (publish_exports te defs (gD, errs)).1 t = some u := by
  induction defs with
  | nil => intro gD errs t u hd _ _; simp [dictGet] at hd
  | cons kv rest ih =>
    intro gD errs t u hd hte hfresh
    rw [publish_exports_cons]
    obtain ⟨a, b⟩ := kv
    by_cases hak : a = t
    · subst hak
      rw [dictGet, if_pos rfl, Option.some_inj] at hd
      subst hd
      rw [if_pos hte, if_neg (by simpa [dictContains] using hfresh)]
      have hget : dictGet (gD ++ [(a, b)]) a = some b := by
        rw [dictGet_append_right (by
          simpa [dictContains, Option.isSome_iff_exists] using hfresh)]
        simp [dictGet]
      rw [publish_get_contained te rest _ errs a (by simp [dictContains, hget])]
      exact hget
    · rw [dictGet, if_neg hak] at hd
      by_cases hte2 : a ∈ te
      · rw [if_pos hte2]
        by_cases hc2 : dictContains gD a
        · rw [if_pos hc2]
          exact ih gD _ t u hd hte hfresh
        · rw [if_neg hc2]
          have hfnone : dictGet gD t = none := by
            cases hg : dictGet gD t with
            | none => rfl
            | some x => rw [dictContains, hg] at hfresh; simp at hfresh
          have hfresh' : dictContains (gD ++ [(a, b)]) t = false := by
            rw [dictContains, dictGet_append_right hfnone]
            simp [dictGet, hak]
          exact ih _ errs t u hd hte hfresh'
      · rw [if_neg hte2]
        exact ih gD errs t u hd hte hfresh

theorem link_local_spec (s : Asm) :
    ∃ E, (s.link false).global_symbols_def =
        (publish_exports s.to_export s.symbols_def
          (s.global_symbols_def, E)).1
      ∧ (s.link false).errors =
        (publish_exports s.to_export s.symbols_def
          (s.global_symbols_def, E)).2 :=
  ⟨(link_uses s.symbols_def s.to_import false s.symbols_use
      (s.code, s.global_symbols_use, s.errors)).2.2, rfl, rfl⟩

/-- **C8.** At most one definition per symbol is published to the global defs
map: when a file exports a symbol already published, the per-file link reports
a duplicate-symbol error, keeps the previously published definition, and
still publishes every other export of the file. -/
theorem c8_duplicate_export_kept_first (s : Asm) (sym : String) (w v : Int)
    (hpub : dictGet s.global_symbols_def sym = some w)
    (hdef : dictGet s.symbols_def sym = some v)
    (hexp : sym ∈ s.to_export) :
    dictGet (s.link false).global_symbols_def sym = some w
    ∧ s!"ERROR: duplicate symbol \x27{sym}\x27" ∈ (s.link false).errors
    ∧ ∀ t u, dictGet s.symbols_def t = some u → t ∈ s.to_export →
        dictContains s.global_symbols_def t = false →
        dictGet (s.link false).global_symbols_def t = some u := by
  obtain ⟨E, hgd, herr⟩ := link_local_spec s
  refine ⟨?_, ?_, ?_⟩
  · rw [hgd, publish_get_contained _ _ _ _ _ (by simp [dictContains, hpub])]
    exact hpub
  · rw [herr]
    exact publish_dup_error _ _ _ _ _ ⟨v, hdef⟩ hexp
      (by simp [dictContains, hpub])
  · intro t u hdt hte hfresh
    rw [hgd]
    exact publish_publishes_fresh _ _ _ _ _ _ hdt hte hfresh

/-- Witness for C8: file two re-exports `f` (already published at 5) and also
exports a fresh `g`. -/
theorem c8_duplicate_export_kept_first_witness :
    dictGet ((Asm.mk [] [("f", 5)] [] [("f", 9), ("g", 7)] [] []
        ["f", "g"] 0 []).link false).global_symbols_def ("f") = some 5
    ∧ "ERROR: duplicate symbol \x27f\x27" ∈
        ((Asm.mk [] [("f", 5)] [] [("f", 9), ("g", 7)] [] []
          ["f", "g"] 0 []).link false).errors
    ∧ dictGet ((Asm.mk [] [("f", 5)] [] [("f", 9), ("g", 7)] [] []
        ["f", "g"] 0 []).link false).global_symbols_def ("g") = some 7 := by
  have h := c8_duplicate_export_kept_first
    (Asm.mk [] [("f", 5)] [] [("f", 9), ("g", 7)] [] [] ["f", "g"] 0 [])
    "f" 5 9 (by decide) (by decide) (by decide)
  exact ⟨h.1, h.2.1, h.2.2 "g" 7 (by decide) (by decide) (by decide)⟩

/-! ## Assemble-step preservation lemmas -/

theorem assemble_one_def_preserved {s : Asm} {d : Directive} {s2 : Asm}
    (h : s.assemble_one d = .ok s2) (L : String) (v : Int)
    (hL : dictGet s.symbols_def L = some v) :
    dictGet s2.symbols_def L = some v := by
  cases d with
  | instr name ops =>
    rw [Asm.assemble_one] at h
    repeat'
      first
        | split at h
        | (simp only [] at h)
    all_goals
      first
        | (cases h; exact hL)
        | cases h
  | label_line name =>
    rw [Asm.assemble_one] at h
    split at h
    · cases h
      exact hL
    · cases h
      rename_i hnc
      show dictGet (dictInsert s.symbols_def name _) L = some v
      rw [dictGet_dictInsert]
      rw [if_neg (by
        intro he
        rw [dictContains, he, hL] at hnc
        simp at hnc)]
      exact hL
  | d_byte o amount =>
    rw [Asm.assemble_one] at h
    split at h
    · cases h; exact hL
    · cases h
  | d_word o amount =>
    rw [Asm.assemble_one] at h
    split at h
    · cases h; exact hL
    · cases h
  | d_dword o amount =>
    rw [Asm.assemble_one] at h
    split at h
    · cases h; exact hL
    · cases h
  | d_export name => cases h; exact hL
  | d_import name => cases h; exact hL
  | d_define name => cases h; exact hL

theorem assemble_def_preserved {ds : List Directive} :
    ∀ {s s2 : Asm}, s.assemble ds = .ok s2 →
      ∀ L v, dictGet s.symbols_def L = some v →
        dictGet s2.symbols_def L = some v := by
  induction ds with
  | nil =>
    intro s s2 h L v hL
    cases h
    exact hL
  | cons d ds ih =>
    intro s s2 h L v hL
    rw [Asm.assemble, List.foldlM_cons] at h
    obtain ⟨s1, h1, h2⟩ := exceptBind_ok h
    exact ih h2 L v (assemble_one_def_preserved h1 L v hL)

/-- **C7.** After a `@RELOC:<origin>` token (which sets `pos_offset` to
`origin - len(code)`), (i) assembling `ji #L` records a use at the offset of
its 32-bit immediate with the `0xFFFFFFFF` placeholder, (ii) a label defined
at the first byte of the next assembled file is recorded with the absolute
address `origin`, and (iii) the final link patches the 4 immediate bytes of
any use of `L` with the little-endian signed 32-bit encoding of the absolute
address `L` resolves to. -/
theorem c7_reloc_label_absolute_and_ji_patch :
    (∀ (s : Asm) (L : String),
      s.assemble [.instr "ji" [.label L]] = .ok { s with
        code := s.code ++ 0x23 :: pack_le32 4294967295
        symbols_use := ndictInsert s.symbols_use (s.code.length + 1)
          ⟨((s.code.length + 1 : Nat) : Int) + s.pos_offset, L⟩ })
    ∧ (∀ (s : Asm) (origin : Int) (L : String) (rest : List Directive)
        (s2 : Asm),
      (({ s with pos_offset := origin - (s.code.length : Int) }).preprocess
          (.label_line L :: rest)).assemble (.label_line L :: rest) = .ok s2 →
      dictGet s2.symbols_def L = some origin)
    ∧ (∀ (sf : Asm) (p : Nat) (e : UseEntry) (L : String) (a : Int),
      (p, e) ∈ sf.global_symbols_use → e.symbol = L →
      dictGet sf.global_symbols_def L = some a →
      (∀ pu ∈ sf.global_symbols_use, pu.1 + 4 ≤ sf.code.length) →
      (∀ q e2, (q, e2) ∈ sf.global_symbols_use →
        (q, e2) = (p, e) ∨ q + 4 ≤ p ∨ p + 4 ≤ q) →
      ∀ j, j < 4 → ((sf.link true).code)[p + j]? = (pack_le32 a)[j]?) := by
  refine ⟨?_, ?_, ?_⟩
  · intro s L
    have h1 : s.assemble [.instr "ji" [.label L]] = .ok { s with
        code := (s.code ++ [0x23]) ++ pack_le32 4294967295
        symbols_use := ndictInsert s.symbols_use (s.code ++ [0x23]).length
          ⟨((s.code ++ [0x23]).length : Int) + s.pos_offset, L⟩ } := rfl
    rw [h1]
    have hlen : (s.code ++ [0x23]).length = s.code.length + 1 := by simp
    simp [hlen]
  · intro s origin L rest s2 h
    rw [Asm.assemble, List.foldlM_cons] at h
    obtain ⟨sa, ha, hrest⟩ := exceptBind_ok h
    have hone : (({ s with pos_offset := origin - (s.code.length : Int)
        }).preprocess (.label_line L :: rest)).assemble_one (.label_line L) =
        .ok { ({ s with pos_offset := origin - (s.code.length : Int)
            }).preprocess (.label_line L :: rest) with
          symbols_def :=
            [(L, (s.code.length : Int) + (origin - (s.code.length : Int)))] } :=
      rfl
    rw [hone] at ha
    injection ha with ha
    subst ha
    refine assemble_def_preserved hrest L origin ?_
    show dictGet [(L, (s.code.length : Int) + (origin - (s.code.length : Int)))]
      L = some origin
    rw [dictGet, if_pos rfl]
    congr 1
    ring
  · intro sf p e L a hmem hsym hdef hball hsep j hj
    obtain ⟨hc1, -, -⟩ := link_final_spec sf
    rw [hc1]
    have hbounds : ∀ pr ∈ link_patches sf.global_symbols_def
        sf.global_symbols_use, pr.1 + pr.2.length ≤ sf.code.length := by
      intro pr hpr
      obtain ⟨pu, hpu, hmap⟩ := List.mem_filterMap.mp hpr
      cases hd : dictGet sf.global_symbols_def pu.2.symbol with
      | none => rw [hd] at hmap; simp at hmap
      | some d0 =>
        rw [hd] at hmap
        have hpr2 : pr = (pu.1, pack_le32 d0) := by simpa using hmap.symm
        rw [hpr2]
        simpa [length_pack_le32] using hball pu hpu
    rw [getElem?_applyPatches hbounds (p + j)]
    have hjlt : j < (pack_le32 a).length := by rw [length_pack_le32]; exact hj
    obtain ⟨b0, hb0⟩ : ∃ b0, (pack_le32 a)[j]? = some b0 :=
      ⟨(pack_le32 a).get ⟨j, hjlt⟩, List.getElem?_eq_some.mpr ⟨hjlt, rfl⟩⟩
    rw [hb0]
    have hcv : coverVal (link_patches sf.global_symbols_def
        sf.global_symbols_use) (p + j) = some b0 := by
      apply coverVal_const
      · intro pr hpr hcov
        obtain ⟨pu, hpu, hmap⟩ := List.mem_filterMap.mp hpr
        cases hd : dictGet sf.global_symbols_def pu.2.symbol with
        | none => rw [hd] at hmap; simp at hmap
        | some d0 =>
          rw [hd] at hmap
          have hpr2 : pr = (pu.1, pack_le32 d0) := by simpa using hmap.symm
          subst hpr2
          rcases hsep pu.1 pu.2 (by simpa using hpu) with heq | hlt | hgt
          · have hp1 : pu.1 = p := congrArg Prod.fst heq
            have hp2 : pu.2 = e := congrArg Prod.snd heq
            rw [hp2, hsym, hdef, Option.some_inj] at hd
            subst hd
            simp only [hp1] at hcov ⊢
            have : p + j - p = j := by omega
            rw [this, List.get?_eq_getElem? _ j, hb0]
          · exfalso
            simp only [length_pack_le32] at hcov
            omega
          · exfalso
            simp only [length_pack_le32] at hcov
            omega
      · refine ⟨(p, pack_le32 a), List.mem_filterMap.mpr
          ⟨(p, e), hmem, ?_⟩, ?_⟩
        · show Option.map _ (dictGet sf.global_symbols_def e.symbol) = _
          rw [hsym, hdef]
          rfl
        · simp only [length_pack_le32]
          omega
    rw [hcv]
    rfl

/-- Witness for C7 at `@RELOC:0x200`: the `ji #L` encoding and use entry,
the label `L` resolving to `0x200`, and the patched immediate bytes. -/
theorem c7_reloc_label_absolute_and_ji_patch_witness :
    ((Asm.mk [] [] [] [] [] [] [] 0 []).assemble
        [.instr "ji" [.label "L"]] = .ok
      { Asm.mk [] [] [] [] [] [] [] 0 [] with
        code := [0x23] ++ pack_le32 4294967295
        symbols_use := [(1, ⟨1, "L"⟩)] })
    ∧ dictGet (Asm.mk [] [] [] [("L", 512)] [] [] [] 512 []).symbols_def ("L") =
        some 512
    ∧ (((Asm.mk [0, 0, 0, 0, 0] [("L", 512)] [(1, ⟨1, "L"⟩)] [] [] [] [] 0
          []).link true).code)[1 + 0]? = (pack_le32 512)[0]? := by
  have h := c7_reloc_label_absolute_and_ji_patch
  refine ⟨?_, ?_, ?_⟩
  · have := h.1 (Asm.mk [] [] [] [] [] [] [] 0 []) "L"
    rw [this]
    rfl
  · exact h.2.1 (Asm.mk [] [] [] [] [] [] [] 0 []) 512 "L" []
      (Asm.mk [] [] [] [("L", 512)] [] [] [] 512 []) (by rfl)
  · exact h.2.2 (Asm.mk [0, 0, 0, 0, 0] [("L", 512)] [(1, ⟨1, "L"⟩)]
      [] [] [] [] 0 []) 1 ⟨1, "L"⟩ "L" 512 (by decide) rfl (by decide)
      (by decide)
      (by
        intro q e2 hq
        rw [List.mem_singleton] at hq
        exact Or.inl hq)
      0 (by decide)

/-- **C10.** For an `ii`-shaped instruction whose second operand is a symbol
reference, the use entry is recorded at the buffer offset of the *first*
immediate (4 bytes before the second immediate's placeholder), so linking
patches the first immediate's 4 bytes and the second immediate keeps the
`0xFFFFFFFF` placeholder. -/
theorem c10_ii_symbol_use_at_first_imm :
    (∀ (s : Asm) (m : String) (opb : Nat) (n : Int) (L : String),
      instructions m = some ("ii", [opb]) →
      s.assemble [.instr m [.num n, .label L]] = .ok { s with
        code := s.code ++ opb :: (pack_le32 n ++ pack_le32 4294967295)
        symbols_use := ndictInsert s.symbols_use (s.code.length + 1)
          ⟨((s.code.length + 1 : Nat) : Int) + s.pos_offset, L⟩ })
    ∧ (∀ (s2 : Asm) (o : Nat) (e : UseEntry) (d : Int),
      s2.symbols_use = [(o, e)] →
      dictGet s2.symbols_def e.symbol = some d →
      (s2.link false).code = writeBytes s2.code o (pack_le32 d))
    ∧ (∀ (c0 : List Nat) (opb : Nat) (n d : Int),
      writeBytes (c0 ++ opb :: (pack_le32 n ++ pack_le32 4294967295))
          (c0.length + 1) (pack_le32 d)
        = c0 ++ opb :: (pack_le32 d ++ pack_le32 4294967295)) := by
  refine ⟨?_, ?_, ?_⟩
  · intro s m opb n L hins
    have hone : s.assemble_one (.instr m [.num n, .label L]) = .ok { s with
        code := (s.code ++ [opb]) ++ pack_le32 n ++ pack_le32 4294967295
        symbols_use := ndictInsert s.symbols_use (s.code ++ [opb]).length
          ⟨((s.code ++ [opb]).length : Int) + s.pos_offset, L⟩ } := by
      rw [Asm.assemble_one, hins]
      rfl
    have hassemble : s.assemble [.instr m [.num n, .label L]] = .ok { s with
        code := (s.code ++ [opb]) ++ pack_le32 n ++ pack_le32 4294967295
        symbols_use := ndictInsert s.symbols_use (s.code ++ [opb]).length
          ⟨((s.code ++ [opb]).length : Int) + s.pos_offset, L⟩ } := by
      rw [Asm.assemble, List.foldlM_cons, hone]
      rfl
    rw [hassemble]
    have hlen : (s.code ++ [opb]).length = s.code.length + 1 := by simp
    simp [hlen]
  · intro s2 o e d huse hdef
    show (link_uses s2.symbols_def s2.to_import false s2.symbols_use
      (s2.code, s2.global_symbols_use, s2.errors)).1 = _
    rw [huse, link_uses_cons]
    show (link_uses _ _ false []
      (match dictGet s2.symbols_def (o, e).2.symbol with
        | some pos_def =>
          (writeBytes s2.code o (pack_le32 pos_def), s2.global_symbols_use,
            s2.errors)
        | none =>
          if e.symbol ∈ s2.to_import ∧ false = false then
            (s2.code, ndictInsert s2.global_symbols_use o e, s2.errors)
          else
            (s2.code, s2.global_symbols_use,
              s2.errors ++ [s!"ERROR: unresolved symbol \x27{e.symbol}\x27"]))).1 = _
    rw [show (o, e).2.symbol = e.symbol from rfl, hdef]
    rfl
  · intro c0 opb n d
    have hx : c0 ++ opb :: (pack_le32 n ++ pack_le32 4294967295) =
        ((c0 ++ [opb]) ++ pack_le32 n) ++ pack_le32 4294967295 := by simp
    rw [hx, writeBytes]
    have ht : ((c0 ++ [opb]) ++ pack_le32 n) ++ pack_le32 4294967295 =
        (c0 ++ [opb]) ++ (pack_le32 n ++ pack_le32 4294967295) := by simp
    rw [show List.take (c0.length + 1)
        (((c0 ++ [opb]) ++ pack_le32 n) ++ pack_le32 4294967295) = c0 ++ [opb]
      from by rw [ht]; exact List.take_left' (by simp)]
    rw [show c0.length + 1 + (pack_le32 d).length =
      ((c0 ++ [opb]) ++ pack_le32 n).length from by simp [length_pack_le32]]
    rw [List.drop_left']
    · simp
    · rfl

/-- Witness for C10: `stbii 7 #x` from an empty buffer, then the per-file
link with `x ↦ 2`. -/
theorem c10_ii_symbol_use_at_first_imm_witness :
    ((Asm.mk [] [] [] [] [] [] [] 0 []).assemble
        [.instr "stbii" [.num 7, .label "x"]] = .ok
      { Asm.mk [] [] [] [] [] [] [] 0 [] with
        code := 0x32 :: (pack_le32 7 ++ pack_le32 4294967295)
        symbols_use := [(1, ⟨1, "x"⟩)] })
    ∧ ((Asm.mk (0x32 :: (pack_le32 7 ++ pack_le32 4294967295)) [] []
          [("x", 2)] [(1, ⟨1, "x"⟩)] [] [] 0 []).link false).code =
        writeBytes (0x32 :: (pack_le32 7 ++ pack_le32 4294967295)) 1
          (pack_le32 2)
    ∧ writeBytes ([] ++ 0x32 :: (pack_le32 7 ++ pack_le32 4294967295))
        (List.length ([] : List Nat) + 1) (pack_le32 2)
        = [] ++ 0x32 :: (pack_le32 2 ++ pack_le32 4294967295) := by
  have h := c10_ii_symbol_use_at_first_imm
  refine ⟨?_, ?_, ?_⟩
  · have := h.1 (Asm.mk [] [] [] [] [] [] [] 0 []) "stbii" 0x32 7 "x" rfl
    rw [this]
    rfl
  · exact h.2.1 (Asm.mk (0x32 :: (pack_le32 7 ++ pack_le32 4294967295)) [] []
      [("x", 2)] [(1, ⟨1, "x"⟩)] [] [] 0 []) 1 ⟨1, "x"⟩ 2 rfl (by decide)
  · exact h.2.2 [] 0x32 7 2


/-! ## C1: call lowering -/

theorem ok_bind {e a b : Type} (x : a) (f : a → Except e b) :
    (Except.ok x >>= f) = f x := rfl

theorem pure_ok {e a : Type} (x : a) : (pure x : Except e a) = .ok x := rfl

/-- The comment step is the identity when comments are disabled. -/
theorem commentStep_comment_false (c : Compiler) (n : Node)
    (hc : c.comment = false) : commentStep c n = .ok c := by
  simp [commentStep, hc]

theorem emit_emit (c : Compiler) (a b : String) :
    (c.emit a).emit b = c.emit (a ++ b) := by
  simp [Compiler.emit, String.append_assoc]

theorem emit_empty (c : Compiler) : c.emit "" = c := by
  simp [Compiler.emit]

/-- An integer-literal expression just emits `mov v $r`. -/
theorem genExpr_int (fs : FileEnv) (fuel : Nat) (c : Compiler) (v : Int)
    (l k : Nat) (stmt : Bool) (r : Nat) (hc : c.comment = false) :
    generate_expression fs (fuel + 1) c (.int v l k) false stmt r =
      .ok (c.emit s!"mov {v} ${r}\n", some "int") := by
  rw [generate_expression]
  rw [if_neg (by simp)]
  show (Except.ok (Node.int v l k) >>= _) = _
  rw [ok_bind]
  show (Except.ok () >>= _) = _
  rw [ok_bind, commentStep_comment_false c _ hc, ok_bind]

theorem foldl_append_str : ∀ (l : List String) (a b : String),
    List.foldl (fun x y => x ++ y) (a ++ b) l =
      a ++ List.foldl (fun x y => x ++ y) b l
  | [], _, _ => rfl
  | s :: l, a, b => by
    rw [List.foldl_cons, List.foldl_cons, String.append_assoc,
      foldl_append_str l a (b ++ s)]

theorem join_cons (a : String) (l : List String) :
    String.join (a :: l) = a ++ String.join l := by
  have h := foldl_append_str l a ""
  rw [String.append_empty] at h
  show List.foldl (fun x y => x ++ y) "" (a :: l) = _
  rw [List.foldl_cons, show ("" ++ a) = a from by simp, h]
  rfl

/-- Pushing the reversed integer-literal arguments of a call. -/
theorem callArgsFold (fs : FileEnv) (fuel : Nat) (r : Nat) :
    ∀ (ps : List (Int × String)) (c : Compiler), c.comment = false →
      c.type_checking = "off" →
      (ps.map (fun p => ((Node.int p.1 0 0 : Node), p.2))).foldlM
        (fun cc pa => do
          let p ← generate_expression fs (fuel + 1) cc pa.1 false false r
          let _ ← p.1.merge_types p.2 (some pa.2) pa.1
          pure (p.1.emit s!"push ${r}\n")) c =
      .ok (c.emit (String.join (ps.map
        (fun p => s!"mov {p.1} ${r}\n" ++ s!"push ${r}\n"))))
  | [], c, hc, ht => by
    rw [show (List.map (fun p : Int × String =>
        s!"mov {p.1} ${r}\n" ++ s!"push ${r}\n") []) = [] from rfl]
    rw [show String.join [] = "" from rfl, emit_empty]
    rfl
  | (v, t) :: ps, c, hc, ht => by
    have hmg : (c.emit s!"mov {v} ${r}\n").merge_types (some "int") (some t)
        (Node.int v 0 0) = .ok none := by
      simp [Compiler.merge_types, Compiler.emit, ht]
    rw [List.map_cons, List.foldlM_cons,
      genExpr_int fs fuel c v 0 0 false r hc, ok_bind]
    try dsimp only
    rw [hmg, ok_bind]
    try dsimp only
    rw [pure_ok, ok_bind]
    rw [callArgsFold fs fuel r ps
      ((c.emit s!"mov {v} ${r}\n").emit s!"push ${r}\n") hc ht]
    rw [emit_emit, emit_emit, List.map_cons, join_cons]
    simp only [String.append_assoc]

theorem zip_map_left_pair {α β γ : Type} (g : α → γ) :
    ∀ (l1 : List α) (l2 : List β),
      (l1.map g).zip l2 = (l1.zip l2).map (fun p => (g p.1, p.2))
  | [], _ => rfl
  | _ :: _, [] => rfl
  | a :: l1, b :: l2 => by
    simp [List.zip_cons_cons, zip_map_left_pair g l1 l2]

theorem argsLowered_foldlM (fs : FileEnv) (fuel r : Nat) :
    ∀ (l : List (Node × String)) (cc cf : Compiler),
      ArgsLowered fs fuel r cc l cf →
      l.foldlM (fun cc2 pa => do
        let p ← generate_expression fs fuel cc2 pa.1 false false r
        let _ ← p.1.merge_types p.2 (some pa.2) pa.1
        pure (p.1.emit s!"push ${r}\n")) cc = .ok cf
  | [], cc, cf, h => by
    have h2 : cf = cc := h
    rw [h2]
    rfl
  | pa :: l, cc, cf, h => by
    obtain ⟨p, mt, hp, hmt, hrest⟩ := h
    rw [List.foldlM_cons, hp, ok_bind]
    try dsimp only
    rw [hmt, ok_bind]
    try dsimp only
    rw [pure_ok, ok_bind]
    exact argsLowered_foldlM fs fuel r l (p.1.emit s!"push ${r}\n") cf hrest

/-- C1 (amended): every call form `(f a1 … an)` of a declared function
`f`, with arbitrary argument expressions, evaluates the arguments
right-to-left -- each evaluated into register `r` and pushed immediately
(`ArgsLowered` over the reversed argument/parameter zip) -- then emits
`jal #f` (not the spec's `call #f`), moves `$1` into `$r` when `r ≠ 1`,
and finally pops one slot per argument, returning the declared type. -/
theorem c1_call_lowering (fs : FileEnv) (fuel : Nat) (c cf : Compiler)
    (f : String) (func : FuncRec) (rest : List Node) (fl fc nl nc : Nat)
    (stmt : Bool) (r : Nat)
    (hc : c.comment = false)
    (hsp : f ∉ specialHeads) (htl : f ∉ top_level)
    (hfn : dictGet c.funcs f = some func)
    (har : rest.length = func.args.length)
    (hargs : ArgsLowered fs fuel r c (rest.reverse.zip func.args.reverse) cf) :
    generate_expression fs (fuel + 1) c
        (.list (.word f fl fc :: rest) nl nc) false stmt r =
      .ok (((cf.emit s!"jal #{f}\n").emit
          (if r ≠ 1 then s!"mov $1 ${r}\n" else "")).emit
        (String.join (List.replicate rest.length "pop $0\n")),
        some func.type) := by
  have hchk : checkTopLevel (.list (.word f fl fc :: rest) nl nc) false =
      .ok () := by
    simp [checkTopLevel, htl]
  have hfold := argsLowered_foldlM fs fuel r
    (rest.reverse.zip func.args.reverse) c cf hargs
  rw [generate_expression]
  rw [if_neg (by simp)]
  show (Except.ok _ >>= _) = _
  rw [ok_bind]
  try dsimp only
  rw [hchk, ok_bind]
  try dsimp only
  rw [commentStep_comment_false c _ hc, ok_bind]
  try dsimp only
  split
  all_goals try (exact absurd (by decide) hsp)
  rw [hfn]
  try dsimp only
  rw [if_neg (by simp [har])]
  rw [hfold, ok_bind]
  try dsimp only
  rcases eq_or_ne r 1 with hr | hr <;>
    simp [hr, emit_empty]

/-- C1 witness: `(g 1 2)` with `g : (uint32, uint32) → void` declared,
instantiating the general lowering theorem with the two argument
evaluations given explicitly. -/
theorem c1_call_lowering_witness :
    "g" ∉ specialHeads ∧ "g" ∉ top_level ∧
    generate_expression fsNone 2 c1W
        (.list [.word "g" 0 0, .int 1 0 0, .int 2 0 0] 0 0) false true 1 =
      .ok (c1W.emit "mov 2 $1\npush $1\nmov 1 $1\npush $1\njal #g\npop $0\npop $0\n",
        some "void") := by
  refine ⟨by decide, by decide, ?_⟩
  have h := c1_call_lowering fsNone 1 c1W
    ((((c1W.emit "mov 2 $1\n").emit "push $1\n").emit "mov 1 $1\n").emit
      "push $1\n")
    "g" ⟨.int 0 0 0, "void", ["uint32", "uint32"]⟩
    [.int 1 0 0, .int 2 0 0] 0 0 0 0 true 1
    rfl (by decide) (by decide) rfl rfl
    ⟨(c1W.emit "mov 2 $1\n", some "int"), none, rfl, rfl,
      ⟨(((c1W.emit "mov 2 $1\n").emit "push $1\n").emit "mov 1 $1\n",
          some "int"), none, rfl, rfl, rfl⟩⟩
  rw [h]
  rfl

/-- C1 counterexample: the emitted transfer instruction is `jal #g`, not the
`call #g` the claim states. -/
theorem c1_emits_jal_not_call :
    (generate_expression fsNone 2 c1W
        (.list [.word "g" 0 0, .int 1 0 0, .int 2 0 0] 0 0)
        false true 1).map (fun p => p.1.code) =
      .ok "mov 2 $1\npush $1\nmov 1 $1\npush $1\njal #g\npop $0\npop $0\n" ∧
    "mov 2 $1\npush $1\nmov 1 $1\npush $1\njal #g\npop $0\npop $0\n" ≠
      "mov 2 $1\npush $1\nmov 1 $1\npush $1\ncall #g\npop $0\npop $0\n" :=
  ⟨rfl, by decide⟩


/-! ## C3: import -/

theorem transform_word (c : Compiler) (fuel : Nat) (w : String) (l k : Nat) :
    transformNode c (fuel + 1) (.word w l k) = .ok (.word w l k) := by
  rw [transformNode]
  rfl

theorem transform_int (c : Compiler) (fuel : Nat) (y : Node)
    (hy : y.typeTag = "int") : transformNode c (fuel + 1) y = .ok y := by
  cases y with
  | int v l k => rw [transformNode]; rfl
  | word w l k => simp [Node.typeTag] at hy
  | list ys l k => simp [Node.typeTag] at hy

theorem mapM_transform_ints (c : Compiler) (fuel : Nat) :
    ∀ ys : List Node, (∀ y ∈ ys, y.typeTag = "int") →
      ys.mapM (transformNode c (fuel + 1)) = .ok ys
  | [], _ => rfl
  | y :: t, h => by
    rw [List.mapM_cons, transform_int c fuel y (h y (by simp)), ok_bind,
      mapM_transform_ints c fuel t (fun z hz => h z (by simp [hz])), ok_bind]
    rfl

theorem transform_path_list (c : Compiler) (fuel : Nat) (pl pc : Nat)
    (ys : List Node) (hys : ∀ y ∈ ys, y.typeTag = "int") :
    transformNode c (fuel + 2) (.list ys pl pc) = .ok (.list ys pl pc) := by
  have ham : applyMacro c (.list ys pl pc) = .ok (.list ys pl pc) := by
    cases ys with
    | nil => rfl
    | cons y t =>
      cases y with
      | int v l k => rfl
      | word w l k =>
        have := hys (.word w l k) (by simp)
        simp [Node.typeTag] at this
      | list zs l k =>
        have := hys (.list zs l k) (by simp)
        simp [Node.typeTag] at this
  rw [transformNode, ham, ok_bind]
  try dsimp only
  rw [mapM_transform_ints c fuel ys hys, ok_bind]

theorem transform_import_node (c : Compiler) (fuel : Nat)
    (il ic pl pc nl nc : Nat) (ys : List Node)
    (hys : ∀ y ∈ ys, y.typeTag = "int") :
    transformNode c (fuel + 3)
        (.list [.word "import" il ic, .list ys pl pc] nl nc) =
      .ok (.list [.word "import" il ic, .list ys pl pc] nl nc) := by
  rw [transformNode]
  rw [show applyMacro c (.list [.word "import" il ic, .list ys pl pc] nl nc) =
    .ok (.list [.word "import" il ic, .list ys pl pc] nl nc) from rfl, ok_bind]
  try dsimp only
  rw [List.mapM_cons, transform_word c (fuel + 1) "import" il ic, ok_bind,
    List.mapM_cons, transform_path_list c fuel pl pc ys hys, ok_bind]
  rfl

theorem setGlobal_varsGlobal (c : Compiler) (sc : Scope) :
    (c.setGlobal sc).varsGlobal = sc := by
  simp [Compiler.setGlobal, Compiler.varsGlobal]

/-- C3 counterexample: with no readable files at all, the definitions pass
accepts `(import "l")` unchanged — it does no import work — while the
emission pass on the same input fails trying to open the file: the import is
processed during emission, not during the definitions pass. -/
theorem c3_defs_pass_skips_import :
    generate_expression fsNone 10
        { Compiler.init with definitions_mode := true }
        (.list [.word "import" 1 3, .list c3ysW 1 10] 1 2) true false 1 =
      .ok ({ Compiler.init with definitions_mode := true }, none) ∧
    generate_expression fsNone 10 Compiler.init
        (.list [.word "import" 1 3, .list c3ysW 1 10] 1 2) true false 1 =
      .error (.pyExc "IOError") :=
  ⟨rfl, rfl⟩

/-- C3 (amended): during the *emission* pass, `(import "path")` compiles the
referenced file in definitions-only mode under a fresh sub-compiler, merges
the sub-compiler's functions, structs and globals into the importing
compiler's tables, and emits one `.import #name` line per merged function or
global symbol. -/
theorem c3_import_at_emission (fs : FileEnv) (fuel : Nat) (c : Compiler)
    (ys forms : List Node) (sub : Compiler) (path : String)
    (il ic pl pc nl nc al ac : Nat) (r : Nat)
    (hc : c.comment = false) (hd : c.definitions_mode = false)
    (hys : ∀ y ∈ ys, y.typeTag = "int")
    (hpath : strOfBytes ys.dropLast = .ok path)
    (hfile : fs path = some (.list forms al ac))
    (hsub : forms.foldlM (fun cc nd => do
        let p ← generate_expression fs (fuel + 2) cc nd true false 1
        pure p.1) importSubCompiler.resetTables = .ok sub) :
    ∃ c2, generate_expression fs (fuel + 3) c
        (.list [.word "import" il ic, .list ys pl pc] nl nc) true false r =
      .ok (c2, none) ∧
      c2.funcs = dictMerge c.funcs sub.funcs ∧
      c2.structs = dictMerge c.structs sub.structs ∧
      c2.varsGlobal = dictMerge c.varsGlobal sub.varsGlobal ∧
      c2.code = c.code ++ String.join
        ((keysUnion (dictKeys sub.funcs) (dictKeys sub.varsGlobal)).map
          (fun sym => s!".import #{sym}\n")) ∧
      c2.sp_offset = c.sp_offset := by
  have hchk : checkTopLevel
      (.list [.word "import" il ic, .list ys pl pc] nl nc) true = .ok () := by
    simp [checkTopLevel, top_level]
  rw [show fuel + 3 = (fuel + 2) + 1 from rfl, generate_expression]
  rw [if_pos (by simp [hd])]
  rw [show fuel + 2 + 1 = fuel + 3 from rfl,
    transform_import_node c fuel il ic pl pc nl nc ys hys, ok_bind]
  try dsimp only
  rw [hchk, ok_bind]
  try dsimp only
  rw [commentStep_comment_false c _ hc, ok_bind]
  try dsimp only
  rw [hd]
  try dsimp only
  rw [hpath, ok_bind]
  try dsimp only
  rw [hfile]
  try dsimp only
  rw [hsub, ok_bind]
  try dsimp only
  refine ⟨_, rfl, ?_, ?_, ?_, ?_, ?_⟩
  · simp [Compiler.emit, Compiler.setGlobal]
  · simp [Compiler.emit, Compiler.setGlobal]
  · rw [show ∀ d : Compiler, (d.emit (String.join
      ((keysUnion (dictKeys sub.funcs) (dictKeys sub.varsGlobal)).map
        (fun sym => s!".import #{sym}\n")))).varsGlobal = d.varsGlobal
      from fun d => rfl]
    rw [setGlobal_varsGlobal]
    rfl
  · simp [Compiler.emit, Compiler.setGlobal]
  · simp [Compiler.emit, Compiler.setGlobal]

/-- C3 witness: importing the two-form library `l` into a fresh compiler. -/
theorem c3_import_at_emission_witness :
    (∀ y ∈ c3ysW, y.typeTag = "int") ∧
    strOfBytes c3ysW.dropLast = .ok "l" ∧
    fsLib "l" = some (.list [libFnW, libStaticW] 1 1) ∧
    ([libFnW, libStaticW].foldlM (fun cc nd => do
        let p ← generate_expression fsLib 2 cc nd true false 1
        pure p.1) importSubCompiler.resetTables = .ok subW) ∧
    ∃ c2, generate_expression fsLib 3 Compiler.init
        (.list [.word "import" 1 3, .list c3ysW 1 10] 1 2) true false 1 =
      .ok (c2, none) ∧
      c2.funcs = dictMerge Compiler.init.funcs subW.funcs ∧
      c2.structs = dictMerge Compiler.init.structs subW.structs ∧
      c2.varsGlobal = dictMerge Compiler.init.varsGlobal subW.varsGlobal ∧
      c2.code = Compiler.init.code ++ String.join
        ((keysUnion (dictKeys subW.funcs) (dictKeys subW.varsGlobal)).map
          (fun sym => s!".import #{sym}\n")) ∧
      c2.sp_offset = Compiler.init.sp_offset := by
  refine ⟨by decide, rfl, rfl, rfl, ?_⟩
  exact c3_import_at_emission fsLib 0 Compiler.init c3ysW
    [libFnW, libStaticW] subW "l" 1 3 1 10 1 2 1 1 1 rfl rfl (by decide)
    rfl rfl rfl


/-! ## C6: stack discipline -/

theorem StackOk.refl (c : Compiler) : StackOk c c := Or.inl ⟨rfl, rfl⟩

theorem stackOk_of_eq {c c2 : Compiler} (h1 : c2.vars = c.vars)
    (h2 : c2.sp_offset = c.sp_offset) : StackOk c c2 := Or.inl ⟨h1, h2⟩

theorem stackOk_emit_left {a b : Compiler} {s : String}
    (h : StackOk (a.emit s) b) : StackOk a b := by
  rcases h with ⟨v, sp⟩ | ⟨h0, t, new, e1, e2, e3⟩
  · exact Or.inl ⟨v, sp⟩
  · exact Or.inr ⟨h0, t, new, e1, e2, e3⟩

theorem stackOk_emit_right {a b : Compiler} (s : String)
    (h : StackOk a b) : StackOk a (b.emit s) := by
  rcases h with ⟨v, sp⟩ | ⟨h0, t, new, e1, e2, e3⟩
  · exact Or.inl ⟨v, sp⟩
  · exact Or.inr ⟨h0, t, new, e1, e2, e3⟩

theorem StackOk.trans {a b c : Compiler} (h1 : StackOk a b)
    (h2 : StackOk b c) : StackOk a c := by
  rcases h1 with ⟨v1, s1⟩ | ⟨h0, t, n1, e1, e2, e3⟩
  · rcases h2 with ⟨v2, s2⟩ | ⟨h0, t, n2, f1, f2, f3⟩
    · exact Or.inl ⟨v2.trans v1, s2.trans s1⟩
    · refine Or.inr ⟨h0, t, n2, v1 ▸ f1, f2, ?_⟩
      rw [f3, s1]
  · rcases h2 with ⟨v2, s2⟩ | ⟨h0x, tx, n2, f1, f2, f3⟩
    · refine Or.inr ⟨h0, t, n1, e1, v2.trans e2, ?_⟩
      rw [s2, e3]
    · rw [e2] at f1
      obtain ⟨g1, g2⟩ := List.cons.inj f1
      refine Or.inr ⟨h0, t, n1 ++ n2, e1, ?_, ?_⟩
      · rw [f2, ← g1, ← g2, List.append_assoc]
      · rw [f3, e3, List.length_append]
        push_cast
        ring


theorem pres_of_eq {c c2 : Compiler} {stmt : Bool} (h1 : c2.vars = c.vars)
    (h2 : c2.sp_offset = c.sp_offset) :
    StackOk c c2 ∧
      (stmt = false → c2.vars = c.vars ∧ c2.sp_offset = c.sp_offset) :=
  ⟨Or.inl ⟨h1, h2⟩, fun _ => ⟨h1, h2⟩⟩

theorem commentStep_pres {c : Compiler} {n : Node} {c2 : Compiler}
    (h : commentStep c n = .ok c2) :
    c2.vars = c.vars ∧ c2.sp_offset = c.sp_offset := by
  rw [commentStep] at h
  repeat' first
    | split at h
    | dsimp only at h
  all_goals first
    | (cases h; exact ⟨rfl, rfl⟩)
    | cases h

theorem foldlM_stackOk {α : Type} {f : Compiler → α → Except CErr Compiler}
    (hf : ∀ a x b, f a x = .ok b → StackOk a b) :
    ∀ (l : List α) (a b : Compiler), List.foldlM f a l = .ok b → StackOk a b
  | [], a, b, h => by
    rw [List.foldlM_nil] at h
    cases h
    exact StackOk.refl a
  | x :: l, a, b, h => by
    rw [List.foldlM_cons] at h
    obtain ⟨m, hm, hrest⟩ := exceptBind_ok h
    exact (hf a x m hm).trans (foldlM_stackOk hf l m b hrest)

theorem foldlM_stackOk_fst {α β : Type}
    {f : Compiler × β → α → Except CErr (Compiler × β)}
    (hf : ∀ a x b, f a x = .ok b → StackOk a.1 b.1) :
    ∀ (l : List α) (a b : Compiler × β),
      List.foldlM f a l = .ok b → StackOk a.1 b.1
  | [], a, b, h => by
    rw [List.foldlM_nil] at h
    cases h
    exact StackOk.refl a.1
  | x :: l, a, b, h => by
    rw [List.foldlM_cons] at h
    obtain ⟨m, hm, hrest⟩ := exceptBind_ok h
    exact (hf a x m hm).trans (foldlM_stackOk_fst hf l m b hrest)

theorem foldlM_exact {α : Type} {f : Compiler → α → Except CErr Compiler}
    (hf : ∀ a x b, f a x = .ok b →
      b.vars = a.vars ∧ b.sp_offset = a.sp_offset) :
    ∀ (l : List α) (a b : Compiler), List.foldlM f a l = .ok b →
      b.vars = a.vars ∧ b.sp_offset = a.sp_offset
  | [], a, b, h => by
    rw [List.foldlM_nil] at h
    cases h
    exact ⟨rfl, rfl⟩
  | x :: l, a, b, h => by
    rw [List.foldlM_cons] at h
    obtain ⟨m, hm, hrest⟩ := exceptBind_ok h
    obtain ⟨v1, s1⟩ := hf a x m hm
    obtain ⟨v2, s2⟩ := foldlM_exact hf l m b hrest
    exact ⟨v2.trans v1, s2.trans s1⟩

theorem dictInsert_fresh {β : Type} :
    ∀ (l : List (String × β)) (k : String) (v : β),
      dictContains l k = false → dictInsert l k v = l ++ [(k, v)]
  | [], _, _, _ => rfl
  | (k2, v2) :: t, k, v, h => by
    by_cases hk : k2 = k
    · exfalso
      rw [dictContains, dictGet, if_pos hk] at h
      simp at h
    · rw [dictContains, dictGet, if_neg hk] at h
      rw [dictInsert, if_neg hk, dictInsert_fresh t k v h]
      rfl

/-- Inserting a fresh variable into the innermost scope and paying four
bytes of stack realizes the growth case of `StackOk` with exactly one new
binding. -/
theorem stackOk_local_final {c c2 : Compiler} {inner : Scope}
    {tl : List Scope} {k : String} {v : VarRec} {d : Scope}
    (hv : c.vars = inner :: tl)
    (hd : d = inner)
    (hfr : dictContains inner k = false)
    (hvars : c2.vars = dictInsert d k v :: tl)
    (hsp : c2.sp_offset = c.sp_offset - 4) :
    StackOk c c2 := by
  refine Or.inr ⟨inner, tl, [(k, v)], hv, ?_, ?_⟩
  · rw [hvars, hd, dictInsert_fresh inner k v hfr]
  · rw [hsp]
    simp

set_option maxHeartbeats 4000000 in
/-- Every successful non-root lowering step respects the stack discipline,
and expression (non-statement) lowerings leave the scope stack and
`sp_offset` exactly unchanged. -/
theorem genExpr_stackPres (fs : FileEnv) :
    ∀ (fuel : Nat) (c : Compiler) (node : Node) (stmt : Bool) (r : Nat)
      (c2 : Compiler) (t : Option String),
      generate_expression fs fuel c node false stmt r = .ok (c2, t) →
      StackOk c c2 ∧
        (stmt = false → c2.vars = c.vars ∧ c2.sp_offset = c.sp_offset) := by
  intro fuel
  induction fuel with
  | zero =>
    intro c node stmt r c2 t h
    rw [generate_expression] at h
    cases h
  | succ fuel ih =>
    intro c node stmt r c2 t h
    rw [generate_expression] at h
    rw [if_neg (by simp)] at h
    rw [pure_ok, ok_bind] at h
    try dsimp only at h
    obtain ⟨u, hchk, h⟩ := exceptBind_ok h
    try dsimp only at h
    obtain ⟨c1, hcs, h⟩ := exceptBind_ok h
    try dsimp only at h
    obtain ⟨hv1, hs1⟩ := commentStep_pres hcs
    have base : StackOk c c1 := stackOk_of_eq hv1 hs1
    have hE : ∀ (a : Compiler) (nd : Node) (rr : Nat) (b : Compiler)
        (tt : Option String),
        generate_expression fs fuel a nd false false rr = .ok (b, tt) →
        b.vars = a.vars ∧ b.sp_offset = a.sp_offset :=
      fun a nd rr b tt hq => (ih a nd false rr b tt hq).2 rfl
    have hO : ∀ (a : Compiler) (nd : Node) (ss : Bool) (rr : Nat)
        (b : Compiler) (tt : Option String),
        generate_expression fs fuel a nd false ss rr = .ok (b, tt) →
        StackOk a b :=
      fun a nd ss rr b tt hq => (ih a nd ss rr b tt hq).1
    have hStepStmt : ∀ (rr : Nat) (a : Compiler) (x : Node) (b : Compiler),
        (do
          let p ← generate_expression fs fuel a x false true rr
          pure p.1 : Except CErr Compiler) = .ok b → StackOk a b := by
      intro rr a x b hq
      obtain ⟨q, hq1, hq2⟩ := exceptBind_ok hq
      cases hq2
      exact hO _ _ _ _ _ _ hq1
    cases node with
    | int v l k =>
      try dsimp only at h
      cases h
      exact pres_of_eq hv1 hs1
    | word w wl wk =>
      try dsimp only at h
      repeat' split at h
      all_goals first
        | (cases h; exact pres_of_eq hv1 hs1)
        | cases h
    | list xs nl nk =>
      cases xs with
      | nil => simp [checkTopLevel] at hchk
      | cons hd rest =>
        cases hd with
        | int v l k =>
          try dsimp only at h
          cases h
        | list ys l k =>
          try dsimp only at h
          cases h
        | word hws l k =>
          try dsimp only at h
          split at h
          all_goals try (simp [checkTopLevel, top_level] at hchk)
          all_goals try
            (repeat' split at h
             all_goals first
               | (cases h; exact pres_of_eq hv1 hs1)
               | cases h)
          · -- while
            split at h
            · cases h
            · split at h
              · cases h
              · split at h
                · obtain ⟨p, hp, h⟩ := exceptBind_ok h
                  try dsimp only at h
                  obtain ⟨cb, hb, h⟩ := exceptBind_ok h
                  try dsimp only at h
                  cases h
                  have sA := hO _ _ _ _ _ _ hp
                  have sB0 := foldlM_stackOk
                    (fun a2 x2 b2 hq => hStepStmt r a2 x2 b2 hq) _ _ _ hb
                  have sAll := sA.trans (stackOk_emit_left sB0)
                  rcases sAll with ⟨hveq, hseq⟩ | ⟨h0, tl, new, he1, he2, he3⟩
                  · have hvt : cb.vars.tail = c.vars := by
                      rw [hveq]
                      exact hv1
                    have hsp : cb.sp_offset +
                        4 * (((cb.varsInner.getD []).length : Nat) : Int) =
                          c.sp_offset := by
                      have hk : cb.varsInner = some ([] : Scope) := by
                        rw [Compiler.varsInner, hveq]
                        rfl
                      have hseq2 : cb.sp_offset = c1.sp_offset := hseq
                      rw [hk, hseq2, hs1]
                      simp
                    exact ⟨Or.inl ⟨hvt, hsp⟩, fun _ => ⟨hvt, hsp⟩⟩
                  · have he1b : ([] : Scope) :: c1.vars = h0 :: tl := he1
                    obtain ⟨g1, g2⟩ := List.cons.inj he1b
                    have hcb : cb.vars = new :: c1.vars := by
                      rw [he2, ← g1, ← g2]
                      simp
                    have hk : cb.varsInner = some new := by
                      rw [Compiler.varsInner, hcb]
                      rfl
                    have he3b : cb.sp_offset = c1.sp_offset - 4 * new.length := he3
                    have hvt : cb.vars.tail = c.vars := by
                      rw [hcb]
                      exact hv1
                    have hsp : cb.sp_offset +
                        4 * (((cb.varsInner.getD []).length : Nat) : Int) =
                          c.sp_offset := by
                      rw [hk, he3b, hs1]
                      simp
                    exact ⟨Or.inl ⟨hvt, hsp⟩, fun _ => ⟨hvt, hsp⟩⟩
                · cases h
          · -- cond
            split at h
            · cases h
            · split at h
              · cases h
              · rename_i hst
                obtain ⟨pr, hpr, h⟩ := exceptBind_ok h
                try dsimp only at h
                cases h
                refine ⟨?_, fun hf => absurd (hf ▸ of_not_not hst) Bool.false_ne_true⟩
                have sF : StackOk c1 pr.1 := by
                  refine foldlM_stackOk_fst ?_ _ _ _ hpr
                  intro a x b hab
                  try dsimp only at hab
                  split at hab
                  · cases hab
                  · obtain ⟨p1, hp1, hab⟩ := exceptBind_ok hab
                    try dsimp only at hab
                    split at hab
                    · cases hab
                    · split at hab
                      · obtain ⟨cbb, hcbb, hab⟩ := exceptBind_ok hab
                        try dsimp only at hab
                        rw [pure_ok] at hab
                        cases hab
                        exact stackOk_emit_right _ ((hO _ _ _ _ _ _ hp1).trans
                          (stackOk_emit_left (foldlM_stackOk
                            (fun a2 x2 b2 hq => hStepStmt r a2 x2 b2 hq) _ _ _ hcbb)))
                      all_goals cases hab
                exact stackOk_emit_right _ (base.trans sF)
          · -- switch
            split at h
            · cases h
            · split at h
              · cases h
              · rename_i hst
                split at h
                · obtain ⟨p0, hp0, h⟩ := exceptBind_ok h
                  try dsimp only at h
                  obtain ⟨pr, hpr, h⟩ := exceptBind_ok h
                  try dsimp only at h
                  cases h
                  refine ⟨?_, fun hf => absurd (hf ▸ of_not_not hst) Bool.false_ne_true⟩
                  have s0 := hO _ _ _ _ _ _ hp0
                  have sF := foldlM_stackOk_fst ?_ _ _ _ hpr
                  rotate_left
                  · intro a x b hab
                    try dsimp only at hab
                    split at hab
                    · cases hab
                    · obtain ⟨p1, hp1, hab⟩ := exceptBind_ok hab
                      try dsimp only at hab
                      split at hab
                      · cases hab
                      · split at hab
                        · obtain ⟨cbb, hcbb, hab⟩ := exceptBind_ok hab
                          try dsimp only at hab
                          rw [pure_ok] at hab
                          cases hab
                          exact stackOk_emit_right _
                            ((stackOk_emit_left (hO _ _ _ _ _ _ hp1)).trans
                              (stackOk_emit_left (foldlM_stackOk
                                (fun a2 x2 b2 hq => hStepStmt r a2 x2 b2 hq)
                                _ _ _ hcbb)))
                        all_goals cases hab
                  · exact stackOk_emit_right _ (base.trans (s0.trans
                      (stackOk_emit_left sF)))
                · cases h
          · -- local
            split at h
            · cases h
            · split at h
              · split at h
                · split at h
                  · cases h
                  · split at h
                    · cases h
                    · split at h
                      · cases h
                      · rename_i hst
                        split at h
                        · cases h
                        · rename_i inner hin1
                          split at h
                          · cases h
                          · rename_i hfresh
                            split at h
                            · rw [pure_ok, ok_bind] at h
                              try dsimp only at h
                              split at h
                              · rename_i inner2 hin2
                                cases h
                                have hin2b : c1.varsInner = some inner2 := hin2
                                have hieq : inner2 = inner := by
                                  rw [hin1] at hin2b
                                  exact (Option.some.inj hin2b).symm
                                have hfr2 : dictContains inner _ = false := Bool.eq_false_iff.mpr hfresh
                                have hvc : c1.vars = inner :: c1.vars.tail := by
                                  rcases hvv : c1.vars with _ | ⟨a, tl2⟩
                                  · rw [Compiler.varsInner, hvv] at hin1
                                    cases hin1
                                  · rw [Compiler.varsInner, hvv] at hin1
                                    have hai := Option.some.inj hin1
                                    rw [← hai]
                                    rfl
                                have hvc2 : c.vars = inner :: c1.vars.tail := by
                                  rw [← hv1]
                                  exact hvc
                                refine ⟨?skA, fun hf => absurd (of_not_not hst)
                                  (by rw [hf]; exact Bool.false_ne_true)⟩
                                case skA =>
                                  apply stackOk_local_final hvc2 hieq hfr2
                                  · rfl
                                  · show c1.sp_offset - 4 = c.sp_offset - 4
                                    rw [hs1]
                              · cases h
                            · split at h
                              · obtain ⟨p, hp, h⟩ := exceptBind_ok h
                                try dsimp only at h
                                obtain ⟨mt, hmt, h⟩ := exceptBind_ok h
                                try dsimp only at h
                                rw [pure_ok, ok_bind] at h
                                try dsimp only at h
                                split at h
                                · rename_i inner2 hin2
                                  cases h
                                  have hpe := hE _ _ _ _ _ hp
                                  have hin2b : c1.varsInner = some inner2 := by
                                    rw [Compiler.varsInner, ← hpe.1]
                                    exact hin2
                                  have hieq : inner2 = inner := by
                                    rw [hin1] at hin2b
                                    exact (Option.some.inj hin2b).symm
                                  have hfr2 : dictContains inner _ = false := Bool.eq_false_iff.mpr hfresh
                                  have hvc : c1.vars = inner :: c1.vars.tail := by
                                    rcases hvv : c1.vars with _ | ⟨a, tl2⟩
                                    · rw [Compiler.varsInner, hvv] at hin1
                                      cases hin1
                                    · rw [Compiler.varsInner, hvv] at hin1
                                      have hai := Option.some.inj hin1
                                      rw [← hai]
                                      rfl
                                  have hvc2 : c.vars = inner :: c1.vars.tail := by
                                    rw [← hv1]
                                    exact hvc
                                  refine ⟨?skB, fun hf => absurd (of_not_not hst)
                                    (by rw [hf]; exact Bool.false_ne_true)⟩
                                  case skB =>
                                    apply stackOk_local_final hvc2 hieq hfr2
                                    · show dictInsert inner2 _ _ :: p.1.vars.tail = _
                                      rw [hpe.1]
                                    · show p.1.sp_offset - 4 = c.sp_offset - 4
                                      rw [hpe.2, hs1]
                                · cases h
                              · obtain ⟨y0, hy0, h2⟩ := exceptBind_ok h
                                cases hy0
                all_goals cases h
              all_goals cases h
          · -- return
            split at h
            · cases h
            · split at h
              · cases h
              · split at h
                · split at h
                  · obtain ⟨p, hp, h⟩ := exceptBind_ok h
                    try dsimp only at h
                    rw [pure_ok, ok_bind] at h
                    try dsimp only at h
                    cases h
                    have hpe := hE _ _ _ _ _ hp
                    have hvv : (if r ≠ 1 then p.1.emit s!"mov ${r} $1\n"
                        else p.1).vars = p.1.vars := by
                      split
                      · rfl
                      · rfl
                    have hss : (if r ≠ 1 then p.1.emit s!"mov ${r} $1\n"
                        else p.1).sp_offset = p.1.sp_offset := by
                      split
                      · rfl
                      · rfl
                    exact pres_of_eq (hvv.trans (hpe.1.trans hv1))
                      (hss.trans (hpe.2.trans hs1))
                  · obtain ⟨y0, hy0, h2⟩ := exceptBind_ok h
                    cases hy0
                · rw [pure_ok, ok_bind] at h
                  cases h
                  exact pres_of_eq hv1 hs1
          · -- two sub-evaluations, all emits
            repeat' split at h
            all_goals try (first
              | cases h
              | (rename_i hbad; exact absurd hbad (by decide))
              | (rename_i hbad hx1; exact absurd hbad (by decide))
              | (rename_i hbad hx1 hx2; exact absurd hbad (by decide))
              | exact absurd rfl (by assumption)
              | (obtain ⟨y0, hy0, h2⟩ := exceptBind_ok h; cases hy0)
              | (obtain ⟨y0, hy0, h2⟩ := exceptBind_ok h.symm; cases hy0))
            first
              | obtain ⟨pA, hpA, h⟩ := exceptBind_ok h
              | obtain ⟨pA, hpA, h⟩ := exceptBind_ok h.symm
            try dsimp only at h
            first
              | obtain ⟨pB, hpB, h⟩ := exceptBind_ok h
              | obtain ⟨pB, hpB, h⟩ := exceptBind_ok h.symm
            try dsimp only at h
            repeat' split at h
            all_goals try (first
              | obtain ⟨mt, hmt, h⟩ := exceptBind_ok h
              | obtain ⟨mt, hmt, h⟩ := exceptBind_ok h.symm)
            all_goals first
              | (cases h; exact pres_of_eq
                  ((hE _ _ _ _ _ hpB).1.trans ((hE _ _ _ _ _ hpA).1.trans hv1))
                  ((hE _ _ _ _ _ hpB).2.trans ((hE _ _ _ _ _ hpA).2.trans hs1)))
              | cases h
          · -- two sub-evaluations, all emits
            repeat' split at h
            all_goals try (first
              | cases h
              | (rename_i hbad; exact absurd hbad (by decide))
              | (rename_i hbad hx1; exact absurd hbad (by decide))
              | (rename_i hbad hx1 hx2; exact absurd hbad (by decide))
              | exact absurd rfl (by assumption)
              | (obtain ⟨y0, hy0, h2⟩ := exceptBind_ok h; cases hy0)
              | (obtain ⟨y0, hy0, h2⟩ := exceptBind_ok h.symm; cases hy0))
            first
              | obtain ⟨pA, hpA, h⟩ := exceptBind_ok h
              | obtain ⟨pA, hpA, h⟩ := exceptBind_ok h.symm
            try dsimp only at h
            first
              | obtain ⟨pB, hpB, h⟩ := exceptBind_ok h
              | obtain ⟨pB, hpB, h⟩ := exceptBind_ok h.symm
            try dsimp only at h
            repeat' split at h
            all_goals try (first
              | obtain ⟨mt, hmt, h⟩ := exceptBind_ok h
              | obtain ⟨mt, hmt, h⟩ := exceptBind_ok h.symm)
            all_goals first
              | (cases h; exact pres_of_eq
                  ((hE _ _ _ _ _ hpB).1.trans ((hE _ _ _ _ _ hpA).1.trans hv1))
                  ((hE _ _ _ _ _ hpB).2.trans ((hE _ _ _ _ _ hpA).2.trans hs1)))
              | cases h
          · -- two sub-evaluations, all emits
            repeat' split at h
            all_goals try (first
              | cases h
              | (rename_i hbad; exact absurd hbad (by decide))
              | (rename_i hbad hx1; exact absurd hbad (by decide))
              | (rename_i hbad hx1 hx2; exact absurd hbad (by decide))
              | exact absurd rfl (by assumption)
              | (obtain ⟨y0, hy0, h2⟩ := exceptBind_ok h; cases hy0)
              | (obtain ⟨y0, hy0, h2⟩ := exceptBind_ok h.symm; cases hy0))
            first
              | obtain ⟨pA, hpA, h⟩ := exceptBind_ok h
              | obtain ⟨pA, hpA, h⟩ := exceptBind_ok h.symm
            try dsimp only at h
            first
              | obtain ⟨pB, hpB, h⟩ := exceptBind_ok h
              | obtain ⟨pB, hpB, h⟩ := exceptBind_ok h.symm
            try dsimp only at h
            repeat' split at h
            all_goals try (first
              | obtain ⟨mt, hmt, h⟩ := exceptBind_ok h
              | obtain ⟨mt, hmt, h⟩ := exceptBind_ok h.symm)
            all_goals first
              | (cases h; exact pres_of_eq
                  ((hE _ _ _ _ _ hpB).1.trans ((hE _ _ _ _ _ hpA).1.trans hv1))
                  ((hE _ _ _ _ _ hpB).2.trans ((hE _ _ _ _ _ hpA).2.trans hs1)))
              | cases h
          · -- two sub-evaluations, all emits
            repeat' split at h
            all_goals try (first
              | cases h
              | (rename_i hbad; exact absurd hbad (by decide))
              | (rename_i hbad hx1; exact absurd hbad (by decide))
              | (rename_i hbad hx1 hx2; exact absurd hbad (by decide))
              | exact absurd rfl (by assumption)
              | (obtain ⟨y0, hy0, h2⟩ := exceptBind_ok h; cases hy0)
              | (obtain ⟨y0, hy0, h2⟩ := exceptBind_ok h.symm; cases hy0))
            first
              | obtain ⟨pA, hpA, h⟩ := exceptBind_ok h
              | obtain ⟨pA, hpA, h⟩ := exceptBind_ok h.symm
            try dsimp only at h
            first
              | obtain ⟨pB, hpB, h⟩ := exceptBind_ok h
              | obtain ⟨pB, hpB, h⟩ := exceptBind_ok h.symm
            try dsimp only at h
            repeat' split at h
            all_goals try (first
              | obtain ⟨mt, hmt, h⟩ := exceptBind_ok h
              | obtain ⟨mt, hmt, h⟩ := exceptBind_ok h.symm)
            all_goals first
              | (cases h; exact pres_of_eq
                  ((hE _ _ _ _ _ hpB).1.trans ((hE _ _ _ _ _ hpA).1.trans hv1))
                  ((hE _ _ _ _ _ hpB).2.trans ((hE _ _ _ _ _ hpA).2.trans hs1)))
              | cases h
          · -- one sub-evaluation, all emits
            repeat' split at h
            all_goals try (first
              | cases h
              | (rename_i hbad; exact absurd hbad (by decide))
              | (rename_i hbad hx1; exact absurd hbad (by decide))
              | (rename_i hbad hx1 hx2; exact absurd hbad (by decide))
              | exact absurd rfl (by assumption)
              | (obtain ⟨y0, hy0, h2⟩ := exceptBind_ok h; cases hy0)
              | (obtain ⟨y0, hy0, h2⟩ := exceptBind_ok h.symm; cases hy0))
            first
              | obtain ⟨pA, hpA, h⟩ := exceptBind_ok h
              | obtain ⟨pA, hpA, h⟩ := exceptBind_ok h.symm
            try dsimp only at h
            repeat' split at h
            all_goals first
              | (cases h; exact pres_of_eq ((hE _ _ _ _ _ hpA).1.trans hv1)
                  ((hE _ _ _ _ _ hpA).2.trans hs1))
              | cases h
          · -- one sub-evaluation, all emits
            repeat' split at h
            all_goals try (first
              | cases h
              | (rename_i hbad; exact absurd hbad (by decide))
              | (rename_i hbad hx1; exact absurd hbad (by decide))
              | (rename_i hbad hx1 hx2; exact absurd hbad (by decide))
              | exact absurd rfl (by assumption)
              | (obtain ⟨y0, hy0, h2⟩ := exceptBind_ok h; cases hy0)
              | (obtain ⟨y0, hy0, h2⟩ := exceptBind_ok h.symm; cases hy0))
            first
              | obtain ⟨pA, hpA, h⟩ := exceptBind_ok h
              | obtain ⟨pA, hpA, h⟩ := exceptBind_ok h.symm
            try dsimp only at h
            repeat' split at h
            all_goals first
              | (cases h; exact pres_of_eq ((hE _ _ _ _ _ hpA).1.trans hv1)
                  ((hE _ _ _ _ _ hpA).2.trans hs1))
              | cases h
          · -- one sub-evaluation, all emits
            repeat' split at h
            all_goals try (first
              | cases h
              | (rename_i hbad; exact absurd hbad (by decide))
              | (rename_i hbad hx1; exact absurd hbad (by decide))
              | (rename_i hbad hx1 hx2; exact absurd hbad (by decide))
              | exact absurd rfl (by assumption)
              | (obtain ⟨y0, hy0, h2⟩ := exceptBind_ok h; cases hy0)
              | (obtain ⟨y0, hy0, h2⟩ := exceptBind_ok h.symm; cases hy0))
            first
              | obtain ⟨pA, hpA, h⟩ := exceptBind_ok h
              | obtain ⟨pA, hpA, h⟩ := exceptBind_ok h.symm
            try dsimp only at h
            repeat' split at h
            all_goals first
              | (cases h; exact pres_of_eq ((hE _ _ _ _ _ hpA).1.trans hv1)
                  ((hE _ _ _ _ _ hpA).2.trans hs1))
              | cases h
          · -- struct get
            repeat' split at h
            all_goals try (first
              | cases h
              | (rename_i hbad; exact absurd hbad (by decide))
              | (rename_i hbad hx1; exact absurd hbad (by decide))
              | (rename_i hbad hx1 hx2; exact absurd hbad (by decide))
              | exact absurd rfl (by assumption)
              | (obtain ⟨y0, hy0, h2⟩ := exceptBind_ok h; cases hy0)
              | (obtain ⟨y0, hy0, h2⟩ := exceptBind_ok h.symm; cases hy0)
              | (obtain ⟨y0, hy0, h2⟩ := exceptBind_ok h; cases h2; done)
              | (obtain ⟨y0, hy0, h2⟩ := exceptBind_ok h.symm; cases h2; done))
            all_goals try (first
              | obtain ⟨fo, hfo, h⟩ := exceptBind_ok h
              | obtain ⟨fo, hfo, h⟩ := exceptBind_ok h.symm)
            all_goals try dsimp only at h
            all_goals repeat' split at h
            all_goals try (first
              | cases h
              | (rename_i hbad; exact absurd hbad (by decide))
              | (rename_i hbad hx1; exact absurd hbad (by decide))
              | (rename_i hbad hx1 hx2; exact absurd hbad (by decide))
              | exact absurd rfl (by assumption)
              | (obtain ⟨y0, hy0, h2⟩ := exceptBind_ok h; cases hy0)
              | (obtain ⟨y0, hy0, h2⟩ := exceptBind_ok h.symm; cases hy0)
              | (obtain ⟨y0, hy0, h2⟩ := exceptBind_ok h; cases h2; done)
              | (obtain ⟨y0, hy0, h2⟩ := exceptBind_ok h.symm; cases h2; done))
            all_goals try (first
              | obtain ⟨pA, hpA, h⟩ := exceptBind_ok h
              | obtain ⟨pA, hpA, h⟩ := exceptBind_ok h.symm)
            all_goals try dsimp only at h
            all_goals repeat' split at h
            all_goals try (first
              | cases h
              | (rename_i hbad; exact absurd hbad (by decide))
              | (rename_i hbad hx1; exact absurd hbad (by decide))
              | (rename_i hbad hx1 hx2; exact absurd hbad (by decide))
              | exact absurd rfl (by assumption)
              | (obtain ⟨y0, hy0, h2⟩ := exceptBind_ok h; cases hy0)
              | (obtain ⟨y0, hy0, h2⟩ := exceptBind_ok h.symm; cases hy0)
              | (obtain ⟨y0, hy0, h2⟩ := exceptBind_ok h; cases h2; done)
              | (obtain ⟨y0, hy0, h2⟩ := exceptBind_ok h.symm; cases h2; done))
            all_goals try (first
              | obtain ⟨pB, hpB, h⟩ := exceptBind_ok h
              | obtain ⟨pB, hpB, h⟩ := exceptBind_ok h.symm)
            all_goals try dsimp only at h
            all_goals try (first
              | obtain ⟨mt, hmt, h⟩ := exceptBind_ok h
              | obtain ⟨mt, hmt, h⟩ := exceptBind_ok h.symm)
            all_goals try dsimp only at h
            all_goals repeat' split at h
            all_goals try (first
              | cases h
              | (rename_i hbad; exact absurd hbad (by decide))
              | (rename_i hbad hx1; exact absurd hbad (by decide))
              | (rename_i hbad hx1 hx2; exact absurd hbad (by decide))
              | exact absurd rfl (by assumption)
              | (obtain ⟨y0, hy0, h2⟩ := exceptBind_ok h; cases hy0)
              | (obtain ⟨y0, hy0, h2⟩ := exceptBind_ok h.symm; cases hy0)
              | (obtain ⟨y0, hy0, h2⟩ := exceptBind_ok h; cases h2; done)
              | (obtain ⟨y0, hy0, h2⟩ := exceptBind_ok h.symm; cases h2; done))
            all_goals first
              | (cases h; exact pres_of_eq
                  ((hE _ _ _ _ _ hpB).1.trans ((hE _ _ _ _ _ hpA).1.trans
                    ((hE _ _ _ _ _ hfo).1.trans hv1)))
                  ((hE _ _ _ _ _ hpB).2.trans ((hE _ _ _ _ _ hpA).2.trans
                    ((hE _ _ _ _ _ hfo).2.trans hs1))))
              | (cases h; exact pres_of_eq
                  ((hE _ _ _ _ _ hpB).1.trans ((hE _ _ _ _ _ hpA).1.trans hv1))
                  ((hE _ _ _ _ _ hpB).2.trans ((hE _ _ _ _ _ hpA).2.trans hs1)))
              | (cases h; exact pres_of_eq
                  ((hE _ _ _ _ _ hpA).1.trans ((hE _ _ _ _ _ hfo).1.trans hv1))
                  ((hE _ _ _ _ _ hpA).2.trans ((hE _ _ _ _ _ hfo).2.trans hs1)))
              | (cases h; exact pres_of_eq ((hE _ _ _ _ _ hpA).1.trans hv1)
                  ((hE _ _ _ _ _ hpA).2.trans hs1))
              | (cases h; exact pres_of_eq ((hE _ _ _ _ _ hfo).1.trans hv1)
                  ((hE _ _ _ _ _ hfo).2.trans hs1))
              | (cases h; exact pres_of_eq hv1 hs1)
              | exact pres_of_eq ((hE _ _ _ _ _ hpB).1.trans ((hE _ _ _ _ _ hpA).1.trans ((hE _ _ _ _ _ hfo).1.trans hv1))) ((hE _ _ _ _ _ hpB).2.trans ((hE _ _ _ _ _ hpA).2.trans ((hE _ _ _ _ _ hfo).2.trans hs1)))
              | exact pres_of_eq ((hE _ _ _ _ _ hpB).1.trans ((hE _ _ _ _ _ hfo).1.trans hv1)) ((hE _ _ _ _ _ hpB).2.trans ((hE _ _ _ _ _ hfo).2.trans hs1))
              | exact pres_of_eq ((hE _ _ _ _ _ hpB).1.trans ((hE _ _ _ _ _ hpA).1.trans hv1)) ((hE _ _ _ _ _ hpB).2.trans ((hE _ _ _ _ _ hpA).2.trans hs1))
              | exact pres_of_eq ((hE _ _ _ _ _ hpA).1.trans ((hE _ _ _ _ _ hfo).1.trans hv1)) ((hE _ _ _ _ _ hpA).2.trans ((hE _ _ _ _ _ hfo).2.trans hs1))
              | exact pres_of_eq ((hE _ _ _ _ _ hpA).1.trans hv1) ((hE _ _ _ _ _ hpA).2.trans hs1)
              | exact pres_of_eq ((hE _ _ _ _ _ hpB).1.trans hv1) ((hE _ _ _ _ _ hpB).2.trans hs1)
              | exact pres_of_eq ((hE _ _ _ _ _ hfo).1.trans hv1) ((hE _ _ _ _ _ hfo).2.trans hs1)
              | exact pres_of_eq hv1 hs1
              | cases h
          · -- struct set
            repeat' split at h
            all_goals try (first
              | cases h
              | (rename_i hbad; exact absurd hbad (by decide))
              | (rename_i hbad hx1; exact absurd hbad (by decide))
              | (rename_i hbad hx1 hx2; exact absurd hbad (by decide))
              | exact absurd rfl (by assumption)
              | (obtain ⟨y0, hy0, h2⟩ := exceptBind_ok h; cases hy0)
              | (obtain ⟨y0, hy0, h2⟩ := exceptBind_ok h.symm; cases hy0)
              | (obtain ⟨y0, hy0, h2⟩ := exceptBind_ok h; cases h2; done)
              | (obtain ⟨y0, hy0, h2⟩ := exceptBind_ok h.symm; cases h2; done))
            all_goals try (first
              | obtain ⟨fo, hfo, h⟩ := exceptBind_ok h
              | obtain ⟨fo, hfo, h⟩ := exceptBind_ok h.symm)
            all_goals try dsimp only at h
            all_goals repeat' split at h
            all_goals try (first
              | cases h
              | (rename_i hbad; exact absurd hbad (by decide))
              | (rename_i hbad hx1; exact absurd hbad (by decide))
              | (rename_i hbad hx1 hx2; exact absurd hbad (by decide))
              | exact absurd rfl (by assumption)
              | (obtain ⟨y0, hy0, h2⟩ := exceptBind_ok h; cases hy0)
              | (obtain ⟨y0, hy0, h2⟩ := exceptBind_ok h.symm; cases hy0)
              | (obtain ⟨y0, hy0, h2⟩ := exceptBind_ok h; cases h2; done)
              | (obtain ⟨y0, hy0, h2⟩ := exceptBind_ok h.symm; cases h2; done))
            all_goals try (first
              | obtain ⟨pA, hpA, h⟩ := exceptBind_ok h
              | obtain ⟨pA, hpA, h⟩ := exceptBind_ok h.symm)
            all_goals try dsimp only at h
            all_goals repeat' split at h
            all_goals try (first
              | cases h
              | (rename_i hbad; exact absurd hbad (by decide))
              | (rename_i hbad hx1; exact absurd hbad (by decide))
              | (rename_i hbad hx1 hx2; exact absurd hbad (by decide))
              | exact absurd rfl (by assumption)
              | (obtain ⟨y0, hy0, h2⟩ := exceptBind_ok h; cases hy0)
              | (obtain ⟨y0, hy0, h2⟩ := exceptBind_ok h.symm; cases hy0)
              | (obtain ⟨y0, hy0, h2⟩ := exceptBind_ok h; cases h2; done)
              | (obtain ⟨y0, hy0, h2⟩ := exceptBind_ok h.symm; cases h2; done))
            all_goals try (first
              | obtain ⟨pB, hpB, h⟩ := exceptBind_ok h
              | obtain ⟨pB, hpB, h⟩ := exceptBind_ok h.symm)
            all_goals try dsimp only at h
            all_goals try (first
              | obtain ⟨mt, hmt, h⟩ := exceptBind_ok h
              | obtain ⟨mt, hmt, h⟩ := exceptBind_ok h.symm)
            all_goals try dsimp only at h
            all_goals repeat' split at h
            all_goals try (first
              | cases h
              | (rename_i hbad; exact absurd hbad (by decide))
              | (rename_i hbad hx1; exact absurd hbad (by decide))
              | (rename_i hbad hx1 hx2; exact absurd hbad (by decide))
              | exact absurd rfl (by assumption)
              | (obtain ⟨y0, hy0, h2⟩ := exceptBind_ok h; cases hy0)
              | (obtain ⟨y0, hy0, h2⟩ := exceptBind_ok h.symm; cases hy0)
              | (obtain ⟨y0, hy0, h2⟩ := exceptBind_ok h; cases h2; done)
              | (obtain ⟨y0, hy0, h2⟩ := exceptBind_ok h.symm; cases h2; done))
            all_goals first
              | (cases h; exact pres_of_eq
                  ((hE _ _ _ _ _ hpB).1.trans ((hE _ _ _ _ _ hpA).1.trans
                    ((hE _ _ _ _ _ hfo).1.trans hv1)))
                  ((hE _ _ _ _ _ hpB).2.trans ((hE _ _ _ _ _ hpA).2.trans
                    ((hE _ _ _ _ _ hfo).2.trans hs1))))
              | (cases h; exact pres_of_eq
                  ((hE _ _ _ _ _ hpB).1.trans ((hE _ _ _ _ _ hpA).1.trans hv1))
                  ((hE _ _ _ _ _ hpB).2.trans ((hE _ _ _ _ _ hpA).2.trans hs1)))
              | (cases h; exact pres_of_eq
                  ((hE _ _ _ _ _ hpA).1.trans ((hE _ _ _ _ _ hfo).1.trans hv1))
                  ((hE _ _ _ _ _ hpA).2.trans ((hE _ _ _ _ _ hfo).2.trans hs1)))
              | (cases h; exact pres_of_eq ((hE _ _ _ _ _ hpA).1.trans hv1)
                  ((hE _ _ _ _ _ hpA).2.trans hs1))
              | (cases h; exact pres_of_eq ((hE _ _ _ _ _ hfo).1.trans hv1)
                  ((hE _ _ _ _ _ hfo).2.trans hs1))
              | (cases h; exact pres_of_eq hv1 hs1)
              | exact pres_of_eq ((hE _ _ _ _ _ hpB).1.trans ((hE _ _ _ _ _ hpA).1.trans ((hE _ _ _ _ _ hfo).1.trans hv1))) ((hE _ _ _ _ _ hpB).2.trans ((hE _ _ _ _ _ hpA).2.trans ((hE _ _ _ _ _ hfo).2.trans hs1)))
              | exact pres_of_eq ((hE _ _ _ _ _ hpB).1.trans ((hE _ _ _ _ _ hfo).1.trans hv1)) ((hE _ _ _ _ _ hpB).2.trans ((hE _ _ _ _ _ hfo).2.trans hs1))
              | exact pres_of_eq ((hE _ _ _ _ _ hpB).1.trans ((hE _ _ _ _ _ hpA).1.trans hv1)) ((hE _ _ _ _ _ hpB).2.trans ((hE _ _ _ _ _ hpA).2.trans hs1))
              | exact pres_of_eq ((hE _ _ _ _ _ hpA).1.trans ((hE _ _ _ _ _ hfo).1.trans hv1)) ((hE _ _ _ _ _ hpA).2.trans ((hE _ _ _ _ _ hfo).2.trans hs1))
              | exact pres_of_eq ((hE _ _ _ _ _ hpA).1.trans hv1) ((hE _ _ _ _ _ hpA).2.trans hs1)
              | exact pres_of_eq ((hE _ _ _ _ _ hpB).1.trans hv1) ((hE _ _ _ _ _ hpB).2.trans hs1)
              | exact pres_of_eq ((hE _ _ _ _ _ hfo).1.trans hv1) ((hE _ _ _ _ _ hfo).2.trans hs1)
              | exact pres_of_eq hv1 hs1
              | cases h
          · -- one sub-evaluation, all emits
            repeat' split at h
            all_goals try (first
              | cases h
              | (rename_i hbad; exact absurd hbad (by decide))
              | (rename_i hbad hx1; exact absurd hbad (by decide))
              | (rename_i hbad hx1 hx2; exact absurd hbad (by decide))
              | exact absurd rfl (by assumption)
              | (obtain ⟨y0, hy0, h2⟩ := exceptBind_ok h; cases hy0)
              | (obtain ⟨y0, hy0, h2⟩ := exceptBind_ok h.symm; cases hy0))
            first
              | obtain ⟨pA, hpA, h⟩ := exceptBind_ok h
              | obtain ⟨pA, hpA, h⟩ := exceptBind_ok h.symm
            try dsimp only at h
            repeat' split at h
            all_goals first
              | (cases h; exact pres_of_eq ((hE _ _ _ _ _ hpA).1.trans hv1)
                  ((hE _ _ _ _ _ hpA).2.trans hs1))
              | cases h
          · -- one sub-evaluation, all emits
            repeat' split at h
            all_goals try (first
              | cases h
              | (rename_i hbad; exact absurd hbad (by decide))
              | (rename_i hbad hx1; exact absurd hbad (by decide))
              | (rename_i hbad hx1 hx2; exact absurd hbad (by decide))
              | exact absurd rfl (by assumption)
              | (obtain ⟨y0, hy0, h2⟩ := exceptBind_ok h; cases hy0)
              | (obtain ⟨y0, hy0, h2⟩ := exceptBind_ok h.symm; cases hy0))
            first
              | obtain ⟨pA, hpA, h⟩ := exceptBind_ok h
              | obtain ⟨pA, hpA, h⟩ := exceptBind_ok h.symm
            try dsimp only at h
            repeat' split at h
            all_goals first
              | (cases h; exact pres_of_eq ((hE _ _ _ _ _ hpA).1.trans hv1)
                  ((hE _ _ _ _ _ hpA).2.trans hs1))
              | cases h
          · -- bool
            split at h
            · cases h
            · split at h
              · split at h
                · obtain ⟨p, hp, h⟩ := exceptBind_ok h
                  try dsimp only at h
                  rw [pure_ok, ok_bind] at h
                  try dsimp only at h
                  cases h
                  exact pres_of_eq ((hE _ _ _ _ _ hp).1.trans hv1)
                    ((hE _ _ _ _ _ hp).2.trans hs1)
                · obtain ⟨y0, hy0, h2⟩ := exceptBind_ok h
                  cases hy0
              · rw [pure_ok, ok_bind] at h
                cases h
                exact pres_of_eq hv1 hs1
          · -- two sub-evaluations, all emits
            repeat' split at h
            all_goals try (first
              | cases h
              | (rename_i hbad; exact absurd hbad (by decide))
              | (rename_i hbad hx1; exact absurd hbad (by decide))
              | (rename_i hbad hx1 hx2; exact absurd hbad (by decide))
              | exact absurd rfl (by assumption)
              | (obtain ⟨y0, hy0, h2⟩ := exceptBind_ok h; cases hy0)
              | (obtain ⟨y0, hy0, h2⟩ := exceptBind_ok h.symm; cases hy0))
            first
              | obtain ⟨pA, hpA, h⟩ := exceptBind_ok h
              | obtain ⟨pA, hpA, h⟩ := exceptBind_ok h.symm
            try dsimp only at h
            first
              | obtain ⟨pB, hpB, h⟩ := exceptBind_ok h
              | obtain ⟨pB, hpB, h⟩ := exceptBind_ok h.symm
            try dsimp only at h
            repeat' split at h
            all_goals try (first
              | obtain ⟨mt, hmt, h⟩ := exceptBind_ok h
              | obtain ⟨mt, hmt, h⟩ := exceptBind_ok h.symm)
            all_goals first
              | (cases h; exact pres_of_eq
                  ((hE _ _ _ _ _ hpB).1.trans ((hE _ _ _ _ _ hpA).1.trans hv1))
                  ((hE _ _ _ _ _ hpB).2.trans ((hE _ _ _ _ _ hpA).2.trans hs1)))
              | cases h
          · -- two sub-evaluations, all emits
            repeat' split at h
            all_goals try (first
              | cases h
              | (rename_i hbad; exact absurd hbad (by decide))
              | (rename_i hbad hx1; exact absurd hbad (by decide))
              | (rename_i hbad hx1 hx2; exact absurd hbad (by decide))
              | exact absurd rfl (by assumption)
              | (obtain ⟨y0, hy0, h2⟩ := exceptBind_ok h; cases hy0)
              | (obtain ⟨y0, hy0, h2⟩ := exceptBind_ok h.symm; cases hy0))
            first
              | obtain ⟨pA, hpA, h⟩ := exceptBind_ok h
              | obtain ⟨pA, hpA, h⟩ := exceptBind_ok h.symm
            try dsimp only at h
            first
              | obtain ⟨pB, hpB, h⟩ := exceptBind_ok h
              | obtain ⟨pB, hpB, h⟩ := exceptBind_ok h.symm
            try dsimp only at h
            repeat' split at h
            all_goals try (first
              | obtain ⟨mt, hmt, h⟩ := exceptBind_ok h
              | obtain ⟨mt, hmt, h⟩ := exceptBind_ok h.symm)
            all_goals first
              | (cases h; exact pres_of_eq
                  ((hE _ _ _ _ _ hpB).1.trans ((hE _ _ _ _ _ hpA).1.trans hv1))
                  ((hE _ _ _ _ _ hpB).2.trans ((hE _ _ _ _ _ hpA).2.trans hs1)))
              | cases h
          · -- two sub-evaluations, all emits
            repeat' split at h
            all_goals try (first
              | cases h
              | (rename_i hbad; exact absurd hbad (by decide))
              | (rename_i hbad hx1; exact absurd hbad (by decide))
              | (rename_i hbad hx1 hx2; exact absurd hbad (by decide))
              | exact absurd rfl (by assumption)
              | (obtain ⟨y0, hy0, h2⟩ := exceptBind_ok h; cases hy0)
              | (obtain ⟨y0, hy0, h2⟩ := exceptBind_ok h.symm; cases hy0))
            first
              | obtain ⟨pA, hpA, h⟩ := exceptBind_ok h
              | obtain ⟨pA, hpA, h⟩ := exceptBind_ok h.symm
            try dsimp only at h
            first
              | obtain ⟨pB, hpB, h⟩ := exceptBind_ok h
              | obtain ⟨pB, hpB, h⟩ := exceptBind_ok h.symm
            try dsimp only at h
            repeat' split at h
            all_goals try (first
              | obtain ⟨mt, hmt, h⟩ := exceptBind_ok h
              | obtain ⟨mt, hmt, h⟩ := exceptBind_ok h.symm)
            all_goals first
              | (cases h; exact pres_of_eq
                  ((hE _ _ _ _ _ hpB).1.trans ((hE _ _ _ _ _ hpA).1.trans hv1))
                  ((hE _ _ _ _ _ hpB).2.trans ((hE _ _ _ _ _ hpA).2.trans hs1)))
              | cases h
          · -- two sub-evaluations, all emits
            repeat' split at h
            all_goals try (first
              | cases h
              | (rename_i hbad; exact absurd hbad (by decide))
              | (rename_i hbad hx1; exact absurd hbad (by decide))
              | (rename_i hbad hx1 hx2; exact absurd hbad (by decide))
              | exact absurd rfl (by assumption)
              | (obtain ⟨y0, hy0, h2⟩ := exceptBind_ok h; cases hy0)
              | (obtain ⟨y0, hy0, h2⟩ := exceptBind_ok h.symm; cases hy0)
              | (obtain ⟨y0, hy0, h2⟩ := exceptBind_ok h; cases h2; done)
              | (obtain ⟨y0, hy0, h2⟩ := exceptBind_ok h.symm; cases h2; done))
            all_goals try (first
              | obtain ⟨fo, hfo, h⟩ := exceptBind_ok h
              | obtain ⟨fo, hfo, h⟩ := exceptBind_ok h.symm)
            all_goals try dsimp only at h
            all_goals repeat' split at h
            all_goals try (first
              | cases h
              | (rename_i hbad; exact absurd hbad (by decide))
              | (rename_i hbad hx1; exact absurd hbad (by decide))
              | (rename_i hbad hx1 hx2; exact absurd hbad (by decide))
              | exact absurd rfl (by assumption)
              | (obtain ⟨y0, hy0, h2⟩ := exceptBind_ok h; cases hy0)
              | (obtain ⟨y0, hy0, h2⟩ := exceptBind_ok h.symm; cases hy0)
              | (obtain ⟨y0, hy0, h2⟩ := exceptBind_ok h; cases h2; done)
              | (obtain ⟨y0, hy0, h2⟩ := exceptBind_ok h.symm; cases h2; done))
            all_goals try (first
              | obtain ⟨pA, hpA, h⟩ := exceptBind_ok h
              | obtain ⟨pA, hpA, h⟩ := exceptBind_ok h.symm)
            all_goals try dsimp only at h
            all_goals repeat' split at h
            all_goals try (first
              | cases h
              | (rename_i hbad; exact absurd hbad (by decide))
              | (rename_i hbad hx1; exact absurd hbad (by decide))
              | (rename_i hbad hx1 hx2; exact absurd hbad (by decide))
              | exact absurd rfl (by assumption)
              | (obtain ⟨y0, hy0, h2⟩ := exceptBind_ok h; cases hy0)
              | (obtain ⟨y0, hy0, h2⟩ := exceptBind_ok h.symm; cases hy0)
              | (obtain ⟨y0, hy0, h2⟩ := exceptBind_ok h; cases h2; done)
              | (obtain ⟨y0, hy0, h2⟩ := exceptBind_ok h.symm; cases h2; done))
            all_goals try (first
              | obtain ⟨pB, hpB, h⟩ := exceptBind_ok h
              | obtain ⟨pB, hpB, h⟩ := exceptBind_ok h.symm)
            all_goals try dsimp only at h
            all_goals try (first
              | obtain ⟨mt, hmt, h⟩ := exceptBind_ok h
              | obtain ⟨mt, hmt, h⟩ := exceptBind_ok h.symm)
            all_goals try dsimp only at h
            all_goals repeat' split at h
            all_goals try (first
              | cases h
              | (rename_i hbad; exact absurd hbad (by decide))
              | (rename_i hbad hx1; exact absurd hbad (by decide))
              | (rename_i hbad hx1 hx2; exact absurd hbad (by decide))
              | exact absurd rfl (by assumption)
              | (obtain ⟨y0, hy0, h2⟩ := exceptBind_ok h; cases hy0)
              | (obtain ⟨y0, hy0, h2⟩ := exceptBind_ok h.symm; cases hy0)
              | (obtain ⟨y0, hy0, h2⟩ := exceptBind_ok h; cases h2; done)
              | (obtain ⟨y0, hy0, h2⟩ := exceptBind_ok h.symm; cases h2; done))
            all_goals first
              | (cases h; exact pres_of_eq
                  ((hE _ _ _ _ _ hpB).1.trans ((hE _ _ _ _ _ hpA).1.trans
                    ((hE _ _ _ _ _ hfo).1.trans hv1)))
                  ((hE _ _ _ _ _ hpB).2.trans ((hE _ _ _ _ _ hpA).2.trans
                    ((hE _ _ _ _ _ hfo).2.trans hs1))))
              | (cases h; exact pres_of_eq
                  ((hE _ _ _ _ _ hpB).1.trans ((hE _ _ _ _ _ hpA).1.trans hv1))
                  ((hE _ _ _ _ _ hpB).2.trans ((hE _ _ _ _ _ hpA).2.trans hs1)))
              | (cases h; exact pres_of_eq
                  ((hE _ _ _ _ _ hpA).1.trans ((hE _ _ _ _ _ hfo).1.trans hv1))
                  ((hE _ _ _ _ _ hpA).2.trans ((hE _ _ _ _ _ hfo).2.trans hs1)))
              | (cases h; exact pres_of_eq ((hE _ _ _ _ _ hpA).1.trans hv1)
                  ((hE _ _ _ _ _ hpA).2.trans hs1))
              | (cases h; exact pres_of_eq ((hE _ _ _ _ _ hfo).1.trans hv1)
                  ((hE _ _ _ _ _ hfo).2.trans hs1))
              | (cases h; exact pres_of_eq hv1 hs1)
              | exact pres_of_eq ((hE _ _ _ _ _ hpB).1.trans ((hE _ _ _ _ _ hpA).1.trans ((hE _ _ _ _ _ hfo).1.trans hv1))) ((hE _ _ _ _ _ hpB).2.trans ((hE _ _ _ _ _ hpA).2.trans ((hE _ _ _ _ _ hfo).2.trans hs1)))
              | exact pres_of_eq ((hE _ _ _ _ _ hpB).1.trans ((hE _ _ _ _ _ hfo).1.trans hv1)) ((hE _ _ _ _ _ hpB).2.trans ((hE _ _ _ _ _ hfo).2.trans hs1))
              | exact pres_of_eq ((hE _ _ _ _ _ hpB).1.trans ((hE _ _ _ _ _ hpA).1.trans hv1)) ((hE _ _ _ _ _ hpB).2.trans ((hE _ _ _ _ _ hpA).2.trans hs1))
              | exact pres_of_eq ((hE _ _ _ _ _ hpA).1.trans ((hE _ _ _ _ _ hfo).1.trans hv1)) ((hE _ _ _ _ _ hpA).2.trans ((hE _ _ _ _ _ hfo).2.trans hs1))
              | exact pres_of_eq ((hE _ _ _ _ _ hpA).1.trans hv1) ((hE _ _ _ _ _ hpA).2.trans hs1)
              | exact pres_of_eq ((hE _ _ _ _ _ hpB).1.trans hv1) ((hE _ _ _ _ _ hpB).2.trans hs1)
              | exact pres_of_eq ((hE _ _ _ _ _ hfo).1.trans hv1) ((hE _ _ _ _ _ hfo).2.trans hs1)
              | exact pres_of_eq hv1 hs1
              | cases h
          · -- asm
            split at h
            · cases h
            · split at h
              · obtain ⟨ca, hca, h⟩ := exceptBind_ok h
                try dsimp only at h
                have hfold : ca.vars = c1.vars ∧ ca.sp_offset = c1.sp_offset := by
                  refine foldlM_exact ?_ _ _ _ hca
                  intro a x b hab
                  split at hab
                  · split at hab
                    · obtain ⟨str, hstr, hab⟩ := exceptBind_ok hab
                      rw [pure_ok] at hab
                      cases hab
                      exact ⟨rfl, rfl⟩
                    · cases hab
                  all_goals cases hab
                have hceq : c2.vars = ca.vars ∧ c2.sp_offset = ca.sp_offset := by
                  cases h
                  exact ⟨rfl, rfl⟩
                exact pres_of_eq ((hceq.1.trans hfold.1).trans hv1)
                  ((hceq.2.trans hfold.2).trans hs1)
              · cases h
                exact pres_of_eq hv1 hs1
          · -- two sub-evaluations, all emits
            repeat' split at h
            all_goals try (first
              | cases h
              | (rename_i hbad; exact absurd hbad (by decide))
              | (rename_i hbad hx1; exact absurd hbad (by decide))
              | (rename_i hbad hx1 hx2; exact absurd hbad (by decide))
              | exact absurd rfl (by assumption)
              | (obtain ⟨y0, hy0, h2⟩ := exceptBind_ok h; cases hy0)
              | (obtain ⟨y0, hy0, h2⟩ := exceptBind_ok h.symm; cases hy0))
            first
              | obtain ⟨pA, hpA, h⟩ := exceptBind_ok h
              | obtain ⟨pA, hpA, h⟩ := exceptBind_ok h.symm
            try dsimp only at h
            first
              | obtain ⟨pB, hpB, h⟩ := exceptBind_ok h
              | obtain ⟨pB, hpB, h⟩ := exceptBind_ok h.symm
            try dsimp only at h
            repeat' split at h
            all_goals try (first
              | obtain ⟨mt, hmt, h⟩ := exceptBind_ok h
              | obtain ⟨mt, hmt, h⟩ := exceptBind_ok h.symm)
            all_goals first
              | (cases h; exact pres_of_eq
                  ((hE _ _ _ _ _ hpB).1.trans ((hE _ _ _ _ _ hpA).1.trans hv1))
                  ((hE _ _ _ _ _ hpB).2.trans ((hE _ _ _ _ _ hpA).2.trans hs1)))
              | cases h
          · -- two sub-evaluations, all emits
            repeat' split at h
            all_goals try (first
              | cases h
              | (rename_i hbad; exact absurd hbad (by decide))
              | (rename_i hbad hx1; exact absurd hbad (by decide))
              | (rename_i hbad hx1 hx2; exact absurd hbad (by decide))
              | exact absurd rfl (by assumption)
              | (obtain ⟨y0, hy0, h2⟩ := exceptBind_ok h; cases hy0)
              | (obtain ⟨y0, hy0, h2⟩ := exceptBind_ok h.symm; cases hy0))
            first
              | obtain ⟨pA, hpA, h⟩ := exceptBind_ok h
              | obtain ⟨pA, hpA, h⟩ := exceptBind_ok h.symm
            try dsimp only at h
            first
              | obtain ⟨pB, hpB, h⟩ := exceptBind_ok h
              | obtain ⟨pB, hpB, h⟩ := exceptBind_ok h.symm
            try dsimp only at h
            repeat' split at h
            all_goals try (first
              | obtain ⟨mt, hmt, h⟩ := exceptBind_ok h
              | obtain ⟨mt, hmt, h⟩ := exceptBind_ok h.symm)
            all_goals first
              | (cases h; exact pres_of_eq
                  ((hE _ _ _ _ _ hpB).1.trans ((hE _ _ _ _ _ hpA).1.trans hv1))
                  ((hE _ _ _ _ _ hpB).2.trans ((hE _ _ _ _ _ hpA).2.trans hs1)))
              | cases h
          · -- two sub-evaluations, all emits
            repeat' split at h
            all_goals try (first
              | cases h
              | (rename_i hbad; exact absurd hbad (by decide))
              | (rename_i hbad hx1; exact absurd hbad (by decide))
              | (rename_i hbad hx1 hx2; exact absurd hbad (by decide))
              | exact absurd rfl (by assumption)
              | (obtain ⟨y0, hy0, h2⟩ := exceptBind_ok h; cases hy0)
              | (obtain ⟨y0, hy0, h2⟩ := exceptBind_ok h.symm; cases hy0))
            first
              | obtain ⟨pA, hpA, h⟩ := exceptBind_ok h
              | obtain ⟨pA, hpA, h⟩ := exceptBind_ok h.symm
            try dsimp only at h
            first
              | obtain ⟨pB, hpB, h⟩ := exceptBind_ok h
              | obtain ⟨pB, hpB, h⟩ := exceptBind_ok h.symm
            try dsimp only at h
            repeat' split at h
            all_goals try (first
              | obtain ⟨mt, hmt, h⟩ := exceptBind_ok h
              | obtain ⟨mt, hmt, h⟩ := exceptBind_ok h.symm)
            all_goals first
              | (cases h; exact pres_of_eq
                  ((hE _ _ _ _ _ hpB).1.trans ((hE _ _ _ _ _ hpA).1.trans hv1))
                  ((hE _ _ _ _ _ hpB).2.trans ((hE _ _ _ _ _ hpA).2.trans hs1)))
              | cases h
          · -- two sub-evaluations, all emits
            repeat' split at h
            all_goals try (first
              | cases h
              | (rename_i hbad; exact absurd hbad (by decide))
              | (rename_i hbad hx1; exact absurd hbad (by decide))
              | (rename_i hbad hx1 hx2; exact absurd hbad (by decide))
              | exact absurd rfl (by assumption)
              | (obtain ⟨y0, hy0, h2⟩ := exceptBind_ok h; cases hy0)
              | (obtain ⟨y0, hy0, h2⟩ := exceptBind_ok h.symm; cases hy0))
            first
              | obtain ⟨pA, hpA, h⟩ := exceptBind_ok h
              | obtain ⟨pA, hpA, h⟩ := exceptBind_ok h.symm
            try dsimp only at h
            first
              | obtain ⟨pB, hpB, h⟩ := exceptBind_ok h
              | obtain ⟨pB, hpB, h⟩ := exceptBind_ok h.symm
            try dsimp only at h
            repeat' split at h
            all_goals try (first
              | obtain ⟨mt, hmt, h⟩ := exceptBind_ok h
              | obtain ⟨mt, hmt, h⟩ := exceptBind_ok h.symm)
            all_goals first
              | (cases h; exact pres_of_eq
                  ((hE _ _ _ _ _ hpB).1.trans ((hE _ _ _ _ _ hpA).1.trans hv1))
                  ((hE _ _ _ _ _ hpB).2.trans ((hE _ _ _ _ _ hpA).2.trans hs1)))
              | cases h
          · -- two sub-evaluations, all emits
            repeat' split at h
            all_goals try (first
              | cases h
              | (rename_i hbad; exact absurd hbad (by decide))
              | (rename_i hbad hx1; exact absurd hbad (by decide))
              | (rename_i hbad hx1 hx2; exact absurd hbad (by decide))
              | exact absurd rfl (by assumption)
              | (obtain ⟨y0, hy0, h2⟩ := exceptBind_ok h; cases hy0)
              | (obtain ⟨y0, hy0, h2⟩ := exceptBind_ok h.symm; cases hy0))
            first
              | obtain ⟨pA, hpA, h⟩ := exceptBind_ok h
              | obtain ⟨pA, hpA, h⟩ := exceptBind_ok h.symm
            try dsimp only at h
            first
              | obtain ⟨pB, hpB, h⟩ := exceptBind_ok h
              | obtain ⟨pB, hpB, h⟩ := exceptBind_ok h.symm
            try dsimp only at h
            repeat' split at h
            all_goals try (first
              | obtain ⟨mt, hmt, h⟩ := exceptBind_ok h
              | obtain ⟨mt, hmt, h⟩ := exceptBind_ok h.symm)
            all_goals first
              | (cases h; exact pres_of_eq
                  ((hE _ _ _ _ _ hpB).1.trans ((hE _ _ _ _ _ hpA).1.trans hv1))
                  ((hE _ _ _ _ _ hpB).2.trans ((hE _ _ _ _ _ hpA).2.trans hs1)))
              | cases h
          · -- two sub-evaluations, all emits
            repeat' split at h
            all_goals try (first
              | cases h
              | (rename_i hbad; exact absurd hbad (by decide))
              | (rename_i hbad hx1; exact absurd hbad (by decide))
              | (rename_i hbad hx1 hx2; exact absurd hbad (by decide))
              | exact absurd rfl (by assumption)
              | (obtain ⟨y0, hy0, h2⟩ := exceptBind_ok h; cases hy0)
              | (obtain ⟨y0, hy0, h2⟩ := exceptBind_ok h.symm; cases hy0))
            first
              | obtain ⟨pA, hpA, h⟩ := exceptBind_ok h
              | obtain ⟨pA, hpA, h⟩ := exceptBind_ok h.symm
            try dsimp only at h
            first
              | obtain ⟨pB, hpB, h⟩ := exceptBind_ok h
              | obtain ⟨pB, hpB, h⟩ := exceptBind_ok h.symm
            try dsimp only at h
            repeat' split at h
            all_goals try (first
              | obtain ⟨mt, hmt, h⟩ := exceptBind_ok h
              | obtain ⟨mt, hmt, h⟩ := exceptBind_ok h.symm)
            all_goals first
              | (cases h; exact pres_of_eq
                  ((hE _ _ _ _ _ hpB).1.trans ((hE _ _ _ _ _ hpA).1.trans hv1))
                  ((hE _ _ _ _ _ hpB).2.trans ((hE _ _ _ _ _ hpA).2.trans hs1)))
              | cases h
          · -- two sub-evaluations, all emits
            repeat' split at h
            all_goals try (first
              | cases h
              | (rename_i hbad; exact absurd hbad (by decide))
              | (rename_i hbad hx1; exact absurd hbad (by decide))
              | (rename_i hbad hx1 hx2; exact absurd hbad (by decide))
              | exact absurd rfl (by assumption)
              | (obtain ⟨y0, hy0, h2⟩ := exceptBind_ok h; cases hy0)
              | (obtain ⟨y0, hy0, h2⟩ := exceptBind_ok h.symm; cases hy0))
            first
              | obtain ⟨pA, hpA, h⟩ := exceptBind_ok h
              | obtain ⟨pA, hpA, h⟩ := exceptBind_ok h.symm
            try dsimp only at h
            first
              | obtain ⟨pB, hpB, h⟩ := exceptBind_ok h
              | obtain ⟨pB, hpB, h⟩ := exceptBind_ok h.symm
            try dsimp only at h
            repeat' split at h
            all_goals try (first
              | obtain ⟨mt, hmt, h⟩ := exceptBind_ok h
              | obtain ⟨mt, hmt, h⟩ := exceptBind_ok h.symm)
            all_goals first
              | (cases h; exact pres_of_eq
                  ((hE _ _ _ _ _ hpB).1.trans ((hE _ _ _ _ _ hpA).1.trans hv1))
                  ((hE _ _ _ _ _ hpB).2.trans ((hE _ _ _ _ _ hpA).2.trans hs1)))
              | cases h
          · -- two sub-evaluations, all emits
            repeat' split at h
            all_goals try (first
              | cases h
              | (rename_i hbad; exact absurd hbad (by decide))
              | (rename_i hbad hx1; exact absurd hbad (by decide))
              | (rename_i hbad hx1 hx2; exact absurd hbad (by decide))
              | exact absurd rfl (by assumption)
              | (obtain ⟨y0, hy0, h2⟩ := exceptBind_ok h; cases hy0)
              | (obtain ⟨y0, hy0, h2⟩ := exceptBind_ok h.symm; cases hy0))
            first
              | obtain ⟨pA, hpA, h⟩ := exceptBind_ok h
              | obtain ⟨pA, hpA, h⟩ := exceptBind_ok h.symm
            try dsimp only at h
            first
              | obtain ⟨pB, hpB, h⟩ := exceptBind_ok h
              | obtain ⟨pB, hpB, h⟩ := exceptBind_ok h.symm
            try dsimp only at h
            repeat' split at h
            all_goals try (first
              | obtain ⟨mt, hmt, h⟩ := exceptBind_ok h
              | obtain ⟨mt, hmt, h⟩ := exceptBind_ok h.symm)
            all_goals first
              | (cases h; exact pres_of_eq
                  ((hE _ _ _ _ _ hpB).1.trans ((hE _ _ _ _ _ hpA).1.trans hv1))
                  ((hE _ _ _ _ _ hpB).2.trans ((hE _ _ _ _ _ hpA).2.trans hs1)))
              | cases h
          · -- two sub-evaluations, all emits
            repeat' split at h
            all_goals try (first
              | cases h
              | (rename_i hbad; exact absurd hbad (by decide))
              | (rename_i hbad hx1; exact absurd hbad (by decide))
              | (rename_i hbad hx1 hx2; exact absurd hbad (by decide))
              | exact absurd rfl (by assumption)
              | (obtain ⟨y0, hy0, h2⟩ := exceptBind_ok h; cases hy0)
              | (obtain ⟨y0, hy0, h2⟩ := exceptBind_ok h.symm; cases hy0))
            first
              | obtain ⟨pA, hpA, h⟩ := exceptBind_ok h
              | obtain ⟨pA, hpA, h⟩ := exceptBind_ok h.symm
            try dsimp only at h
            first
              | obtain ⟨pB, hpB, h⟩ := exceptBind_ok h
              | obtain ⟨pB, hpB, h⟩ := exceptBind_ok h.symm
            try dsimp only at h
            repeat' split at h
            all_goals try (first
              | obtain ⟨mt, hmt, h⟩ := exceptBind_ok h
              | obtain ⟨mt, hmt, h⟩ := exceptBind_ok h.symm)
            all_goals first
              | (cases h; exact pres_of_eq
                  ((hE _ _ _ _ _ hpB).1.trans ((hE _ _ _ _ _ hpA).1.trans hv1))
                  ((hE _ _ _ _ _ hpB).2.trans ((hE _ _ _ _ _ hpA).2.trans hs1)))
              | cases h
          · -- two sub-evaluations, all emits
            repeat' split at h
            all_goals try (first
              | cases h
              | (rename_i hbad; exact absurd hbad (by decide))
              | (rename_i hbad hx1; exact absurd hbad (by decide))
              | (rename_i hbad hx1 hx2; exact absurd hbad (by decide))
              | exact absurd rfl (by assumption)
              | (obtain ⟨y0, hy0, h2⟩ := exceptBind_ok h; cases hy0)
              | (obtain ⟨y0, hy0, h2⟩ := exceptBind_ok h.symm; cases hy0))
            first
              | obtain ⟨pA, hpA, h⟩ := exceptBind_ok h
              | obtain ⟨pA, hpA, h⟩ := exceptBind_ok h.symm
            try dsimp only at h
            first
              | obtain ⟨pB, hpB, h⟩ := exceptBind_ok h
              | obtain ⟨pB, hpB, h⟩ := exceptBind_ok h.symm
            try dsimp only at h
            repeat' split at h
            all_goals try (first
              | obtain ⟨mt, hmt, h⟩ := exceptBind_ok h
              | obtain ⟨mt, hmt, h⟩ := exceptBind_ok h.symm)
            all_goals first
              | (cases h; exact pres_of_eq
                  ((hE _ _ _ _ _ hpB).1.trans ((hE _ _ _ _ _ hpA).1.trans hv1))
                  ((hE _ _ _ _ _ hpB).2.trans ((hE _ _ _ _ _ hpA).2.trans hs1)))
              | cases h
          · -- two sub-evaluations, all emits
            repeat' split at h
            all_goals try (first
              | cases h
              | (rename_i hbad; exact absurd hbad (by decide))
              | (rename_i hbad hx1; exact absurd hbad (by decide))
              | (rename_i hbad hx1 hx2; exact absurd hbad (by decide))
              | exact absurd rfl (by assumption)
              | (obtain ⟨y0, hy0, h2⟩ := exceptBind_ok h; cases hy0)
              | (obtain ⟨y0, hy0, h2⟩ := exceptBind_ok h.symm; cases hy0))
            first
              | obtain ⟨pA, hpA, h⟩ := exceptBind_ok h
              | obtain ⟨pA, hpA, h⟩ := exceptBind_ok h.symm
            try dsimp only at h
            first
              | obtain ⟨pB, hpB, h⟩ := exceptBind_ok h
              | obtain ⟨pB, hpB, h⟩ := exceptBind_ok h.symm
            try dsimp only at h
            repeat' split at h
            all_goals try (first
              | obtain ⟨mt, hmt, h⟩ := exceptBind_ok h
              | obtain ⟨mt, hmt, h⟩ := exceptBind_ok h.symm)
            all_goals first
              | (cases h; exact pres_of_eq
                  ((hE _ _ _ _ _ hpB).1.trans ((hE _ _ _ _ _ hpA).1.trans hv1))
                  ((hE _ _ _ _ _ hpB).2.trans ((hE _ _ _ _ _ hpA).2.trans hs1)))
              | cases h
          · -- two sub-evaluations, all emits
            repeat' split at h
            all_goals try (first
              | cases h
              | (rename_i hbad; exact absurd hbad (by decide))
              | (rename_i hbad hx1; exact absurd hbad (by decide))
              | (rename_i hbad hx1 hx2; exact absurd hbad (by decide))
              | exact absurd rfl (by assumption)
              | (obtain ⟨y0, hy0, h2⟩ := exceptBind_ok h; cases hy0)
              | (obtain ⟨y0, hy0, h2⟩ := exceptBind_ok h.symm; cases hy0))
            first
              | obtain ⟨pA, hpA, h⟩ := exceptBind_ok h
              | obtain ⟨pA, hpA, h⟩ := exceptBind_ok h.symm
            try dsimp only at h
            first
              | obtain ⟨pB, hpB, h⟩ := exceptBind_ok h
              | obtain ⟨pB, hpB, h⟩ := exceptBind_ok h.symm
            try dsimp only at h
            repeat' split at h
            all_goals try (first
              | obtain ⟨mt, hmt, h⟩ := exceptBind_ok h
              | obtain ⟨mt, hmt, h⟩ := exceptBind_ok h.symm)
            all_goals first
              | (cases h; exact pres_of_eq
                  ((hE _ _ _ _ _ hpB).1.trans ((hE _ _ _ _ _ hpA).1.trans hv1))
                  ((hE _ _ _ _ _ hpB).2.trans ((hE _ _ _ _ _ hpA).2.trans hs1)))
              | cases h
          · -- two sub-evaluations, all emits
            repeat' split at h
            all_goals try (first
              | cases h
              | (rename_i hbad; exact absurd hbad (by decide))
              | (rename_i hbad hx1; exact absurd hbad (by decide))
              | (rename_i hbad hx1 hx2; exact absurd hbad (by decide))
              | exact absurd rfl (by assumption)
              | (obtain ⟨y0, hy0, h2⟩ := exceptBind_ok h; cases hy0)
              | (obtain ⟨y0, hy0, h2⟩ := exceptBind_ok h.symm; cases hy0))
            first
              | obtain ⟨pA, hpA, h⟩ := exceptBind_ok h
              | obtain ⟨pA, hpA, h⟩ := exceptBind_ok h.symm
            try dsimp only at h
            first
              | obtain ⟨pB, hpB, h⟩ := exceptBind_ok h
              | obtain ⟨pB, hpB, h⟩ := exceptBind_ok h.symm
            try dsimp only at h
            repeat' split at h
            all_goals try (first
              | obtain ⟨mt, hmt, h⟩ := exceptBind_ok h
              | obtain ⟨mt, hmt, h⟩ := exceptBind_ok h.symm)
            all_goals first
              | (cases h; exact pres_of_eq
                  ((hE _ _ _ _ _ hpB).1.trans ((hE _ _ _ _ _ hpA).1.trans hv1))
                  ((hE _ _ _ _ _ hpB).2.trans ((hE _ _ _ _ _ hpA).2.trans hs1)))
              | cases h
          · -- two sub-evaluations, all emits
            repeat' split at h
            all_goals try (first
              | cases h
              | (rename_i hbad; exact absurd hbad (by decide))
              | (rename_i hbad hx1; exact absurd hbad (by decide))
              | (rename_i hbad hx1 hx2; exact absurd hbad (by decide))
              | exact absurd rfl (by assumption)
              | (obtain ⟨y0, hy0, h2⟩ := exceptBind_ok h; cases hy0)
              | (obtain ⟨y0, hy0, h2⟩ := exceptBind_ok h.symm; cases hy0))
            first
              | obtain ⟨pA, hpA, h⟩ := exceptBind_ok h
              | obtain ⟨pA, hpA, h⟩ := exceptBind_ok h.symm
            try dsimp only at h
            first
              | obtain ⟨pB, hpB, h⟩ := exceptBind_ok h
              | obtain ⟨pB, hpB, h⟩ := exceptBind_ok h.symm
            try dsimp only at h
            repeat' split at h
            all_goals try (first
              | obtain ⟨mt, hmt, h⟩ := exceptBind_ok h
              | obtain ⟨mt, hmt, h⟩ := exceptBind_ok h.symm)
            all_goals first
              | (cases h; exact pres_of_eq
                  ((hE _ _ _ _ _ hpB).1.trans ((hE _ _ _ _ _ hpA).1.trans hv1))
                  ((hE _ _ _ _ _ hpB).2.trans ((hE _ _ _ _ _ hpA).2.trans hs1)))
              | cases h
          · -- two sub-evaluations, all emits
            repeat' split at h
            all_goals try (first
              | cases h
              | (rename_i hbad; exact absurd hbad (by decide))
              | (rename_i hbad hx1; exact absurd hbad (by decide))
              | (rename_i hbad hx1 hx2; exact absurd hbad (by decide))
              | exact absurd rfl (by assumption)
              | (obtain ⟨y0, hy0, h2⟩ := exceptBind_ok h; cases hy0)
              | (obtain ⟨y0, hy0, h2⟩ := exceptBind_ok h.symm; cases hy0))
            first
              | obtain ⟨pA, hpA, h⟩ := exceptBind_ok h
              | obtain ⟨pA, hpA, h⟩ := exceptBind_ok h.symm
            try dsimp only at h
            first
              | obtain ⟨pB, hpB, h⟩ := exceptBind_ok h
              | obtain ⟨pB, hpB, h⟩ := exceptBind_ok h.symm
            try dsimp only at h
            repeat' split at h
            all_goals try (first
              | obtain ⟨mt, hmt, h⟩ := exceptBind_ok h
              | obtain ⟨mt, hmt, h⟩ := exceptBind_ok h.symm)
            all_goals first
              | (cases h; exact pres_of_eq
                  ((hE _ _ _ _ _ hpB).1.trans ((hE _ _ _ _ _ hpA).1.trans hv1))
                  ((hE _ _ _ _ _ hpB).2.trans ((hE _ _ _ _ _ hpA).2.trans hs1)))
              | cases h
          · -- function call
            repeat' split at h
            all_goals try (cases h)
            all_goals first
              | obtain ⟨cf, hcf, h⟩ := exceptBind_ok h
              | obtain ⟨cf, hcf, h⟩ := exceptBind_ok h.symm
            all_goals try dsimp only at h
            all_goals repeat' split at h
            all_goals first
              | (cases h
                 have hfold : cf.vars = c1.vars ∧ cf.sp_offset = c1.sp_offset := by
                   refine foldlM_exact ?_ _ _ _ hcf
                   intro a x b hab
                   obtain ⟨p, hp, hab⟩ := exceptBind_ok hab
                   try dsimp only at hab
                   obtain ⟨mt, hmt, hab⟩ := exceptBind_ok hab
                   rw [pure_ok] at hab
                   cases hab
                   have hq := hE _ _ _ _ _ hp
                   exact ⟨hq.1, hq.2⟩
                 exact pres_of_eq (hfold.1.trans hv1) (hfold.2.trans hs1))
              | cases h

/-- C6 counterexample: lowering the statement `(cond 1 ((local uint32 z 5)))`
from the initial state succeeds and leaves `sp_offset = -4`, not `0`: a
`cond` (or `switch`) whose body declares a local variable leaks the symbolic
stack offset, so it is not true that every non-`local` statement leaves
`sp_offset` unchanged. -/
theorem c6_cond_leaks_sp_offset :
    (generate_expression fsNone 5 Compiler.init c6CondNode false true 1).map
        (fun p => p.1.sp_offset) = .ok (-4) ∧ ((-4 : Int) ≠ 0) :=
  ⟨rfl, by decide⟩

/-- C6 (amended): lowering any form in statement context either preserves
the scope stack and `sp_offset` exactly, or -- when the lowered form
declared locals, as `cond`/`switch` bodies may -- extends the innermost
scope and decreases `sp_offset` by 4 per new variable; a `while` statement
whose body declares a local restores `sp_offset` exactly. -/
theorem c6_statement_stack_discipline (fs : FileEnv) (fuel : Nat)
    (c : Compiler) (node : Node) (stmt : Bool) (r : Nat) (c2 : Compiler)
    (t : Option String)
    (h : generate_expression fs fuel c node false stmt r = .ok (c2, t)) :
    StackOk c c2 ∧
      (generate_expression fsNone 5 Compiler.init c6WhileNode false true 1 =
          .ok (c6WhileResult, none) ∧
        c6WhileResult.sp_offset = Compiler.init.sp_offset) :=
  ⟨(genExpr_stackPres fs fuel c node stmt r c2 t h).1, rfl, rfl⟩

/-- Witness: the stack-discipline theorem applied to the concrete lowering
of `(while 1 (local uint32 z 5))` from the initial state. -/
theorem c6_statement_stack_discipline_witness :
    generate_expression fsNone 5 Compiler.init c6WhileNode false true 1 =
        .ok (c6WhileResult, none) ∧
      (StackOk Compiler.init c6WhileResult ∧
        (generate_expression fsNone 5 Compiler.init c6WhileNode false true 1 =
            .ok (c6WhileResult, none) ∧
          c6WhileResult.sp_offset = Compiler.init.sp_offset)) :=
  ⟨rfl, c6_statement_stack_discipline fsNone 5 Compiler.init c6WhileNode true 1
    c6WhileResult none rfl⟩

/-! ## C5: merge_types -/

/-- C5 counterexample: the claim says the `int`-with-concrete-type rule
applies in every mode, but in `off` mode `merge_types` returns `None` before
any other rule is consulted: `merge_types("int", "uint8")` is `None`, not
`uint8`. -/
theorem c5_off_mode_overrides_int_rule :
    ({ Compiler.init with type_checking := "off" }).merge_types (some "int")
        (some "uint8") (.int 0 1 1) = .ok none ∧
      (none : Option String) ≠ some "uint8" :=
  ⟨rfl, by decide⟩

/-- C5 (amended): `merge_types` first returns `None` whenever the mode is
`off`; in the other modes it returns `L` when `L = R`, the concrete type when
exactly one side is the literal `int` and the other a concrete integer type,
the wider type (by `TYPE_SIZES`) when the mode is `loose` and both sides are
unsigned (resp. both signed) integer types, and otherwise raises
"cannot merge types L and R". -/
theorem c5_merge_types_spec (c : Compiler) (l r : Option String) (n : Node) :
    (c.type_checking = "off" → c.merge_types l r n = .ok none) ∧
    (c.type_checking ≠ "off" → l = r → c.merge_types l r n = .ok l) ∧
    (c.type_checking ≠ "off" → ∀ t, l = some "int" → r = some t →
      t ∈ INT_TYPES → c.merge_types l r n = .ok (some t)) ∧
    (c.type_checking ≠ "off" → ∀ t, l = some t → r = some "int" →
      t ∈ INT_TYPES → c.merge_types l r n = .ok (some t)) ∧
    (c.type_checking = "loose" → ∀ a b, l = some a → r = some b → a ≠ b →
      a ∈ UNSIGNED_INT_TYPES → b ∈ UNSIGNED_INT_TYPES →
      ∃ sa sb, TYPE_SIZES a = some sa ∧ TYPE_SIZES b = some sb ∧
        c.merge_types l r n = .ok (some (if sa < sb then b else a))) ∧
    (c.type_checking = "loose" → ∀ a b, l = some a → r = some b → a ≠ b →
      a ∈ SIGNED_INT_TYPES → b ∈ SIGNED_INT_TYPES →
      ∃ sa sb, TYPE_SIZES a = some sa ∧ TYPE_SIZES b = some sb ∧
        c.merge_types l r n = .ok (some (if sa < sb then b else a))) ∧
    (c.type_checking ≠ "off" → l ≠ r →
      ¬(l = some "int" ∧ optMem r INT_TYPES = true) →
      ¬(optMem l INT_TYPES = true ∧ r = some "int") →
      ¬(c.type_checking = "loose" ∧ optMem l UNSIGNED_INT_TYPES = true ∧
        optMem r UNSIGNED_INT_TYPES = true) →
      ¬(c.type_checking = "loose" ∧ optMem l SIGNED_INT_TYPES = true ∧
        optMem r SIGNED_INT_TYPES = true) →
      c.merge_types l r n =
        .error (cerr
          s!"cannot merge types \x27{pyTypeStr l}\x27 and \x27{pyTypeStr r}\x27"
          n)) := by
  refine ⟨?_, ?_, ?_, ?_, ?_, ?_, ?_⟩
  · intro hoff
    simp [Compiler.merge_types, hoff]
  · intro hoff hlr
    simp [Compiler.merge_types, hoff, hlr]
  · intro hoff t hl hr ht
    subst hl; subst hr
    have hne : (some "int" : Option String) ≠ some t := by
      simp [UNSIGNED_INT_TYPES, SIGNED_INT_TYPES, INT_TYPES] at ht
      rcases ht with h | h | h | h | h | h <;> simp [h]
    simp [Compiler.merge_types, hoff, hne, optMem, ht]
  · intro hoff t hl hr ht
    subst hl; subst hr
    have hti : t ≠ "int" := by
      simp [UNSIGNED_INT_TYPES, SIGNED_INT_TYPES, INT_TYPES] at ht
      rcases ht with h | h | h | h | h | h <;> simp [h]
    simp [Compiler.merge_types, hoff, hti, optMem, ht]
  · intro hm a b hl hr hab ha hb
    subst hl; subst hr
    simp [UNSIGNED_INT_TYPES] at ha hb
    rcases ha with h | h | h <;> rcases hb with h2 | h2 | h2 <;>
      subst h <;> subst h2 <;> first
        | exact absurd rfl hab
        | exact ⟨_, _, rfl, rfl, by simp [Compiler.merge_types, hm, indexMax,
            optMem, UNSIGNED_INT_TYPES, SIGNED_INT_TYPES, INT_TYPES]⟩
  · intro hm a b hl hr hab ha hb
    subst hl; subst hr
    simp [SIGNED_INT_TYPES] at ha hb
    rcases ha with h | h | h <;> rcases hb with h2 | h2 | h2 <;>
      subst h <;> subst h2 <;> first
        | exact absurd rfl hab
        | exact ⟨_, _, rfl, rfl, by simp [Compiler.merge_types, hm, indexMax,
            optMem, UNSIGNED_INT_TYPES, SIGNED_INT_TYPES, INT_TYPES]⟩
  · intro hoff hlr h3 h4 h5 h6
    rw [Compiler.merge_types, if_neg hoff, if_neg hlr, if_neg ?_, if_neg ?_,
      if_neg h5, if_neg h6]
    · intro hc
      exact h4 ⟨hc.1, hc.2⟩
    · intro hc
      exact h3 ⟨hc.1, hc.2⟩

/-- C5 witness: in loose mode, `uint8` and `uint32` merge to the wider
`uint32`, whose size 4 exceeds 1. -/
theorem c5_merge_types_spec_witness :
    ∃ sa sb, TYPE_SIZES "uint8" = some sa ∧ TYPE_SIZES "uint32" = some sb ∧
      Compiler.init.merge_types (some "uint8") (some "uint32") (.int 0 1 1) =
        .ok (some (if sa < sb then "uint32" else "uint8")) :=
  (c5_merge_types_spec Compiler.init (some "uint8") (some "uint32")
      (.int 0 1 1)).2.2.2.2.1 rfl "uint8" "uint32" rfl rfl (by decide)
    (by decide) (by decide)

/-! ## C2 and C4: static-family code bugs -/

/-- C2: `array` is whitelisted as a top-level form, but `generate_expression`
has no branch for it: already the definitions pass on `(array uint32 xs 4)`
falls through to the function-call lookup and aborts with
"undefined function"; nothing is ever recorded or emitted. -/
theorem c2_array_form_is_undefined_function :
    compileRun fsNone 20 Compiler.init c2Ast =
      .error (.compileError "undefined function" 1 2) ∧
    generate_expression fsNone 20
        { Compiler.init with definitions_mode := true }
        (.list [.word "array" 1 3, .word "uint32" 1 9, .word "xs" 1 16,
          .int 4 1 19] 1 2) true false 1 =
      .error (.compileError "undefined function" 1 2) :=
  ⟨rfl, rfl⟩

/-- C4: for `(static uint32 arr (1 2 3))` the recorded length is
`len(node[2])` — `node[2]` is the *name* word, so the stored length is 1,
not the element count 3 — and `(len-var arr)` therefore emits `mov 1 $1`. -/
theorem c4_static_list_length_recorded_as_one :
    (compileRun fsNone 20 Compiler.init c4Ast).map
        (fun c => (Option.map VarRec.length (dictGet c.varsGlobal "arr"),
          c.code)) =
      .ok (some 1,
        ".export #arr\n#arr:\n.dword 1\n.dword 2\n.dword 3\n.export #f\n#f:\npush $12\nmov $15 $12\nmov 1 $1\nmov $12 $15\npop $12\nret\nmov $12 $15\npop $12\nret\n") ∧
    (1 : Nat) ≠ 3 :=
  ⟨rfl, by decide⟩

end VM
